import Mathlib

/-!
# HRMS backend: tenant scoping and audit logging

A shallow embedding of the request handlers of `backend/src/controllers`
(`employeeController.js`, `teamController.js`, `authController.js`) and of
`backend/src/middlewares/errorHandler.js`.

The relational store is a record of row lists with one id sequence per table.
A handler is a function from the store (and the request) to the new store and
the response. Ids are natural numbers; a request value that may be missing is
a `JsVal`. The instant of a request is an explicit argument `now`.
-/

namespace HRMS

/-! ## Request values -/

/-- A string-valued property of a request body: missing, `null`, or a string. -/
inductive JsVal where
  | undefined
  | null
  | str (s : String)
  deriving DecidableEq, Repr

/-- JavaScript truthiness: `!v` is false exactly for a non-empty string. -/
def JsVal.truthy : JsVal → Bool
  | .str s => s != ""
  | _ => false

/-- The value `a || b` where `b` is a string already stored. -/
def JsVal.orElse (v : JsVal) (old : String) : String :=
  match v with
  | .str s => if s != "" then s else old
  | _ => old

/-- The value stored in a nullable text column for a request value. -/
def JsVal.toColumn : JsVal → Option String
  | .str s => some s
  | _ => none

/-- The value `v !== undefined ? v : old` for a nullable text column. -/
def JsVal.definedOr (v : JsVal) (old : Option String) : Option String :=
  match v with
  | .undefined => old
  | .null => none
  | .str s => some s

/-- The identity that the access guard puts in `req.user`. -/
structure Identity where
  userId : Nat
  orgId : Nat
  email : String
  deriving DecidableEq, Repr

/-! ## Rows -/

/-- Row of `organisations` (`models/organisation.js`). -/
structure Organisation where
  id : Nat
  name : String
  created_at : Nat
  deriving DecidableEq, Repr

/-- Modelled from the spec: `models/user.js` is not among the sources; the
columns are the ones `authController.js` reads and writes. -/
structure User where
  id : Nat
  organisation_id : Nat
  email : String
  password_hash : String
  name : String
  deriving DecidableEq, Repr

/-- Modelled from the spec: `models/employee.js` is not among the sources; the
columns are the ones `employeeController.js` reads and writes. -/
structure Employee where
  id : Nat
  organisation_id : Nat
  first_name : String
  last_name : String
  email : String
  phone : Option String
  created_at : Nat
  deriving DecidableEq, Repr

/-- Modelled from the spec: `models/team.js` is not among the sources; the
columns are the ones `teamController.js` reads and writes. -/
structure Team where
  id : Nat
  organisation_id : Nat
  name : String
  description : Option String
  created_at : Nat
  deriving DecidableEq, Repr

/-- Modelled from the spec: `models/employeeTeam.js` is not among the sources;
the junction row holds the pair and the assignment instant. -/
structure EmployeeTeam where
  employee_id : Nat
  team_id : Nat
  assigned_at : Nat
  deriving DecidableEq, Repr

/-- A scalar inside a `meta` payload. -/
inductive MetaAtom where
  | undefined
  | null
  | num (n : Nat)
  | str (s : String)
  deriving DecidableEq, Repr

/-- A value inside a `meta` payload: a scalar or one nested object. -/
inductive MetaVal where
  | atom (a : MetaAtom)
  | obj (fields : List (String × MetaAtom))
  deriving DecidableEq, Repr

/-- Row of `logs` (`models/log.js`). -/
structure Log where
  id : Nat
  organisation_id : Option Nat
  user_id : Option Nat
  action : String
  meta : List (String × MetaVal)
  timestamp : Nat
  deriving DecidableEq, Repr

/-- The relational store: the six tables and their id sequences. -/
structure Store where
  organisations : List Organisation
  users : List User
  employees : List Employee
  teams : List Team
  employeeTeams : List EmployeeTeam
  logs : List Log
  nextOrganisationId : Nat
  nextUserId : Nat
  nextEmployeeId : Nat
  nextTeamId : Nat
  nextLogId : Nat
  deriving DecidableEq, Repr

/-- The store of a fresh database: no row, every sequence at 1. -/
def Store.empty : Store :=
  { organisations := [], users := [], employees := [], teams := [],
    employeeTeams := [], logs := [],
    nextOrganisationId := 1, nextUserId := 1, nextEmployeeId := 1,
    nextTeamId := 1, nextLogId := 1 }

/-! ## Responses and errors -/

/-- An employee together with the rows of its `teams` include. -/
structure EmployeeWith (α : Type) where
  row : Employee
  teams : List α
  deriving DecidableEq, Repr

/-- A team together with the rows of its `employees` include. -/
structure TeamWith (α : Type) where
  row : Team
  employees : List α
  deriving DecidableEq, Repr

/-- Included team in the list view: `attributes: ['id', 'name']`. -/
structure TeamBrief where
  id : Nat
  name : String
  deriving DecidableEq, Repr

/-- Included team in the detail view, with `assigned_at` of the junction. -/
structure TeamDetail where
  id : Nat
  name : String
  description : Option String
  assigned_at : Nat
  deriving DecidableEq, Repr

/-- Included employee in the list view. -/
structure EmployeeBrief where
  id : Nat
  first_name : String
  last_name : String
  email : String
  deriving DecidableEq, Repr

/-- Included employee in the detail view, with `assigned_at` of the junction. -/
structure EmployeeDetail where
  id : Nat
  first_name : String
  last_name : String
  email : String
  phone : Option String
  assigned_at : Nat
  deriving DecidableEq, Repr

/-- The `user` object of the register and login responses. -/
structure AuthUser where
  id : Nat
  name : String
  email : String
  organisationId : Nat
  organisationName : String
  deriving DecidableEq, Repr

/-- The JSON body of a response. -/
inductive Body where
  | message (m : String)
  | validation (m : String) (errors : List (Option String × String))
  | duplicate (m : String) (field : Option String)
  | employee (row : Employee)
  | employeeDetail (row : EmployeeWith TeamDetail)
  | employees (rows : List (EmployeeWith TeamBrief))
  | team (row : Team)
  | teamDetail (row : TeamWith EmployeeDetail)
  | teams (rows : List (TeamWith EmployeeBrief))
  | logs (rows : List Log)
  | auth (m : String) (token : String) (user : AuthUser)
  deriving DecidableEq, Repr

/-- A response: the status code and the body. -/
structure Response where
  status : Nat
  body : Body
  deriving DecidableEq, Repr

/-- One entry of `err.errors`. -/
structure ErrorItem where
  path : Option String
  message : String
  deriving DecidableEq, Repr

/-- The properties of a thrown error that `errorHandler` reads. -/
structure JsError where
  name : String
  message : String
  status : Option Nat
  errors : List ErrorItem
  deriving DecidableEq, Repr

/-- The function `errorHandler` of `middlewares/errorHandler.js`. -/
def errorHandler (err : JsError) : Response :=
  if err.name == "SequelizeValidationError" then
    ⟨400, .validation "Validation error" (err.errors.map fun e => (e.path, e.message))⟩
  else if err.name == "SequelizeUniqueConstraintError" then
    ⟨400, .duplicate "Duplicate entry" (err.errors.head?.bind fun e => e.path)⟩
  else
    ⟨match err.status with
      | some n => if n != 0 then n else 500
      | none => 500,
     .message (if err.message != "" then err.message else "Internal server error")⟩

/-- The `SequelizeValidationError` thrown for the items the validators report. -/
def validationError (items : List ErrorItem) : JsError :=
  { name := "SequelizeValidationError",
    message := ",\n".intercalate (items.map fun i => "Validation error: " ++ i.message),
    status := none,
    errors := items }

/-- What the handlers use and `src/` does not define: the hooks, methods and
validators of the models `user.js`, `employee.js`, `team.js` and
`employeeTeam.js`, and the token signer with its secret and lifetime. -/
structure Config where
  /-- The `beforeCreate` hook of `User`. -/
  hashPassword : String → String
  /-- The method `user.comparePassword(plain)`, given the stored hash. -/
  comparePassword : String → String → Bool
  /-- The call `jwt.sign(payload, JWT_SECRET, expiresIn)` at an instant. -/
  jwtSign : Identity → Nat → String
  /-- The validators of `User`: the items they report for a row, none when
  the row is valid. -/
  validateUser : User → List ErrorItem
  /-- The validators of `Employee`. -/
  validateEmployee : Employee → List ErrorItem
  /-- The validators of `Team`. -/
  validateTeam : Team → List ErrorItem
  /-- Whether deleting an employee or a team deletes its junction rows. -/
  cascade : Bool

/-! ## Store operations -/

/-- The statement `Log.create` with its four columns; `timestamp` defaults to now. -/
def logCreate (s : Store) (now : Nat) (org user : Option Nat) (action : String)
    (payload : List (String × MetaVal)) : Store :=
  { s with
    logs := s.logs ++ [{ id := s.nextLogId, organisation_id := org, user_id := user,
                         action := action, meta := payload, timestamp := now }]
    nextLogId := s.nextLogId + 1 }

/-- The query `Employee.findOne` on `id` and `organisation_id`. -/
def findEmployee (s : Store) (id org : Nat) : Option Employee :=
  s.employees.find? fun e => e.id == id && e.organisation_id == org

/-- The query `Team.findOne` on `id` and `organisation_id`. -/
def findTeam (s : Store) (id org : Nat) : Option Team :=
  s.teams.find? fun t => t.id == id && t.organisation_id == org

/-- The query `EmployeeTeam.findOne` on `employee_id` and `team_id`. -/
def findAssignment (s : Store) (employeeId teamId : Nat) : Option EmployeeTeam :=
  s.employeeTeams.find? fun r => r.employee_id == employeeId && r.team_id == teamId

/-- The join of the `teams` include: the junction rows of the employee, each
with the team it names. The include carries no organisation filter. -/
def teamsOf (s : Store) (e : Employee) : List (Team × EmployeeTeam) :=
  (s.employeeTeams.filter fun r => r.employee_id == e.id).flatMap fun r =>
    (s.teams.filter fun t => t.id == r.team_id).map fun t => (t, r)

/-- The join of the `employees` include. -/
def employeesOf (s : Store) (t : Team) : List (Employee × EmployeeTeam) :=
  (s.employeeTeams.filter fun r => r.team_id == t.id).flatMap fun r =>
    (s.employees.filter fun e => e.id == r.employee_id).map fun e => (e, r)

/-- The clause `order: [[column, 'DESC']]`. -/
def orderDesc {α : Type} (key : α → Nat) (rows : List α) : List α :=
  rows.insertionSort fun a b => key b ≤ key a

/-- Conversion of a request value into a `meta` scalar. -/
def JsVal.toMeta : JsVal → MetaAtom
  | .undefined => .undefined
  | .null => .null
  | .str s => .str s

/-- Conversion of a nullable text column into a `meta` scalar. -/
def columnMeta : Option String → MetaAtom
  | some s => .str s
  | none => .null

/-- The string of a request value that passed the truthiness check. -/
def JsVal.getStr : JsVal → String
  | .str s => s
  | _ => ""

/-! ## employeeController.js -/

/-- The body of an employee create or update request. -/
structure EmployeeBody where
  first_name : JsVal
  last_name : JsVal
  email : JsVal
  phone : JsVal
  deriving DecidableEq, Repr

/-- Handler `listEmployees`. -/
def listEmployees (s : Store) (u : Identity) : Response :=
  let rows := orderDesc Employee.created_at
    (s.employees.filter fun e => e.organisation_id == u.orgId)
  ⟨200, .employees (rows.map fun e =>
    { row := e, teams := (teamsOf s e).map fun p => { id := p.1.id, name := p.1.name } })⟩

/-- Handler `getEmployee`. -/
def getEmployee (s : Store) (u : Identity) (id : Nat) : Response :=
  match findEmployee s id u.orgId with
  | none => ⟨404, .message "Employee not found"⟩
  | some e =>
    ⟨200, .employeeDetail
      { row := e,
        teams := (teamsOf s e).map fun p =>
          { id := p.1.id, name := p.1.name, description := p.1.description,
            assigned_at := p.2.assigned_at } }⟩

/-- Handler `createEmployee`. -/
def createEmployee (cfg : Config) (now : Nat) (s : Store) (u : Identity)
    (b : EmployeeBody) : Store × Response :=
  if !b.first_name.truthy || !b.last_name.truthy || !b.email.truthy then
    (s, ⟨400, .message "First name, last name, and email are required"⟩)
  else
    let employee : Employee :=
      { id := s.nextEmployeeId, organisation_id := u.orgId,
        first_name := b.first_name.getStr, last_name := b.last_name.getStr,
        email := b.email.getStr, phone := b.phone.toColumn, created_at := now }
    match cfg.validateEmployee employee with
    | item :: items => (s, errorHandler (validationError (item :: items)))
    | [] =>
      let s1 := { s with employees := s.employees ++ [employee]
                         nextEmployeeId := s.nextEmployeeId + 1 }
      let s2 := logCreate s1 now (some u.orgId) (some u.userId) "employee_created"
        [("employeeId", .atom (.num employee.id)),
         ("first_name", .atom b.first_name.toMeta),
         ("last_name", .atom b.last_name.toMeta),
         ("email", .atom b.email.toMeta)]
      (s2, ⟨201, .employee employee⟩)

/-- Handler `updateEmployee`. -/
def updateEmployee (cfg : Config) (now : Nat) (s : Store) (u : Identity) (id : Nat)
    (b : EmployeeBody) : Store × Response :=
  match findEmployee s id u.orgId with
  | none => (s, ⟨404, .message "Employee not found"⟩)
  | some employee =>
    let set : Employee → Employee := fun x =>
      { x with first_name := b.first_name.orElse employee.first_name,
               last_name := b.last_name.orElse employee.last_name,
               email := b.email.orElse employee.email,
               phone := b.phone.definedOr employee.phone }
    match cfg.validateEmployee (set employee) with
    | item :: items => (s, errorHandler (validationError (item :: items)))
    | [] =>
      let s1 := { s with employees := s.employees.map fun x =>
                    if x.id == employee.id then set x else x }
      let s2 := logCreate s1 now (some u.orgId) (some u.userId) "employee_updated"
        [("employeeId", .atom (.num employee.id)),
         ("updates", .obj [("first_name", b.first_name.toMeta),
                           ("last_name", b.last_name.toMeta),
                           ("email", b.email.toMeta),
                           ("phone", b.phone.toMeta)])]
      (s2, ⟨200, .employee (set employee)⟩)

/-- The object `employee.toJSON()`. -/
def Employee.toJSON (e : Employee) : List (String × MetaVal) :=
  [("id", .atom (.num e.id)),
   ("organisation_id", .atom (.num e.organisation_id)),
   ("first_name", .atom (.str e.first_name)),
   ("last_name", .atom (.str e.last_name)),
   ("email", .atom (.str e.email)),
   ("phone", .atom (columnMeta e.phone)),
   ("created_at", .atom (.num e.created_at))]

/-- The statement `employee.destroy()`; with `cascade` the junction rows of
the employee go with it. -/
def destroyEmployee (cfg : Config) (s : Store) (employee : Employee) : Store :=
  { s with
    employees := s.employees.filter fun x => x.id != employee.id
    employeeTeams :=
      if cfg.cascade then s.employeeTeams.filter fun r => r.employee_id != employee.id
      else s.employeeTeams }

/-- Handler `deleteEmployee`. -/
def deleteEmployee (cfg : Config) (now : Nat) (s : Store) (u : Identity) (id : Nat) :
    Store × Response :=
  match findEmployee s id u.orgId with
  | none => (s, ⟨404, .message "Employee not found"⟩)
  | some employee =>
    let employeeData := employee.toJSON
    let s1 := destroyEmployee cfg s employee
    let s2 := logCreate s1 now (some u.orgId) (some u.userId) "employee_deleted"
      (("employeeId", .atom (.num id)) :: employeeData)
    (s2, ⟨200, .message "Employee deleted successfully"⟩)

/-! ## teamController.js -/

/-- The body of a team create or update request. -/
structure TeamBody where
  name : JsVal
  description : JsVal
  deriving DecidableEq, Repr

/-- Handler `listTeams`. -/
def listTeams (s : Store) (u : Identity) : Response :=
  let rows := orderDesc Team.created_at
    (s.teams.filter fun t => t.organisation_id == u.orgId)
  ⟨200, .teams (rows.map fun t =>
    { row := t,
      employees := (employeesOf s t).map fun p =>
        { id := p.1.id, first_name := p.1.first_name, last_name := p.1.last_name,
          email := p.1.email } })⟩

/-- Handler `getTeam`. -/
def getTeam (s : Store) (u : Identity) (id : Nat) : Response :=
  match findTeam s id u.orgId with
  | none => ⟨404, .message "Team not found"⟩
  | some t =>
    ⟨200, .teamDetail
      { row := t,
        employees := (employeesOf s t).map fun p =>
          { id := p.1.id, first_name := p.1.first_name, last_name := p.1.last_name,
            email := p.1.email, phone := p.1.phone, assigned_at := p.2.assigned_at } }⟩

/-- Handler `createTeam`. -/
def createTeam (cfg : Config) (now : Nat) (s : Store) (u : Identity) (b : TeamBody) :
    Store × Response :=
  if !b.name.truthy then
    (s, ⟨400, .message "Team name is required"⟩)
  else
    let team : Team :=
      { id := s.nextTeamId, organisation_id := u.orgId, name := b.name.getStr,
        description := b.description.toColumn, created_at := now }
    match cfg.validateTeam team with
    | item :: items => (s, errorHandler (validationError (item :: items)))
    | [] =>
      let s1 := { s with teams := s.teams ++ [team], nextTeamId := s.nextTeamId + 1 }
      let s2 := logCreate s1 now (some u.orgId) (some u.userId) "team_created"
        [("teamId", .atom (.num team.id)),
         ("name", .atom b.name.toMeta),
         ("description", .atom b.description.toMeta)]
      (s2, ⟨201, .team team⟩)

/-- Handler `updateTeam`. -/
def updateTeam (cfg : Config) (now : Nat) (s : Store) (u : Identity) (id : Nat)
    (b : TeamBody) : Store × Response :=
  match findTeam s id u.orgId with
  | none => (s, ⟨404, .message "Team not found"⟩)
  | some team =>
    let set : Team → Team := fun x =>
      { x with name := b.name.orElse team.name,
               description := b.description.definedOr team.description }
    match cfg.validateTeam (set team) with
    | item :: items => (s, errorHandler (validationError (item :: items)))
    | [] =>
      let s1 := { s with teams := s.teams.map fun x =>
                    if x.id == team.id then set x else x }
      let s2 := logCreate s1 now (some u.orgId) (some u.userId) "team_updated"
        [("teamId", .atom (.num team.id)),
         ("updates", .obj [("name", b.name.toMeta),
                           ("description", b.description.toMeta)])]
      (s2, ⟨200, .team (set team)⟩)

/-- The object `team.toJSON()`. -/
def Team.toJSON (t : Team) : List (String × MetaVal) :=
  [("id", .atom (.num t.id)),
   ("organisation_id", .atom (.num t.organisation_id)),
   ("name", .atom (.str t.name)),
   ("description", .atom (columnMeta t.description)),
   ("created_at", .atom (.num t.created_at))]

/-- The statement `team.destroy()`; with `cascade` the junction rows of the
team go with it. -/
def destroyTeam (cfg : Config) (s : Store) (team : Team) : Store :=
  { s with
    teams := s.teams.filter fun x => x.id != team.id
    employeeTeams :=
      if cfg.cascade then s.employeeTeams.filter fun r => r.team_id != team.id
      else s.employeeTeams }

/-- Handler `deleteTeam`. -/
def deleteTeam (cfg : Config) (now : Nat) (s : Store) (u : Identity) (id : Nat) :
    Store × Response :=
  match findTeam s id u.orgId with
  | none => (s, ⟨404, .message "Team not found"⟩)
  | some team =>
    let teamData := team.toJSON
    let s1 := destroyTeam cfg s team
    let s2 := logCreate s1 now (some u.orgId) (some u.userId) "team_deleted"
      (("teamId", .atom (.num id)) :: teamData)
    (s2, ⟨200, .message "Team deleted successfully"⟩)

/-- Truthiness of the `employeeId` of an assign or unassign body: a number
that is present and not zero. -/
def idTruthy : Option Nat → Bool
  | some n => n != 0
  | none => false

/-- Handler `assignEmployee`. -/
def assignEmployee (now : Nat) (s : Store) (u : Identity) (teamId : Nat)
    (employeeId : Option Nat) : Store × Response :=
  if !idTruthy employeeId then
    (s, ⟨400, .message "Employee ID is required"⟩)
  else
    let eid := employeeId.getD 0
    match findTeam s teamId u.orgId with
    | none => (s, ⟨404, .message "Team not found"⟩)
    | some team =>
      match findEmployee s eid u.orgId with
      | none => (s, ⟨404, .message "Employee not found"⟩)
      | some employee =>
        match findAssignment s eid teamId with
        | some _ => (s, ⟨400, .message "Employee already assigned to this team"⟩)
        | none =>
          let s1 := { s with employeeTeams := s.employeeTeams ++
                        [{ employee_id := eid, team_id := teamId, assigned_at := now }] }
          let s2 := logCreate s1 now (some u.orgId) (some u.userId)
            "employee_assigned_to_team"
            [("employeeId", .atom (.num eid)),
             ("teamId", .atom (.num teamId)),
             ("employeeName", .atom (.str (employee.first_name ++ " " ++ employee.last_name))),
             ("teamName", .atom (.str team.name))]
          (s2, ⟨200, .message "Employee assigned to team successfully"⟩)

/-- Handler `unassignEmployee`. -/
def unassignEmployee (now : Nat) (s : Store) (u : Identity) (teamId : Nat)
    (employeeId : Option Nat) : Store × Response :=
  if !idTruthy employeeId then
    (s, ⟨400, .message "Employee ID is required"⟩)
  else
    let eid := employeeId.getD 0
    match findTeam s teamId u.orgId with
    | none => (s, ⟨404, .message "Team not found"⟩)
    | some _ =>
      match findAssignment s eid teamId with
      | none => (s, ⟨404, .message "Employee not assigned to this team"⟩)
      | some assignment =>
        let s1 := { s with employeeTeams := s.employeeTeams.filter fun r =>
                      !(r.employee_id == assignment.employee_id &&
                        r.team_id == assignment.team_id) }
        let s2 := logCreate s1 now (some u.orgId) (some u.userId)
          "employee_unassigned_from_team"
          [("employeeId", .atom (.num eid)), ("teamId", .atom (.num teamId))]
        (s2, ⟨200, .message "Employee unassigned from team successfully"⟩)

/-- Handler `getLogs`. -/
def getLogs (s : Store) (u : Identity) : Response :=
  ⟨200, .logs ((orderDesc Log.timestamp
    (s.logs.filter fun l => l.organisation_id == some u.orgId)).take 100)⟩

/-! ## authController.js -/

/-- The body of a register request. -/
structure RegisterBody where
  orgName : JsVal
  adminName : JsVal
  email : JsVal
  password : JsVal
  deriving DecidableEq, Repr

/-- The body of a login request. -/
structure LoginBody where
  email : JsVal
  password : JsVal
  deriving DecidableEq, Repr

/-- The `length` of a JavaScript string: its number of UTF-16 code units. -/
def jsLength (str : String) : Nat :=
  (str.toList.map fun c => if c.val.toNat < 65536 then 1 else 2).sum

/-- The characters of the class `[\s\t\r\n]` of a JavaScript regular expression. -/
def jsSpace (c : Char) : Bool :=
  let n := c.val.toNat
  n == 9 || n == 10 || n == 11 || n == 12 || n == 13 || n == 32 || n == 160 ||
  n == 5760 || (8192 ≤ n && n ≤ 8202) || n == 8232 || n == 8233 || n == 8239 ||
  n == 8287 || n == 12288 || n == 65279

/-- The validator `notEmpty`: the string does not consist of white space only. -/
def notEmpty (str : String) : Bool :=
  !str.toList.all jsSpace

/-- The statement `Organisation.create` with the column rules of
`models/organisation.js`: `notEmpty` is checked before the insert; a name over
255 characters is refused by the insert, which has then used an id. -/
def createOrganisation (s : Store) (now : Nat) (orgName : String) :
    Except (Store × JsError) (Store × Organisation) :=
  if !notEmpty orgName then
    .error (s, validationError [{ path := some "name",
                                  message := "Validation notEmpty on name failed" }])
  else if 255 < orgName.length then
    .error ({ s with nextOrganisationId := s.nextOrganisationId + 1 },
            { name := "SequelizeDatabaseError",
              message := "value too long for type character varying(255)",
              status := none, errors := [] })
  else
    let organisation : Organisation :=
      { id := s.nextOrganisationId, name := orgName, created_at := now }
    .ok ({ s with organisations := s.organisations ++ [organisation]
                  nextOrganisationId := s.nextOrganisationId + 1 }, organisation)

/-- Handler `register`. -/
def register (cfg : Config) (now : Nat) (s : Store) (b : RegisterBody) : Store × Response :=
  if !b.orgName.truthy || !b.adminName.truthy || !b.email.truthy || !b.password.truthy then
    (s, ⟨400, .message "All fields are required"⟩)
  else if jsLength b.password.getStr < 6 then
    (s, ⟨400, .message "Password must be at least 6 characters"⟩)
  else
    match s.users.find? fun x => x.email == b.email.getStr with
    | some _ => (s, ⟨400, .message "Email already registered"⟩)
    | none =>
      match createOrganisation s now b.orgName.getStr with
      | .error (s1, err) => (s1, errorHandler err)
      | .ok (s1, organisation) =>
        let user : User :=
          { id := s1.nextUserId, organisation_id := organisation.id,
            email := b.email.getStr, password_hash := b.password.getStr,
            name := b.adminName.getStr }
        match cfg.validateUser user with
        | item :: items => (s1, errorHandler (validationError (item :: items)))
        | [] =>
          let stored := { user with password_hash := cfg.hashPassword user.password_hash }
          let s2 := { s1 with users := s1.users ++ [stored], nextUserId := s1.nextUserId + 1 }
          let s3 := logCreate s2 now (some organisation.id) (some stored.id)
            "organisation_created"
            [("orgName", .atom b.orgName.toMeta),
             ("adminName", .atom b.adminName.toMeta),
             ("email", .atom b.email.toMeta)]
          let token := cfg.jwtSign
            { userId := stored.id, orgId := organisation.id, email := stored.email } now
          (s3, ⟨201, .auth "Organisation created successfully" token
            { id := stored.id, name := stored.name, email := stored.email,
              organisationId := organisation.id, organisationName := organisation.name }⟩)

/-- Handler `login`. The organisation of the `include` is read after the log
row is written; reading `name` of a missing one throws. -/
def login (cfg : Config) (now : Nat) (s : Store) (b : LoginBody) : Store × Response :=
  if !b.email.truthy || !b.password.truthy then
    (s, ⟨400, .message "Email and password are required"⟩)
  else
    match s.users.find? fun x => x.email == b.email.getStr with
    | none => (s, ⟨401, .message "Invalid credentials"⟩)
    | some user =>
      if !cfg.comparePassword b.password.getStr user.password_hash then
        (s, ⟨401, .message "Invalid credentials"⟩)
      else
        let s1 := logCreate s now (some user.organisation_id) (some user.id) "user_login"
          [("email", .atom b.email.toMeta)]
        let token := cfg.jwtSign
          { userId := user.id, orgId := user.organisation_id, email := user.email } now
        match s.organisations.find? fun o => o.id == user.organisation_id with
        | none =>
          (s1, errorHandler { name := "TypeError",
                              message := "Cannot read properties of null (reading 'name')",
                              status := none, errors := [] })
        | some organisation =>
          (s1, ⟨200, .auth "Login successful" token
            { id := user.id, name := user.name, email := user.email,
              organisationId := user.organisation_id,
              organisationName := organisation.name }⟩)

/-- Handler `logout`. -/
def logout (now : Nat) (s : Store) (u : Identity) : Store × Response :=
  let s1 := logCreate s now (some u.orgId) (some u.userId) "user_logout"
    [("email", .atom (.str u.email))]
  (s1, ⟨200, .message "Logout successful"⟩)

/-! ## Requests and reachable stores -/

/-- A call of one handler, with the identity the access guard resolved (for the
guarded routes) and the request parameters. -/
inductive Call where
  | register (b : RegisterBody)
  | login (b : LoginBody)
  | logout (u : Identity)
  | listEmployees (u : Identity)
  | getEmployee (u : Identity) (id : Nat)
  | createEmployee (u : Identity) (b : EmployeeBody)
  | updateEmployee (u : Identity) (id : Nat) (b : EmployeeBody)
  | deleteEmployee (u : Identity) (id : Nat)
  | listTeams (u : Identity)
  | getTeam (u : Identity) (id : Nat)
  | createTeam (u : Identity) (b : TeamBody)
  | updateTeam (u : Identity) (id : Nat) (b : TeamBody)
  | deleteTeam (u : Identity) (id : Nat)
  | assignEmployee (u : Identity) (teamId : Nat) (employeeId : Option Nat)
  | unassignEmployee (u : Identity) (teamId : Nat) (employeeId : Option Nat)
  | getLogs (u : Identity)
  deriving DecidableEq, Repr

/-- The effect of one call at instant `now`: the new store and the response. -/
def step (cfg : Config) (now : Nat) (s : Store) : Call → Store × Response
  | .register b => register cfg now s b
  | .login b => login cfg now s b
  | .logout u => logout now s u
  | .listEmployees u => (s, listEmployees s u)
  | .getEmployee u id => (s, getEmployee s u id)
  | .createEmployee u b => createEmployee cfg now s u b
  | .updateEmployee u id b => updateEmployee cfg now s u id b
  | .deleteEmployee u id => deleteEmployee cfg now s u id
  | .listTeams u => (s, listTeams s u)
  | .getTeam u id => (s, getTeam s u id)
  | .createTeam u b => createTeam cfg now s u b
  | .updateTeam u id b => updateTeam cfg now s u id b
  | .deleteTeam u id => deleteTeam cfg now s u id
  | .assignEmployee u teamId employeeId => assignEmployee now s u teamId employeeId
  | .unassignEmployee u teamId employeeId => unassignEmployee now s u teamId employeeId
  | .getLogs u => (s, getLogs s u)

/-- The store after a sequence of calls, each with its instant. -/
def run (cfg : Config) (s : Store) : List (Nat × Call) → Store
  | [] => s
  | (now, c) :: rest => run cfg (step cfg now s c).1 rest

/-- A store reachable from the empty store by handler calls. -/
def Reachable (cfg : Config) (s : Store) : Prop :=
  ∃ calls : List (Nat × Call), run cfg Store.empty calls = s

/-! ## Sample data -/

/-- A sample configuration: no validator reports anything, the hash and the
token are tagged copies of their input, and deletion cascades. -/
def sampleConfig : Config :=
  { hashPassword := fun p => "hash:" ++ p
    comparePassword := fun p h => h == "hash:" ++ p
    jwtSign := fun u now => "jwt:" ++ toString u.userId ++ ":" ++ toString u.orgId ++
      ":" ++ u.email ++ ":" ++ toString now
    validateUser := fun _ => []
    validateEmployee := fun _ => []
    validateTeam := fun _ => []
    cascade := true }

/-- A caller of organisation 1. -/
def alice : Identity := { userId := 1, orgId := 1, email := "ann@acme.com" }

/-- A caller of organisation 2. -/
def bob : Identity := { userId := 2, orgId := 2, email := "bob@beta.com" }

/-- A sample store with two organisations: organisation 1 has employees 1 and
3 and team 1, organisation 2 has employee 2 and team 2; employee 1 is in team 1
and employee 2 in team 2. -/
def sampleStore : Store :=
  { organisations := [⟨1, "Acme", 10⟩, ⟨2, "Beta", 11⟩]
    users := [⟨1, 1, "ann@acme.com", "hash:secret1", "Ann"⟩,
              ⟨2, 2, "bob@beta.com", "hash:secret2", "Bob"⟩]
    employees := [⟨1, 1, "Bo", "Lee", "bo@acme.com", none, 20⟩,
                  ⟨2, 2, "Cy", "Orr", "cy@beta.com", some "555", 21⟩,
                  ⟨3, 1, "Di", "Poe", "di@acme.com", none, 22⟩]
    teams := [⟨1, 1, "Core", none, 30⟩, ⟨2, 2, "Ops", some "on call", 31⟩]
    employeeTeams := [⟨1, 1, 40⟩, ⟨2, 2, 41⟩]
    logs := [⟨1, some 1, some 1, "organisation_created", [], 10⟩,
             ⟨2, some 2, some 2, "organisation_created", [], 11⟩]
    nextOrganisationId := 3, nextUserId := 3, nextEmployeeId := 4,
    nextTeamId := 3, nextLogId := 3 }

/-- A sample history: two registrations, then organisation 1 creates a team
and an employee and assigns the one to the other. -/
def sampleCalls : List (Nat × Call) :=
  [(10, .register ⟨.str "Acme", .str "Ann", .str "ann@acme.com", .str "secret1"⟩),
   (11, .register ⟨.str "Beta", .str "Bob", .str "bob@beta.com", .str "secret2"⟩),
   (20, .createTeam alice ⟨.str "Core", .undefined⟩),
   (21, .createEmployee alice ⟨.str "Bo", .str "Lee", .str "bo@acme.com", .undefined⟩),
   (22, .createEmployee bob ⟨.str "Cy", .str "Orr", .str "cy@beta.com", .str "555"⟩),
   (23, .assignEmployee alice 1 (some 1))]

/-! ## Invariant of the reachable stores -/

/-- What every reachable store satisfies: ids come from the sequences, which
start at 1 and only grow; `id` is a key of `employees` and of `teams`; and the
employee and the team that a junction row names, when both exist, are of one
organisation. -/
structure Inv (s : Store) : Prop where
  seq_pos : 1 ≤ s.nextEmployeeId ∧ 1 ≤ s.nextTeamId
  employee_ids : ∀ e ∈ s.employees, 1 ≤ e.id ∧ e.id < s.nextEmployeeId
  employee_key : (s.employees.map Employee.id).Nodup
  team_ids : ∀ t ∈ s.teams, 1 ≤ t.id ∧ t.id < s.nextTeamId
  team_key : (s.teams.map Team.id).Nodup
  junction_ids : ∀ r ∈ s.employeeTeams,
    r.employee_id < s.nextEmployeeId ∧ r.team_id < s.nextTeamId
  junction_org : ∀ r ∈ s.employeeTeams, ∀ e ∈ s.employees, ∀ t ∈ s.teams,
    e.id = r.employee_id → t.id = r.team_id → e.organisation_id = t.organisation_id

/-! ## Raw request bodies -/

/-- The property `key` of a parsed request body, `undefined` when the body
does not have it. -/
def prop (raw : List (String × JsVal)) (key : String) : JsVal :=
  (raw.lookup key).getD .undefined

/-- The destructuring `const { first_name, last_name, email, phone } = req.body`
of `createEmployee` and `updateEmployee`: no other property is read. -/
def EmployeeBody.ofRequest (raw : List (String × JsVal)) : EmployeeBody :=
  { first_name := prop raw "first_name", last_name := prop raw "last_name",
    email := prop raw "email", phone := prop raw "phone" }

/-- The destructuring `const { name, description } = req.body` of `createTeam`
and `updateTeam`. -/
def TeamBody.ofRequest (raw : List (String × JsVal)) : TeamBody :=
  { name := prop raw "name", description := prop raw "description" }

/-! ## More sample data -/

/-- A sample configuration whose `User` model has an `isEmail`-like validator:
an email without `@` is reported. Otherwise as `sampleConfig`. -/
def strictConfig : Config :=
  { sampleConfig with
    validateUser := fun x =>
      if x.email.toList.contains '@' then []
      else [{ path := some "email", message := "Validation isEmail on email failed" }] }

/-! ## Invariant of the users table -/

/-- What every reachable store satisfies on `users`: ids come from the
sequence, `id` is a key and `email` is a key. -/
structure UserInv (s : Store) : Prop where
  user_ids : ∀ x ∈ s.users, x.id < s.nextUserId
  user_key : (s.users.map User.id).Nodup
  email_key : (s.users.map User.email).Nodup

/-! ## Junction rows and existing rows -/

/-- No junction row is dangling: the employee and the team it names exist. -/
def NoDangling (s : Store) : Prop :=
  ∀ r ∈ s.employeeTeams,
    (∃ e ∈ s.employees, e.id = r.employee_id) ∧ (∃ t ∈ s.teams, t.id = r.team_id)

/-! ## Handlers with a failing audit insert -/

/-- The last two statements of a mutating handler, reached with the store `s1`
that the primary write left: `await Log.create(...)`, which throws `logErr` when
there is one, so that the `catch` hands it to `errorHandler` and nothing undoes
the primary write; and then the success response. -/
def auditThen (logErr : Option JsError) (s1 : Store) (now : Nat) (org user : Option Nat)
    (action : String) (payload : List (String × MetaVal)) (ok : Response) :
    Store × Response :=
  match logErr with
  | some err => (s1, errorHandler err)
  | none => (logCreate s1 now org user action payload, ok)

/-- Handler `createEmployee` where `Log.create` may throw. -/
def createEmployeeWith (logErr : Option JsError) (cfg : Config) (now : Nat) (s : Store)
    (u : Identity) (b : EmployeeBody) : Store × Response :=
  if !b.first_name.truthy || !b.last_name.truthy || !b.email.truthy then
    (s, ⟨400, .message "First name, last name, and email are required"⟩)
  else
    let employee : Employee :=
      { id := s.nextEmployeeId, organisation_id := u.orgId,
        first_name := b.first_name.getStr, last_name := b.last_name.getStr,
        email := b.email.getStr, phone := b.phone.toColumn, created_at := now }
    match cfg.validateEmployee employee with
    | item :: items => (s, errorHandler (validationError (item :: items)))
    | [] =>
      let s1 := { s with employees := s.employees ++ [employee]
                         nextEmployeeId := s.nextEmployeeId + 1 }
      auditThen logErr s1 now (some u.orgId) (some u.userId) "employee_created"
        [("employeeId", .atom (.num employee.id)),
         ("first_name", .atom b.first_name.toMeta),
         ("last_name", .atom b.last_name.toMeta),
         ("email", .atom b.email.toMeta)]
        ⟨201, .employee employee⟩

/-- Handler `updateEmployee` where `Log.create` may throw. -/
def updateEmployeeWith (logErr : Option JsError) (cfg : Config) (now : Nat) (s : Store)
    (u : Identity) (id : Nat) (b : EmployeeBody) : Store × Response :=
  match findEmployee s id u.orgId with
  | none => (s, ⟨404, .message "Employee not found"⟩)
  | some employee =>
    let set : Employee → Employee := fun x =>
      { x with first_name := b.first_name.orElse employee.first_name,
               last_name := b.last_name.orElse employee.last_name,
               email := b.email.orElse employee.email,
               phone := b.phone.definedOr employee.phone }
    match cfg.validateEmployee (set employee) with
    | item :: items => (s, errorHandler (validationError (item :: items)))
    | [] =>
      let s1 := { s with employees := s.employees.map fun x =>
                    if x.id == employee.id then set x else x }
      auditThen logErr s1 now (some u.orgId) (some u.userId) "employee_updated"
        [("employeeId", .atom (.num employee.id)),
         ("updates", .obj [("first_name", b.first_name.toMeta),
                           ("last_name", b.last_name.toMeta),
                           ("email", b.email.toMeta),
                           ("phone", b.phone.toMeta)])]
        ⟨200, .employee (set employee)⟩

/-- Handler `deleteEmployee` where `Log.create` may throw. -/
def deleteEmployeeWith (logErr : Option JsError) (cfg : Config) (now : Nat) (s : Store)
    (u : Identity) (id : Nat) : Store × Response :=
  match findEmployee s id u.orgId with
  | none => (s, ⟨404, .message "Employee not found"⟩)
  | some employee =>
    let employeeData := employee.toJSON
    let s1 := destroyEmployee cfg s employee
    auditThen logErr s1 now (some u.orgId) (some u.userId) "employee_deleted"
      (("employeeId", .atom (.num id)) :: employeeData)
      ⟨200, .message "Employee deleted successfully"⟩

/-- Handler `createTeam` where `Log.create` may throw. -/
def createTeamWith (logErr : Option JsError) (cfg : Config) (now : Nat) (s : Store)
    (u : Identity) (b : TeamBody) : Store × Response :=
  if !b.name.truthy then
    (s, ⟨400, .message "Team name is required"⟩)
  else
    let team : Team :=
      { id := s.nextTeamId, organisation_id := u.orgId, name := b.name.getStr,
        description := b.description.toColumn, created_at := now }
    match cfg.validateTeam team with
    | item :: items => (s, errorHandler (validationError (item :: items)))
    | [] =>
      let s1 := { s with teams := s.teams ++ [team], nextTeamId := s.nextTeamId + 1 }
      auditThen logErr s1 now (some u.orgId) (some u.userId) "team_created"
        [("teamId", .atom (.num team.id)),
         ("name", .atom b.name.toMeta),
         ("description", .atom b.description.toMeta)]
        ⟨201, .team team⟩

/-- Handler `updateTeam` where `Log.create` may throw. -/
def updateTeamWith (logErr : Option JsError) (cfg : Config) (now : Nat) (s : Store)
    (u : Identity) (id : Nat) (b : TeamBody) : Store × Response :=
  match findTeam s id u.orgId with
  | none => (s, ⟨404, .message "Team not found"⟩)
  | some team =>
    let set : Team → Team := fun x =>
      { x with name := b.name.orElse team.name,
               description := b.description.definedOr team.description }
    match cfg.validateTeam (set team) with
    | item :: items => (s, errorHandler (validationError (item :: items)))
    | [] =>
      let s1 := { s with teams := s.teams.map fun x =>
                    if x.id == team.id then set x else x }
      auditThen logErr s1 now (some u.orgId) (some u.userId) "team_updated"
        [("teamId", .atom (.num team.id)),
         ("updates", .obj [("name", b.name.toMeta),
                           ("description", b.description.toMeta)])]
        ⟨200, .team (set team)⟩

/-- Handler `deleteTeam` where `Log.create` may throw. -/
def deleteTeamWith (logErr : Option JsError) (cfg : Config) (now : Nat) (s : Store)
    (u : Identity) (id : Nat) : Store × Response :=
  match findTeam s id u.orgId with
  | none => (s, ⟨404, .message "Team not found"⟩)
  | some team =>
    let teamData := team.toJSON
    let s1 := destroyTeam cfg s team
    auditThen logErr s1 now (some u.orgId) (some u.userId) "team_deleted"
      (("teamId", .atom (.num id)) :: teamData)
      ⟨200, .message "Team deleted successfully"⟩

/-- Handler `assignEmployee` where `Log.create` may throw. -/
def assignEmployeeWith (logErr : Option JsError) (now : Nat) (s : Store) (u : Identity)
    (teamId : Nat) (employeeId : Option Nat) : Store × Response :=
  if !idTruthy employeeId then
    (s, ⟨400, .message "Employee ID is required"⟩)
  else
    let eid := employeeId.getD 0
    match findTeam s teamId u.orgId with
    | none => (s, ⟨404, .message "Team not found"⟩)
    | some team =>
      match findEmployee s eid u.orgId with
      | none => (s, ⟨404, .message "Employee not found"⟩)
      | some employee =>
        match findAssignment s eid teamId with
        | some _ => (s, ⟨400, .message "Employee already assigned to this team"⟩)
        | none =>
          let s1 := { s with employeeTeams := s.employeeTeams ++
                        [{ employee_id := eid, team_id := teamId, assigned_at := now }] }
          auditThen logErr s1 now (some u.orgId) (some u.userId)
            "employee_assigned_to_team"
            [("employeeId", .atom (.num eid)),
             ("teamId", .atom (.num teamId)),
             ("employeeName", .atom (.str (employee.first_name ++ " " ++ employee.last_name))),
             ("teamName", .atom (.str team.name))]
            ⟨200, .message "Employee assigned to team successfully"⟩

/-- Handler `unassignEmployee` where `Log.create` may throw. -/
def unassignEmployeeWith (logErr : Option JsError) (now : Nat) (s : Store) (u : Identity)
    (teamId : Nat) (employeeId : Option Nat) : Store × Response :=
  if !idTruthy employeeId then
    (s, ⟨400, .message "Employee ID is required"⟩)
  else
    let eid := employeeId.getD 0
    match findTeam s teamId u.orgId with
    | none => (s, ⟨404, .message "Team not found"⟩)
    | some _ =>
      match findAssignment s eid teamId with
      | none => (s, ⟨404, .message "Employee not assigned to this team"⟩)
      | some assignment =>
        let s1 := { s with employeeTeams := s.employeeTeams.filter fun r =>
                      !(r.employee_id == assignment.employee_id &&
                        r.team_id == assignment.team_id) }
        auditThen logErr s1 now (some u.orgId) (some u.userId)
          "employee_unassigned_from_team"
          [("employeeId", .atom (.num eid)), ("teamId", .atom (.num teamId))]
          ⟨200, .message "Employee unassigned from team successfully"⟩

/-- The effect of one call where the `Log.create` of the eight mutating
handlers of employees, teams and assignments may throw `logErr`; every other
call is as in `step`. -/
def stepWith (logErr : Option JsError) (cfg : Config) (now : Nat) (s : Store) :
    Call → Store × Response
  | .createEmployee u b => createEmployeeWith logErr cfg now s u b
  | .updateEmployee u id b => updateEmployeeWith logErr cfg now s u id b
  | .deleteEmployee u id => deleteEmployeeWith logErr cfg now s u id
  | .createTeam u b => createTeamWith logErr cfg now s u b
  | .updateTeam u id b => updateTeamWith logErr cfg now s u id b
  | .deleteTeam u id => deleteTeamWith logErr cfg now s u id
  | .assignEmployee u teamId employeeId => assignEmployeeWith logErr now s u teamId employeeId
  | .unassignEmployee u teamId employeeId =>
    unassignEmployeeWith logErr now s u teamId employeeId
  | c => step cfg now s c

/-! ## routes/teams.js and the access guard -/

/-- What the access guard uses and `src/` does not define: the verification of
a token at an instant (signature, payload and expiry) and the texts of its two
401 responses. -/
structure Guard where
  /-- The call `jwt.verify(token, JWT_SECRET)` at an instant: the identity of
  the payload, or nothing when the token is invalid or expired. -/
  verify : String → Nat → Option Identity
  /-- The message of the response to a request without bearer token. -/
  missingMessage : String
  /-- The message of the response to a request with an invalid token. -/
  invalidMessage : String

/-- Modelled from the spec: `middlewares/authMiddleware.js` is not among the
sources. The guard takes the bearer token of the request (`none` when the header
is missing), verifies it, and either resolves the identity for the handler or
short-circuits with a 401 response. It reads the token and the clock only. -/
def authMiddleware (g : Guard) (now : Nat) (token : Option String) :
    Except Response Identity :=
  match token with
  | none => .error ⟨401, .message g.missingMessage⟩
  | some t =>
    match g.verify t now with
    | none => .error ⟨401, .message g.invalidMessage⟩
    | some u => .ok u

/-- The routes of `routes/teams.js`, with the parameters of the request. -/
inductive TeamsRoute where
  | list
  | logs
  | get (id : Nat)
  | create (b : TeamBody)
  | update (id : Nat) (b : TeamBody)
  | delete (id : Nat)
  | assign (teamId : Nat) (employeeId : Option Nat)
  | unassign (teamId : Nat) (employeeId : Option Nat)
  deriving DecidableEq, Repr

/-- The handler call that a route of `routes/teams.js` makes for an identity. -/
def TeamsRoute.call (u : Identity) : TeamsRoute → Call
  | .list => .listTeams u
  | .logs => .getLogs u
  | .get id => .getTeam u id
  | .create b => .createTeam u b
  | .update id b => .updateTeam u id b
  | .delete id => .deleteTeam u id
  | .assign teamId employeeId => .assignEmployee u teamId employeeId
  | .unassign teamId employeeId => .unassignEmployee u teamId employeeId

/-- The router of `routes/teams.js`: `router.use(authMiddleware)` runs before
every route; a request it refuses reaches no handler. -/
def teamsRouter (g : Guard) (cfg : Config) (now : Nat) (s : Store)
    (token : Option String) (route : TeamsRoute) : Store × Response :=
  match authMiddleware g now token with
  | .error response => (s, response)
  | .ok u => step cfg now s (route.call u)

/-- A sample guard: a token is `ann` or `bob`, valid before the instant 1000. -/
def sampleGuard : Guard :=
  { verify := fun t now =>
      if now < 1000 then
        if t == "ann" then some alice else if t == "bob" then some bob else none
      else none
    missingMessage := "No token provided"
    invalidMessage := "Invalid token" }

/-! ## Frontend: the filters of the Teams and Employees pages -/

/-- Lower case of a character as the method `toLowerCase` of JavaScript gives it
on the characters modelled here: the Basic Latin letters; `ß` and the dotless
`ı` are in lower case already. Other characters are left as they are; the rest
of the Unicode case tables is not modelled. -/
def lowerChar (c : Char) : Char :=
  if 65 ≤ c.toNat ∧ c.toNat ≤ 90 then Char.ofNat (c.toNat + 32) else c

/-- Upper case of a character as the method `toUpperCase` of JavaScript gives
it on the characters modelled here: the Basic Latin letters, `ß` (upper case
`SS`) and the dotless `ı` (upper case `I`). -/
def upperChar (c : Char) : List Char :=
  if 97 ≤ c.toNat ∧ c.toNat ≤ 122 then [Char.ofNat (c.toNat - 32)]
  else if c.toNat = 223 then ['S', 'S']
  else if c.toNat = 305 then ['I']
  else [c]

/-- The method `toLowerCase` of a JavaScript string. -/
def toLowerCase (str : String) : String :=
  String.mk (str.toList.map lowerChar)

/-- The method `toUpperCase` of a JavaScript string: the upper-cased form of a
search term. -/
def toUpperCase (str : String) : String :=
  String.mk (str.toList.flatMap upperChar)

/-- Whether the characters `needle` stand at the start of `hay`. -/
def startsWithChars : List Char → List Char → Bool
  | _, [] => true
  | [], _ :: _ => false
  | h :: hay, n :: needle => h == n && startsWithChars hay needle

/-- Whether the characters `needle` stand somewhere in `hay`, one after the other. -/
def includesChars : List Char → List Char → Bool
  | [], needle => needle.isEmpty
  | h :: hay, needle => startsWithChars (h :: hay) needle || includesChars hay needle

/-- The method `includes` of a JavaScript string. -/
def includes (hay needle : String) : Bool :=
  includesChars hay.toList needle.toList

/-- A team as the Teams page holds it: its `employees` property may be missing. -/
structure TeamItem where
  row : Team
  employees : Option (List EmployeeBrief)
  deriving DecidableEq, Repr

/-- The function `getUnassignedEmployees` of `pages/Teams.jsx`; `employees` is
the state of the page. -/
def getUnassignedEmployees (employees : List Employee) (team : TeamItem)
    (filterTerm : String) : List Employee :=
  let assignedIds : List Nat :=
    match team.employees with
    | some members => members.map fun e => e.id
    | none => []
  let unassigned := employees.filter fun emp => !assignedIds.contains emp.id
  if filterTerm == "" then unassigned
  else
    let lowerCaseFilter := toLowerCase filterTerm
    unassigned.filter fun employee =>
      includes (toLowerCase employee.first_name) lowerCaseFilter ||
      includes (toLowerCase employee.last_name) lowerCaseFilter ||
      includes (toLowerCase employee.email) lowerCaseFilter

/-- The list `filteredEmployees` of `pages/Employees.jsx`. -/
def filteredEmployees (employees : List Employee) (searchTerm : String) : List Employee :=
  employees.filter fun employee =>
    includes (toLowerCase employee.first_name) (toLowerCase searchTerm) ||
    includes (toLowerCase employee.last_name) (toLowerCase searchTerm) ||
    includes (toLowerCase employee.email) (toLowerCase searchTerm)

/-- Sample employees of the Teams page; the last one has a dotless `ı` in her name. -/
def sampleEmployees : List Employee :=
  [⟨1, 1, "Bo", "Lee", "bo@acme.com", none, 20⟩,
   ⟨3, 1, "Di", "Poe", "di@acme.com", none, 22⟩,
   ⟨5, 1, "Ayla", "Kıl", "ayla@acme.com", none, 24⟩]

/-- A sample team of the Teams page, with employee 1 as its member. -/
def sampleTeamItem : TeamItem :=
  { row := ⟨1, 1, "Core", none, 30⟩,
    employees := some [⟨1, "Bo", "Lee", "bo@acme.com"⟩] }

/-! ## Lemmas on the store operations -/

theorem findEmployee_some {s : Store} {id org : Nat} {e : Employee}
    (h : findEmployee s id org = some e) :
    e ∈ s.employees ∧ e.id = id ∧ e.organisation_id = org := by
  unfold findEmployee at h
  have hp := List.find?_some h
  have hm := List.mem_of_find?_eq_some h
  simp only [Bool.and_eq_true, beq_iff_eq] at hp
  exact ⟨hm, hp.1, hp.2⟩

theorem findEmployee_none {s : Store} {id org : Nat}
    (h : ∀ e ∈ s.employees, e.id = id → e.organisation_id ≠ org) :
    findEmployee s id org = none := by
  unfold findEmployee
  rw [List.find?_eq_none]
  intro e he
  simp only [Bool.and_eq_true, beq_iff_eq, not_and]
  exact h e he

theorem findTeam_some {s : Store} {id org : Nat} {t : Team}
    (h : findTeam s id org = some t) :
    t ∈ s.teams ∧ t.id = id ∧ t.organisation_id = org := by
  unfold findTeam at h
  have hp := List.find?_some h
  have hm := List.mem_of_find?_eq_some h
  simp only [Bool.and_eq_true, beq_iff_eq] at hp
  exact ⟨hm, hp.1, hp.2⟩

theorem findTeam_none {s : Store} {id org : Nat}
    (h : ∀ t ∈ s.teams, t.id = id → t.organisation_id ≠ org) :
    findTeam s id org = none := by
  unfold findTeam
  rw [List.find?_eq_none]
  intro t ht
  simp only [Bool.and_eq_true, beq_iff_eq, not_and]
  exact h t ht

theorem orderDesc_perm {α : Type} (key : α → Nat) (rows : List α) :
    (orderDesc key rows).Perm rows :=
  List.perm_insertionSort _ rows

theorem mem_orderDesc {α : Type} (key : α → Nat) (rows : List α) (a : α) :
    a ∈ orderDesc key rows ↔ a ∈ rows :=
  (orderDesc_perm key rows).mem_iff

/-! ## Tenant scoping of the reads -/

/-- C1: `listEmployees` responds with exactly the employees of the caller's
organisation, and `listTeams` with exactly its teams: the rows returned are a
rearrangement of the rows of the table whose `organisation_id` is the caller's
`orgId`, so none is foreign and none is left out. -/
theorem list_returns_exactly_own_rows (s : Store) (u : Identity) :
    (∃ rows, listEmployees s u = ⟨200, .employees rows⟩ ∧
      (rows.map fun r => r.row).Perm
        (s.employees.filter fun e => e.organisation_id == u.orgId) ∧
      ∀ e, e ∈ rows.map (fun r => r.row) ↔
        e ∈ s.employees ∧ e.organisation_id = u.orgId) ∧
    (∃ rows, listTeams s u = ⟨200, .teams rows⟩ ∧
      (rows.map fun r => r.row).Perm
        (s.teams.filter fun t => t.organisation_id == u.orgId) ∧
      ∀ t, t ∈ rows.map (fun r => r.row) ↔
        t ∈ s.teams ∧ t.organisation_id = u.orgId) := by
  refine ⟨⟨_, rfl, ?_, ?_⟩, ⟨_, rfl, ?_, ?_⟩⟩
  · have hid : ∀ l : List Employee,
        (l.map fun e => ({ row := e, teams := (teamsOf s e).map fun p =>
          ({ id := p.1.id, name := p.1.name } : TeamBrief) } : EmployeeWith TeamBrief)).map
          (fun r => r.row) = l := by
      intro l; simp [List.map_map, Function.comp_def]
    rw [hid]
    exact orderDesc_perm _ _
  · intro e
    simp [mem_orderDesc]
  · have hid : ∀ l : List Team,
        (l.map fun t => ({ row := t, employees := (employeesOf s t).map fun p =>
          ({ id := p.1.id, first_name := p.1.first_name, last_name := p.1.last_name,
             email := p.1.email } : EmployeeBrief) } : TeamWith EmployeeBrief)).map
          (fun r => r.row) = l := by
      intro l; simp [List.map_map, Function.comp_def]
    rw [hid]
    exact orderDesc_perm _ _
  · intro t
    simp [mem_orderDesc]

/-- C2: `getEmployee` and `getTeam` respond with a row only if the row has
the requested id and the caller's organisation; and any two ids that no row of
the caller's organisation holds, whether a row of another organisation holds
them or no row at all, get the same 404 response. -/
theorem get_is_scoped_and_hides_foreign_ids (s : Store) (u : Identity)
    (id e1 e2 t1 t2 : Nat)
    (he1 : ∀ e ∈ s.employees, e.id = e1 → e.organisation_id ≠ u.orgId)
    (he2 : ∀ e ∈ s.employees, e.id = e2 → e.organisation_id ≠ u.orgId)
    (ht1 : ∀ t ∈ s.teams, t.id = t1 → t.organisation_id ≠ u.orgId)
    (ht2 : ∀ t ∈ s.teams, t.id = t2 → t.organisation_id ≠ u.orgId) :
    (∀ r, (getEmployee s u id).body = .employeeDetail r →
      r.row ∈ s.employees ∧ r.row.id = id ∧ r.row.organisation_id = u.orgId) ∧
    (∀ r, (getTeam s u id).body = .teamDetail r →
      r.row ∈ s.teams ∧ r.row.id = id ∧ r.row.organisation_id = u.orgId) ∧
    getEmployee s u e1 = ⟨404, .message "Employee not found"⟩ ∧
    getEmployee s u e1 = getEmployee s u e2 ∧
    getTeam s u t1 = ⟨404, .message "Team not found"⟩ ∧
    getTeam s u t1 = getTeam s u t2 := by
  have fe1 : findEmployee s e1 u.orgId = none := findEmployee_none he1
  have fe2 : findEmployee s e2 u.orgId = none := findEmployee_none he2
  have ft1 : findTeam s t1 u.orgId = none := findTeam_none ht1
  have ft2 : findTeam s t2 u.orgId = none := findTeam_none ht2
  refine ⟨?_, ?_, ?_, ?_, ?_, ?_⟩
  · intro r hr
    unfold getEmployee at hr
    cases hfind : findEmployee s id u.orgId with
    | none => rw [hfind] at hr; simp at hr
    | some e =>
      rw [hfind] at hr
      simp only [Body.employeeDetail.injEq] at hr
      subst hr
      exact findEmployee_some hfind
  · intro r hr
    unfold getTeam at hr
    cases hfind : findTeam s id u.orgId with
    | none => rw [hfind] at hr; simp at hr
    | some t =>
      rw [hfind] at hr
      simp only [Body.teamDetail.injEq] at hr
      subst hr
      exact findTeam_some hfind
  · simp [getEmployee, fe1]
  · simp [getEmployee, fe1, fe2]
  · simp [getTeam, ft1]
  · simp [getTeam, ft1, ft2]

/-- Witness of C2 on the sample store: for a caller of organisation 1,
employee 2 and team 2 belong to organisation 2 and no row holds the id 9. -/
theorem get_is_scoped_and_hides_foreign_ids_witness :
    (∃ e ∈ sampleStore.employees, e.id = 2 ∧ e.organisation_id ≠ alice.orgId) ∧
    (∀ e ∈ sampleStore.employees, e.id ≠ 9) ∧
    getEmployee sampleStore alice 2 = ⟨404, .message "Employee not found"⟩ ∧
    getEmployee sampleStore alice 2 = getEmployee sampleStore alice 9 ∧
    getTeam sampleStore alice 2 = ⟨404, .message "Team not found"⟩ ∧
    getTeam sampleStore alice 2 = getTeam sampleStore alice 9 :=
  ⟨by decide, by decide,
   (get_is_scoped_and_hides_foreign_ids sampleStore alice 1 2 9 2 9
     (by decide) (by decide) (by decide) (by decide)).2.2⟩

/-! ## Writes on foreign rows -/

/-- C3: when no row of the caller's organisation has the id (in particular when
the id belongs to another organisation), `updateEmployee`, `deleteEmployee`,
`updateTeam` and `deleteTeam` respond 404 and return the store as it was: every
row, every junction row and the log are unchanged. -/
theorem write_on_foreign_id_is_404_and_no_change (cfg : Config) (now : Nat) (s : Store)
    (u : Identity) (employeeId teamId : Nat) (eb : EmployeeBody) (tb : TeamBody)
    (he : ∀ e ∈ s.employees, e.id = employeeId → e.organisation_id ≠ u.orgId)
    (ht : ∀ t ∈ s.teams, t.id = teamId → t.organisation_id ≠ u.orgId) :
    updateEmployee cfg now s u employeeId eb = (s, ⟨404, .message "Employee not found"⟩) ∧
    deleteEmployee cfg now s u employeeId = (s, ⟨404, .message "Employee not found"⟩) ∧
    updateTeam cfg now s u teamId tb = (s, ⟨404, .message "Team not found"⟩) ∧
    deleteTeam cfg now s u teamId = (s, ⟨404, .message "Team not found"⟩) := by
  have e1 : findEmployee s employeeId u.orgId = none := findEmployee_none he
  have t1 : findTeam s teamId u.orgId = none := findTeam_none ht
  refine ⟨?_, ?_, ?_, ?_⟩
  · simp [updateEmployee, e1]
  · simp [deleteEmployee, e1]
  · simp [updateTeam, t1]
  · simp [deleteTeam, t1]

/-- Witness of C3 on the sample store: a caller of organisation 1 writes on
employee 2 and team 2, which belong to organisation 2. -/
theorem write_on_foreign_id_is_404_and_no_change_witness :
    (∃ e ∈ sampleStore.employees, e.id = 2 ∧ e.organisation_id ≠ alice.orgId) ∧
    (∃ t ∈ sampleStore.teams, t.id = 2 ∧ t.organisation_id ≠ alice.orgId) ∧
    updateEmployee sampleConfig 50 sampleStore alice 2
        ⟨.str "Zed", .undefined, .undefined, .null⟩ =
      (sampleStore, ⟨404, .message "Employee not found"⟩) ∧
    deleteEmployee sampleConfig 50 sampleStore alice 2 =
      (sampleStore, ⟨404, .message "Employee not found"⟩) ∧
    updateTeam sampleConfig 50 sampleStore alice 2 ⟨.str "Zed", .null⟩ =
      (sampleStore, ⟨404, .message "Team not found"⟩) ∧
    deleteTeam sampleConfig 50 sampleStore alice 2 =
      (sampleStore, ⟨404, .message "Team not found"⟩) :=
  ⟨by decide, by decide,
   write_on_foreign_id_is_404_and_no_change sampleConfig 50 sampleStore alice 2 2
     ⟨.str "Zed", .undefined, .undefined, .null⟩ ⟨.str "Zed", .null⟩
     (by decide) (by decide)⟩

/-! ## Preservation of the invariant -/

theorem inv_empty : Inv Store.empty := by
  constructor <;> simp [Store.empty]

theorem inv_of_sublists {s s' : Store} (h : Inv s)
    (he : s'.employees.Sublist s.employees) (ht : s'.teams.Sublist s.teams)
    (hj : s'.employeeTeams.Sublist s.employeeTeams)
    (hne : s'.nextEmployeeId = s.nextEmployeeId) (hnt : s'.nextTeamId = s.nextTeamId) :
    Inv s' where
  seq_pos := by rw [hne, hnt]; exact h.seq_pos
  employee_ids := fun e m => by rw [hne]; exact h.employee_ids e (he.subset m)
  employee_key := h.employee_key.sublist (he.map _)
  team_ids := fun t m => by rw [hnt]; exact h.team_ids t (ht.subset m)
  team_key := h.team_key.sublist (ht.map _)
  junction_ids := fun r m => by rw [hne, hnt]; exact h.junction_ids r (hj.subset m)
  junction_org := fun r mr e me t mt =>
    h.junction_org r (hj.subset mr) e (he.subset me) t (ht.subset mt)

theorem inv_logCreate {s : Store} (h : Inv s) (now : Nat) (org user : Option Nat)
    (action : String) (payload : List (String × MetaVal)) :
    Inv (logCreate s now org user action payload) :=
  inv_of_sublists h (List.Sublist.refl _) (List.Sublist.refl _) (List.Sublist.refl _) rfl rfl

theorem inv_insert_employee {s : Store} (h : Inv s) (e : Employee)
    (hid : e.id = s.nextEmployeeId) :
    Inv { s with employees := s.employees ++ [e], nextEmployeeId := s.nextEmployeeId + 1 } where
  seq_pos := ⟨Nat.le_add_left _ _, h.seq_pos.2⟩
  employee_ids := by
    intro x hx
    simp only [List.mem_append, List.mem_singleton] at hx
    rcases hx with hx | hx
    · have := h.employee_ids x hx
      exact ⟨this.1, Nat.lt_succ_of_lt this.2⟩
    · subst hx
      rw [hid]
      exact ⟨h.seq_pos.1, Nat.lt_succ_self _⟩
  employee_key := by
    simp only [List.map_append, List.map_cons, List.map_nil]
    rw [List.nodup_append]
    refine ⟨h.employee_key, List.nodup_singleton _, ?_⟩
    intro a ha hb
    simp only [List.mem_singleton] at hb
    obtain ⟨x, hx, rfl⟩ := List.mem_map.1 ha
    have := (h.employee_ids x hx).2
    omega
  team_ids := h.team_ids
  team_key := h.team_key
  junction_ids := fun r m =>
    ⟨Nat.lt_succ_of_lt (h.junction_ids r m).1, (h.junction_ids r m).2⟩
  junction_org := by
    intro r mr x hx t mt hxr htr
    simp only [List.mem_append, List.mem_singleton] at hx
    rcases hx with hx | hx
    · exact h.junction_org r mr x hx t mt hxr htr
    · subst hx
      have := (h.junction_ids r mr).1
      omega

theorem inv_insert_team {s : Store} (h : Inv s) (t : Team) (hid : t.id = s.nextTeamId) :
    Inv { s with teams := s.teams ++ [t], nextTeamId := s.nextTeamId + 1 } where
  seq_pos := ⟨h.seq_pos.1, Nat.le_add_left _ _⟩
  employee_ids := h.employee_ids
  employee_key := h.employee_key
  team_ids := by
    intro x hx
    simp only [List.mem_append, List.mem_singleton] at hx
    rcases hx with hx | hx
    · have := h.team_ids x hx
      exact ⟨this.1, Nat.lt_succ_of_lt this.2⟩
    · subst hx
      rw [hid]
      exact ⟨h.seq_pos.2, Nat.lt_succ_self _⟩
  team_key := by
    simp only [List.map_append, List.map_cons, List.map_nil]
    rw [List.nodup_append]
    refine ⟨h.team_key, List.nodup_singleton _, ?_⟩
    intro a ha hb
    simp only [List.mem_singleton] at hb
    obtain ⟨x, hx, rfl⟩ := List.mem_map.1 ha
    have := (h.team_ids x hx).2
    omega
  junction_ids := fun r m =>
    ⟨(h.junction_ids r m).1, Nat.lt_succ_of_lt (h.junction_ids r m).2⟩
  junction_org := by
    intro r mr e me x hx her hxr
    simp only [List.mem_append, List.mem_singleton] at hx
    rcases hx with hx | hx
    · exact h.junction_org r mr e me x hx her hxr
    · subst hx
      have := (h.junction_ids r mr).2
      omega

theorem inv_map_employees {s : Store} (h : Inv s) (f : Employee → Employee)
    (hf : ∀ x, (f x).id = x.id ∧ (f x).organisation_id = x.organisation_id) :
    Inv { s with employees := s.employees.map f } where
  seq_pos := h.seq_pos
  employee_ids := by
    intro x hx
    obtain ⟨y, hy, rfl⟩ := List.mem_map.1 hx
    rw [(hf y).1]
    exact h.employee_ids y hy
  employee_key := by
    have : (s.employees.map f).map Employee.id = s.employees.map Employee.id := by
      rw [List.map_map]
      exact List.map_congr_left fun x _ => (hf x).1
    show ((s.employees.map f).map Employee.id).Nodup
    rw [this]
    exact h.employee_key
  team_ids := h.team_ids
  team_key := h.team_key
  junction_ids := h.junction_ids
  junction_org := by
    intro r mr x hx t mt hxr htr
    obtain ⟨y, hy, rfl⟩ := List.mem_map.1 hx
    rw [(hf y).2]
    rw [(hf y).1] at hxr
    exact h.junction_org r mr y hy t mt hxr htr

theorem inv_map_teams {s : Store} (h : Inv s) (f : Team → Team)
    (hf : ∀ x, (f x).id = x.id ∧ (f x).organisation_id = x.organisation_id) :
    Inv { s with teams := s.teams.map f } where
  seq_pos := h.seq_pos
  employee_ids := h.employee_ids
  employee_key := h.employee_key
  team_ids := by
    intro x hx
    obtain ⟨y, hy, rfl⟩ := List.mem_map.1 hx
    rw [(hf y).1]
    exact h.team_ids y hy
  team_key := by
    have : (s.teams.map f).map Team.id = s.teams.map Team.id := by
      rw [List.map_map]
      exact List.map_congr_left fun x _ => (hf x).1
    show ((s.teams.map f).map Team.id).Nodup
    rw [this]
    exact h.team_key
  junction_ids := h.junction_ids
  junction_org := by
    intro r mr e me x hx her hxr
    obtain ⟨y, hy, rfl⟩ := List.mem_map.1 hx
    rw [(hf y).2]
    rw [(hf y).1] at hxr
    exact h.junction_org r mr e me y hy her hxr

theorem employee_eq_of_id_eq {s : Store} (h : Inv s) {a b : Employee}
    (ha : a ∈ s.employees) (hb : b ∈ s.employees) (hab : a.id = b.id) : a = b :=
  List.inj_on_of_nodup_map h.employee_key ha hb hab

theorem team_eq_of_id_eq {s : Store} (h : Inv s) {a b : Team}
    (ha : a ∈ s.teams) (hb : b ∈ s.teams) (hab : a.id = b.id) : a = b :=
  List.inj_on_of_nodup_map h.team_key ha hb hab

theorem inv_insert_junction {s : Store} (h : Inv s) {e : Employee} {t : Team}
    (he : e ∈ s.employees) (ht : t ∈ s.teams)
    (horg : e.organisation_id = t.organisation_id) (now : Nat) :
    Inv { s with employeeTeams := s.employeeTeams ++
            [{ employee_id := e.id, team_id := t.id, assigned_at := now }] } where
  seq_pos := h.seq_pos
  employee_ids := h.employee_ids
  employee_key := h.employee_key
  team_ids := h.team_ids
  team_key := h.team_key
  junction_ids := by
    intro r hr
    simp only [List.mem_append, List.mem_singleton] at hr
    rcases hr with hr | hr
    · exact h.junction_ids r hr
    · subst hr
      exact ⟨(h.employee_ids e he).2, (h.team_ids t ht).2⟩
  junction_org := by
    intro r hr x hx y hy hxr hyr
    simp only [List.mem_append, List.mem_singleton] at hr
    rcases hr with hr | hr
    · exact h.junction_org r hr x hx y hy hxr hyr
    · subst hr
      have hxe : x = e := employee_eq_of_id_eq h hx he hxr
      have hyt : y = t := team_eq_of_id_eq h hy ht hyr
      rw [hxe, hyt]
      exact horg

theorem inv_createEmployee (cfg : Config) (now : Nat) {s : Store} (h : Inv s)
    (u : Identity) (b : EmployeeBody) : Inv (createEmployee cfg now s u b).1 := by
  unfold createEmployee
  split
  · exact h
  · dsimp only
    split
    · exact h
    · exact inv_logCreate (inv_insert_employee h _ rfl) _ _ _ _ _

theorem inv_updateEmployee (cfg : Config) (now : Nat) {s : Store} (h : Inv s)
    (u : Identity) (id : Nat) (b : EmployeeBody) :
    Inv (updateEmployee cfg now s u id b).1 := by
  unfold updateEmployee
  split
  · exact h
  · dsimp only
    split
    · exact h
    · refine inv_logCreate (inv_map_employees h _ ?_) _ _ _ _ _
      intro x
      split <;> simp

theorem inv_deleteEmployee (cfg : Config) (now : Nat) {s : Store} (h : Inv s)
    (u : Identity) (id : Nat) : Inv (deleteEmployee cfg now s u id).1 := by
  unfold deleteEmployee
  split
  · exact h
  · dsimp only
    apply inv_logCreate
    refine inv_of_sublists h ?_ ?_ ?_ rfl rfl
    · exact List.filter_sublist _
    · exact List.Sublist.refl _
    · show List.Sublist (if cfg.cascade = true then _ else _) _
      split
      · exact List.filter_sublist _
      · exact List.Sublist.refl _

theorem inv_createTeam (cfg : Config) (now : Nat) {s : Store} (h : Inv s)
    (u : Identity) (b : TeamBody) : Inv (createTeam cfg now s u b).1 := by
  unfold createTeam
  split
  · exact h
  · dsimp only
    split
    · exact h
    · exact inv_logCreate (inv_insert_team h _ rfl) _ _ _ _ _

theorem inv_updateTeam (cfg : Config) (now : Nat) {s : Store} (h : Inv s)
    (u : Identity) (id : Nat) (b : TeamBody) : Inv (updateTeam cfg now s u id b).1 := by
  unfold updateTeam
  split
  · exact h
  · dsimp only
    split
    · exact h
    · refine inv_logCreate (inv_map_teams h _ ?_) _ _ _ _ _
      intro x
      split <;> simp

theorem inv_deleteTeam (cfg : Config) (now : Nat) {s : Store} (h : Inv s)
    (u : Identity) (id : Nat) : Inv (deleteTeam cfg now s u id).1 := by
  unfold deleteTeam
  split
  · exact h
  · dsimp only
    apply inv_logCreate
    refine inv_of_sublists h ?_ ?_ ?_ rfl rfl
    · exact List.Sublist.refl _
    · exact List.filter_sublist _
    · show List.Sublist (if cfg.cascade = true then _ else _) _
      split
      · exact List.filter_sublist _
      · exact List.Sublist.refl _

theorem inv_assignEmployee (now : Nat) {s : Store} (h : Inv s) (u : Identity)
    (teamId : Nat) (employeeId : Option Nat) :
    Inv (assignEmployee now s u teamId employeeId).1 := by
  unfold assignEmployee
  split
  · exact h
  · dsimp only
    split
    · exact h
    · rename_i team hteam
      split
      · exact h
      · rename_i employee hemployee
        split
        · exact h
        · obtain ⟨mt, it, ot⟩ := findTeam_some hteam
          obtain ⟨me, ie, oe⟩ := findEmployee_some hemployee
          have := inv_insert_junction h me mt (oe.trans ot.symm) now
          rw [ie, it] at this
          exact inv_logCreate this _ _ _ _ _

theorem inv_unassignEmployee (now : Nat) {s : Store} (h : Inv s) (u : Identity)
    (teamId : Nat) (employeeId : Option Nat) :
    Inv (unassignEmployee now s u teamId employeeId).1 := by
  unfold unassignEmployee
  split
  · exact h
  · dsimp only
    split
    · exact h
    · split
      · exact h
      · apply inv_logCreate
        exact inv_of_sublists h (List.Sublist.refl _) (List.Sublist.refl _)
          (List.filter_sublist _) rfl rfl

theorem createOrganisation_frame {s s1 : Store} {now : Nat} {name : String} :
    (∀ err, createOrganisation s now name = .error (s1, err) →
      s1.employees = s.employees ∧ s1.teams = s.teams ∧
      s1.employeeTeams = s.employeeTeams ∧ s1.users = s.users ∧ s1.logs = s.logs ∧
      s1.nextEmployeeId = s.nextEmployeeId ∧ s1.nextTeamId = s.nextTeamId) ∧
    (∀ o, createOrganisation s now name = .ok (s1, o) →
      s1.employees = s.employees ∧ s1.teams = s.teams ∧
      s1.employeeTeams = s.employeeTeams ∧ s1.users = s.users ∧ s1.logs = s.logs ∧
      s1.nextEmployeeId = s.nextEmployeeId ∧ s1.nextTeamId = s.nextTeamId) := by
  unfold createOrganisation
  constructor
  · intro err h
    split at h
    · simp only [Except.error.injEq, Prod.mk.injEq] at h
      obtain ⟨rfl, -⟩ := h
      simp
    · split at h
      · simp only [Except.error.injEq, Prod.mk.injEq] at h
        obtain ⟨rfl, -⟩ := h
        simp
      · simp at h
  · intro o h
    split at h
    · simp at h
    · split at h
      · simp at h
      · simp only [Except.ok.injEq, Prod.mk.injEq] at h
        obtain ⟨rfl, -⟩ := h
        simp

theorem inv_of_frame {s s1 : Store} (h : Inv s)
    (hf : s1.employees = s.employees ∧ s1.teams = s.teams ∧
      s1.employeeTeams = s.employeeTeams ∧ s1.users = s.users ∧ s1.logs = s.logs ∧
      s1.nextEmployeeId = s.nextEmployeeId ∧ s1.nextTeamId = s.nextTeamId) : Inv s1 :=
  inv_of_sublists h (hf.1 ▸ List.Sublist.refl _) (hf.2.1 ▸ List.Sublist.refl _)
    (hf.2.2.1 ▸ List.Sublist.refl _) hf.2.2.2.2.2.1 hf.2.2.2.2.2.2

theorem inv_register (cfg : Config) (now : Nat) {s : Store} (h : Inv s)
    (b : RegisterBody) : Inv (register cfg now s b).1 := by
  unfold register
  split
  · exact h
  · split
    · exact h
    · split
      · exact h
      · split
        · rename_i s1 err hc
          exact inv_of_frame h (createOrganisation_frame.1 err hc)
        · rename_i s1 o hc
          have h1 : Inv s1 := inv_of_frame h (createOrganisation_frame.2 o hc)
          dsimp only
          split
          · exact h1
          · apply inv_logCreate
            exact inv_of_sublists h1 (List.Sublist.refl _)
              (List.Sublist.refl _) (List.Sublist.refl _) rfl rfl

theorem inv_login (cfg : Config) (now : Nat) {s : Store} (h : Inv s)
    (b : LoginBody) : Inv (login cfg now s b).1 := by
  unfold login
  split
  · exact h
  · split
    · exact h
    · split
      · exact h
      · split <;> exact inv_logCreate h _ _ _ _ _

theorem inv_step (cfg : Config) (now : Nat) {s : Store} (h : Inv s) (c : Call) :
    Inv (step cfg now s c).1 := by
  cases c with
  | register b => exact inv_register cfg now h b
  | login b => exact inv_login cfg now h b
  | logout u => exact inv_logCreate h _ _ _ _ _
  | listEmployees u => exact h
  | getEmployee u id => exact h
  | createEmployee u b => exact inv_createEmployee cfg now h u b
  | updateEmployee u id b => exact inv_updateEmployee cfg now h u id b
  | deleteEmployee u id => exact inv_deleteEmployee cfg now h u id
  | listTeams u => exact h
  | getTeam u id => exact h
  | createTeam u b => exact inv_createTeam cfg now h u b
  | updateTeam u id b => exact inv_updateTeam cfg now h u id b
  | deleteTeam u id => exact inv_deleteTeam cfg now h u id
  | assignEmployee u teamId employeeId => exact inv_assignEmployee now h u teamId employeeId
  | unassignEmployee u teamId employeeId =>
    exact inv_unassignEmployee now h u teamId employeeId
  | getLogs u => exact h

theorem inv_run (cfg : Config) (calls : List (Nat × Call)) :
    ∀ s, Inv s → Inv (run cfg s calls) := by
  induction calls with
  | nil => intro s h; exact h
  | cons c rest ih =>
    intro s h
    obtain ⟨now, c⟩ := c
    exact ih _ (inv_step cfg now h c)

theorem inv_of_reachable {cfg : Config} {s : Store} (h : Reachable cfg s) : Inv s := by
  obtain ⟨calls, rfl⟩ := h
  exact inv_run cfg calls _ inv_empty

theorem mem_teamsOf {s : Store} {e : Employee} {p : Team × EmployeeTeam} :
    p ∈ teamsOf s e ↔
      p.2 ∈ s.employeeTeams ∧ p.2.employee_id = e.id ∧ p.1 ∈ s.teams ∧ p.1.id = p.2.team_id := by
  obtain ⟨t, r⟩ := p
  simp only [teamsOf, List.mem_flatMap, List.mem_filter, List.mem_map, Prod.mk.injEq,
    beq_iff_eq]
  constructor
  · rintro ⟨r', ⟨hr, hre⟩, t', ⟨ht, htr⟩, rfl, rfl⟩
    exact ⟨hr, hre, ht, htr⟩
  · rintro ⟨hr, hre, ht, htr⟩
    exact ⟨r, ⟨hr, hre⟩, t, ⟨ht, htr⟩, rfl, rfl⟩

theorem mem_employeesOf {s : Store} {t : Team} {p : Employee × EmployeeTeam} :
    p ∈ employeesOf s t ↔
      p.2 ∈ s.employeeTeams ∧ p.2.team_id = t.id ∧ p.1 ∈ s.employees ∧
        p.1.id = p.2.employee_id := by
  obtain ⟨e, r⟩ := p
  simp only [employeesOf, List.mem_flatMap, List.mem_filter, List.mem_map, Prod.mk.injEq,
    beq_iff_eq]
  constructor
  · rintro ⟨r', ⟨hr, hrt⟩, e', ⟨he, her⟩, rfl, rfl⟩
    exact ⟨hr, hrt, he, her⟩
  · rintro ⟨hr, hrt, he, her⟩
    exact ⟨r, ⟨hr, hrt⟩, e, ⟨he, her⟩, rfl, rfl⟩

/-- Under the invariant, a team joined to an employee is of the employee's organisation. -/
theorem teamsOf_same_org {s : Store} (h : Inv s) {e : Employee} (he : e ∈ s.employees)
    {p : Team × EmployeeTeam} (hp : p ∈ teamsOf s e) :
    p.1 ∈ s.teams ∧ p.1.organisation_id = e.organisation_id := by
  obtain ⟨hr, hre, ht, htr⟩ := mem_teamsOf.1 hp
  exact ⟨ht, (h.junction_org p.2 hr e he p.1 ht hre.symm htr).symm⟩

/-- Under the invariant, an employee joined to a team is of the team's organisation. -/
theorem employeesOf_same_org {s : Store} (h : Inv s) {t : Team} (ht : t ∈ s.teams)
    {p : Employee × EmployeeTeam} (hp : p ∈ employeesOf s t) :
    p.1 ∈ s.employees ∧ p.1.organisation_id = t.organisation_id := by
  obtain ⟨hr, hrt, he, her⟩ := mem_employeesOf.1 hp
  exact ⟨he, h.junction_org p.2 hr p.1 he t ht her hrt.symm⟩

/-! ## Cross-tenant assignments and embedded rows -/

/-- C4: in every store reachable from the empty store by handler calls of any
callers, the employee and the team that a junction row names are of the same
organisation. -/
theorem no_cross_tenant_assignment (cfg : Config) (s : Store) (h : Reachable cfg s) :
    ∀ r ∈ s.employeeTeams, ∀ e ∈ s.employees, ∀ t ∈ s.teams,
      e.id = r.employee_id → t.id = r.team_id → e.organisation_id = t.organisation_id :=
  (inv_of_reachable h).junction_org

/-- Witness of C4: the store after the sample history holds one junction row,
and it joins an employee and a team of one organisation. -/
theorem no_cross_tenant_assignment_witness :
    (run sampleConfig Store.empty sampleCalls).employeeTeams = [⟨1, 1, 23⟩] ∧
    ∀ r ∈ (run sampleConfig Store.empty sampleCalls).employeeTeams,
      ∀ e ∈ (run sampleConfig Store.empty sampleCalls).employees,
      ∀ t ∈ (run sampleConfig Store.empty sampleCalls).teams,
      e.id = r.employee_id → t.id = r.team_id → e.organisation_id = t.organisation_id :=
  ⟨by decide, no_cross_tenant_assignment sampleConfig _ ⟨sampleCalls, rfl⟩⟩

/-- C5: in every reachable store, each team embedded under an employee that
`listEmployees` or `getEmployee` returns, and each employee embedded under a
team that `listTeams` or `getTeam` returns, is a row of the caller's
organisation: a row with the embedded id exists, and every row with that id has
the caller's `orgId`. -/
theorem embedded_rows_are_own (cfg : Config) (s : Store) (h : Reachable cfg s)
    (u : Identity) (id : Nat) :
    (∃ rows, listEmployees s u = ⟨200, .employees rows⟩ ∧
      ∀ x ∈ rows, ∀ b ∈ x.teams,
        (∃ t ∈ s.teams, t.id = b.id ∧ t.name = b.name) ∧
        ∀ t ∈ s.teams, t.id = b.id → t.organisation_id = u.orgId) ∧
    (∀ x, getEmployee s u id = ⟨200, .employeeDetail x⟩ →
      ∀ b ∈ x.teams,
        (∃ t ∈ s.teams, t.id = b.id ∧ t.name = b.name) ∧
        ∀ t ∈ s.teams, t.id = b.id → t.organisation_id = u.orgId) ∧
    (∃ rows, listTeams s u = ⟨200, .teams rows⟩ ∧
      ∀ x ∈ rows, ∀ b ∈ x.employees,
        (∃ e ∈ s.employees, e.id = b.id ∧ e.email = b.email) ∧
        ∀ e ∈ s.employees, e.id = b.id → e.organisation_id = u.orgId) ∧
    (∀ x, getTeam s u id = ⟨200, .teamDetail x⟩ →
      ∀ b ∈ x.employees,
        (∃ e ∈ s.employees, e.id = b.id ∧ e.email = b.email) ∧
        ∀ e ∈ s.employees, e.id = b.id → e.organisation_id = u.orgId) := by
  have inv := inv_of_reachable h
  refine ⟨⟨_, rfl, ?_⟩, ?_, ⟨_, rfl, ?_⟩, ?_⟩
  · intro x hx b hb
    obtain ⟨e, he, rfl⟩ := List.mem_map.1 hx
    rw [mem_orderDesc, List.mem_filter, beq_iff_eq] at he
    obtain ⟨p, hp, rfl⟩ := List.mem_map.1 hb
    obtain ⟨pt, po⟩ := teamsOf_same_org inv he.1 hp
    refine ⟨⟨p.1, pt, rfl, rfl⟩, ?_⟩
    intro t ht hid
    rw [team_eq_of_id_eq inv ht pt hid, po, he.2]
  · intro x hx b hb
    unfold getEmployee at hx
    split at hx
    · simp at hx
    · rename_i e hfind
      simp only [Response.mk.injEq, Body.employeeDetail.injEq, true_and] at hx
      subst hx
      obtain ⟨he, -, ho⟩ := findEmployee_some hfind
      obtain ⟨p, hp, rfl⟩ := List.mem_map.1 hb
      obtain ⟨pt, po⟩ := teamsOf_same_org inv he hp
      refine ⟨⟨p.1, pt, rfl, rfl⟩, ?_⟩
      intro t ht hid
      rw [team_eq_of_id_eq inv ht pt hid, po, ho]
  · intro x hx b hb
    obtain ⟨t, ht, rfl⟩ := List.mem_map.1 hx
    rw [mem_orderDesc, List.mem_filter, beq_iff_eq] at ht
    obtain ⟨p, hp, rfl⟩ := List.mem_map.1 hb
    obtain ⟨pe, po⟩ := employeesOf_same_org inv ht.1 hp
    refine ⟨⟨p.1, pe, rfl, rfl⟩, ?_⟩
    intro e he hid
    rw [employee_eq_of_id_eq inv he pe hid, po, ht.2]
  · intro x hx b hb
    unfold getTeam at hx
    split at hx
    · simp at hx
    · rename_i t hfind
      simp only [Response.mk.injEq, Body.teamDetail.injEq, true_and] at hx
      subst hx
      obtain ⟨ht, -, ho⟩ := findTeam_some hfind
      obtain ⟨p, hp, rfl⟩ := List.mem_map.1 hb
      obtain ⟨pe, po⟩ := employeesOf_same_org inv ht hp
      refine ⟨⟨p.1, pe, rfl, rfl⟩, ?_⟩
      intro e he hid
      rw [employee_eq_of_id_eq inv he pe hid, po, ho]

/-- Witness of C5: in the store after the sample history, the caller of
organisation 1 reads employee 1 with team 1 embedded, and that team is of
organisation 1. -/
theorem embedded_rows_are_own_witness :
    getEmployee (run sampleConfig Store.empty sampleCalls) alice 1 =
      ⟨200, .employeeDetail
        { row := ⟨1, 1, "Bo", "Lee", "bo@acme.com", none, 21⟩,
          teams := [⟨1, "Core", none, 23⟩] }⟩ ∧
    ∀ b ∈ [(⟨1, "Core", none, 23⟩ : TeamDetail)],
      (∃ t ∈ (run sampleConfig Store.empty sampleCalls).teams, t.id = b.id ∧ t.name = b.name) ∧
      ∀ t ∈ (run sampleConfig Store.empty sampleCalls).teams,
        t.id = b.id → t.organisation_id = alice.orgId :=
  ⟨by decide,
   (embedded_rows_are_own sampleConfig _ ⟨sampleCalls, rfl⟩ alice 1).2.1
     { row := ⟨1, 1, "Bo", "Lee", "bo@acme.com", none, 21⟩,
       teams := [⟨1, "Core", none, 23⟩] } (by decide)⟩

theorem findTeam_of_exists {s : Store} {id org : Nat}
    (h : ∃ t ∈ s.teams, t.id = id ∧ t.organisation_id = org) :
    ∃ t, findTeam s id org = some t := by
  obtain ⟨t, ht, hid, horg⟩ := h
  have : (findTeam s id org).isSome := by
    unfold findTeam
    rw [List.find?_isSome]
    exact ⟨t, ht, by simp [hid, horg]⟩
  exact Option.isSome_iff_exists.1 this

theorem findEmployee_of_exists {s : Store} {id org : Nat}
    (h : ∃ e ∈ s.employees, e.id = id ∧ e.organisation_id = org) :
    ∃ e, findEmployee s id org = some e := by
  obtain ⟨e, he, hid, horg⟩ := h
  have : (findEmployee s id org).isSome := by
    unfold findEmployee
    rw [List.find?_isSome]
    exact ⟨e, he, by simp [hid, horg]⟩
  exact Option.isSome_iff_exists.1 this

theorem findAssignment_none {s : Store} {employeeId teamId : Nat}
    (h : ∀ r ∈ s.employeeTeams, ¬(r.employee_id = employeeId ∧ r.team_id = teamId)) :
    findAssignment s employeeId teamId = none := by
  unfold findAssignment
  rw [List.find?_eq_none]
  intro r hr
  simp only [Bool.and_eq_true, beq_iff_eq]
  exact h r hr

theorem findAssignment_of_exists {s : Store} {employeeId teamId : Nat}
    (h : ∃ r ∈ s.employeeTeams, r.employee_id = employeeId ∧ r.team_id = teamId) :
    ∃ r, findAssignment s employeeId teamId = some r := by
  obtain ⟨r, hr, h1, h2⟩ := h
  have : (findAssignment s employeeId teamId).isSome := by
    unfold findAssignment
    rw [List.find?_isSome]
    exact ⟨r, hr, by simp [h1, h2]⟩
  exact Option.isSome_iff_exists.1 this

theorem idTruthy_some {n : Nat} (h : n ≠ 0) : idTruthy (some n) = true := by
  simp [idTruthy, h]

/-! ## Assignment -/

/-- The first assignment of a pair: what `assignEmployee` returns when the team
and the employee are found in the caller's organisation and the pair is new. -/
theorem assignEmployee_fresh (now : Nat) {s : Store} {u : Identity} {teamId eid : Nat}
    {team : Team} {employee : Employee} (hid : eid ≠ 0)
    (ht : findTeam s teamId u.orgId = some team)
    (he : findEmployee s eid u.orgId = some employee)
    (hno : findAssignment s eid teamId = none) :
    assignEmployee now s u teamId (some eid) =
      (logCreate { s with employeeTeams := s.employeeTeams ++
                    [{ employee_id := eid, team_id := teamId, assigned_at := now }] }
          now (some u.orgId) (some u.userId) "employee_assigned_to_team"
          [("employeeId", .atom (.num eid)),
           ("teamId", .atom (.num teamId)),
           ("employeeName", .atom (.str (employee.first_name ++ " " ++ employee.last_name))),
           ("teamName", .atom (.str team.name))],
       ⟨200, .message "Employee assigned to team successfully"⟩) := by
  simp [assignEmployee, idTruthy_some hid, ht, he, hno]

/-- A repeated assignment: what `assignEmployee` returns when the pair is there. -/
theorem assignEmployee_existing (now : Nat) {s : Store} {u : Identity} {teamId eid : Nat}
    {team : Team} {employee : Employee} {r : EmployeeTeam} (hid : eid ≠ 0)
    (ht : findTeam s teamId u.orgId = some team)
    (he : findEmployee s eid u.orgId = some employee)
    (hr : findAssignment s eid teamId = some r) :
    assignEmployee now s u teamId (some eid) =
      (s, ⟨400, .message "Employee already assigned to this team"⟩) := by
  simp [assignEmployee, idTruthy_some hid, ht, he, hr]

/-- C6: in a reachable store, for a team and an employee of the caller's
organisation that no junction row joins, the first `assignEmployee` succeeds and
a second one for the same pair responds 400 'Employee already assigned to this
team'; the second call returns the store of the first unchanged (so it adds no
log row), that store holds exactly one junction row for the pair, and the first
call added one log row. -/
theorem assign_twice_conflicts (cfg : Config) (s : Store) (h : Reachable cfg s)
    (u : Identity) (now1 now2 teamId employeeId : Nat)
    (hT : ∃ t ∈ s.teams, t.id = teamId ∧ t.organisation_id = u.orgId)
    (hE : ∃ e ∈ s.employees, e.id = employeeId ∧ e.organisation_id = u.orgId)
    (hno : ∀ r ∈ s.employeeTeams, ¬(r.employee_id = employeeId ∧ r.team_id = teamId)) :
    (assignEmployee now1 s u teamId (some employeeId)).2 =
      ⟨200, .message "Employee assigned to team successfully"⟩ ∧
    (assignEmployee now2 (assignEmployee now1 s u teamId (some employeeId)).1 u teamId
        (some employeeId)).2 =
      ⟨400, .message "Employee already assigned to this team"⟩ ∧
    (assignEmployee now2 (assignEmployee now1 s u teamId (some employeeId)).1 u teamId
        (some employeeId)).1 = (assignEmployee now1 s u teamId (some employeeId)).1 ∧
    ((assignEmployee now1 s u teamId (some employeeId)).1.employeeTeams.filter
        fun r => r.employee_id == employeeId && r.team_id == teamId) =
      [{ employee_id := employeeId, team_id := teamId, assigned_at := now1 }] ∧
    ∃ l, (assignEmployee now1 s u teamId (some employeeId)).1.logs = s.logs ++ [l] := by
  have inv := inv_of_reachable h
  have hid : employeeId ≠ 0 := by
    obtain ⟨e, he, hid, -⟩ := hE
    have := (inv.employee_ids e he).1
    omega
  obtain ⟨team, ht⟩ := findTeam_of_exists hT
  obtain ⟨employee, he⟩ := findEmployee_of_exists hE
  have ha := findAssignment_none hno
  have e1 := assignEmployee_fresh now1 hid ht he ha
  have key : ∀ s1 : Store, s1.teams = s.teams → s1.employees = s.employees →
      s1.employeeTeams = s.employeeTeams ++
        [{ employee_id := employeeId, team_id := teamId, assigned_at := now1 }] →
      assignEmployee now2 s1 u teamId (some employeeId) =
        (s1, ⟨400, .message "Employee already assigned to this team"⟩) := by
    intro s1 h1 h2 h3
    have ht1 : findTeam s1 teamId u.orgId = some team := by
      unfold findTeam at *; rw [h1]; exact ht
    have he1 : findEmployee s1 employeeId u.orgId = some employee := by
      unfold findEmployee at *; rw [h2]; exact he
    obtain ⟨r, hr⟩ := findAssignment_of_exists
      (show ∃ r ∈ s1.employeeTeams, r.employee_id = employeeId ∧ r.team_id = teamId from
        ⟨_, by rw [h3]; exact List.mem_append_right _ (List.mem_singleton_self _), rfl, rfl⟩)
    exact assignEmployee_existing now2 hid ht1 he1 hr
  have k := key (assignEmployee now1 s u teamId (some employeeId)).1
    (by rw [e1]; rfl) (by rw [e1]; rfl) (by rw [e1]; rfl)
  refine ⟨by rw [e1], by rw [k], by rw [k], ?_, by rw [e1]; exact ⟨_, rfl⟩⟩
  rw [e1]
  simp only [logCreate, List.filter_append]
  have : (s.employeeTeams.filter fun r => r.employee_id == employeeId && r.team_id == teamId)
      = [] := by
    rw [List.filter_eq_nil_iff]
    intro r hr
    simp only [Bool.and_eq_true, beq_iff_eq]
    exact hno r hr
  rw [this]
  simp

/-- Witness of C6: after two registrations and the creation of team 1 and
employee 1 by organisation 1, the caller of organisation 1 assigns employee 1
to team 1 twice. -/
theorem assign_twice_conflicts_witness :
    (assignEmployee 23 (run sampleConfig Store.empty (sampleCalls.take 5)) alice 1 (some 1)).2 =
      ⟨200, .message "Employee assigned to team successfully"⟩ ∧
    (assignEmployee 24
        (assignEmployee 23 (run sampleConfig Store.empty (sampleCalls.take 5)) alice 1
          (some 1)).1 alice 1 (some 1)).2 =
      ⟨400, .message "Employee already assigned to this team"⟩ :=
  have w := assign_twice_conflicts sampleConfig
    (run sampleConfig Store.empty (sampleCalls.take 5)) ⟨sampleCalls.take 5, rfl⟩
    alice 23 24 1 1 (by decide) (by decide) (by decide)
  ⟨w.1, w.2.1⟩

/-- C7: for a non-empty `employeeId`, `assignEmployee` responds 404 whenever no
team of the caller's organisation has the team id or no employee of the caller's
organisation has the employee id (a row of another organisation does not count),
and it then returns the store as it was: no junction row and no log row is
created. -/
theorem assign_unknown_is_404_and_no_change (now : Nat) (s : Store) (u : Identity)
    (teamId employeeId : Nat) (hid : employeeId ≠ 0)
    (h : (∀ t ∈ s.teams, t.id = teamId → t.organisation_id ≠ u.orgId) ∨
         (∀ e ∈ s.employees, e.id = employeeId → e.organisation_id ≠ u.orgId)) :
    (assignEmployee now s u teamId (some employeeId)).2.status = 404 ∧
    (assignEmployee now s u teamId (some employeeId)).1 = s := by
  unfold assignEmployee
  rw [idTruthy_some hid]
  dsimp only [Option.getD]
  cases hteam : findTeam s teamId u.orgId with
  | none => simp
  | some team =>
    rcases h with h | h
    · rw [findTeam_none h] at hteam
      cases hteam
    · rw [findEmployee_none h]
      simp

/-- Witness of C7 on the sample store: the caller of organisation 1 assigns
employee 2, which belongs to organisation 2, to its own team 1. -/
theorem assign_unknown_is_404_and_no_change_witness :
    (∃ e ∈ sampleStore.employees, e.id = 2 ∧ e.organisation_id ≠ alice.orgId) ∧
    (assignEmployee 50 sampleStore alice 1 (some 2)).2.status = 404 ∧
    (assignEmployee 50 sampleStore alice 1 (some 2)).1 = sampleStore :=
  ⟨by decide,
   assign_unknown_is_404_and_no_change 50 sampleStore alice 1 2 (by decide)
     (Or.inr (by decide))⟩

/-- C8 as stated fails: in the store after the sample history, team 1 is of
the caller's organisation and no junction row has employee id 0, yet
`unassignEmployee` with `employeeId` 0 responds 400 'Employee ID is required',
not 404. -/
theorem unassign_with_zero_id_is_400 :
    (∃ t ∈ (run sampleConfig Store.empty sampleCalls).teams,
      t.id = 1 ∧ t.organisation_id = alice.orgId) ∧
    (∀ r ∈ (run sampleConfig Store.empty sampleCalls).employeeTeams,
      ¬(r.employee_id = 0 ∧ r.team_id = 1)) ∧
    (unassignEmployee 50 (run sampleConfig Store.empty sampleCalls) alice 1 (some 0)).2 =
      ⟨400, .message "Employee ID is required"⟩ ∧
    (unassignEmployee 50 (run sampleConfig Store.empty sampleCalls) alice 1 (some 0)).2.status
      ≠ 404 := by
  decide

/-- C8, amended: for a team of the caller's organisation and a non-empty
`employeeId` such that no junction row exists for the pair, `unassignEmployee`
responds 404 and returns the store as it was, so the junction rows and the log
are unchanged; for an empty `employeeId` (missing or 0) it responds 400
'Employee ID is required' and also returns the store as it was. -/
theorem unassign_missing_pair (now : Nat) (s : Store) (u : Identity)
    (teamId employeeId : Nat) (hid : employeeId ≠ 0)
    (hT : ∃ t ∈ s.teams, t.id = teamId ∧ t.organisation_id = u.orgId)
    (hno : ∀ r ∈ s.employeeTeams, ¬(r.employee_id = employeeId ∧ r.team_id = teamId)) :
    unassignEmployee now s u teamId (some employeeId) =
      (s, ⟨404, .message "Employee not assigned to this team"⟩) ∧
    unassignEmployee now s u teamId (some 0) =
      (s, ⟨400, .message "Employee ID is required"⟩) ∧
    unassignEmployee now s u teamId none =
      (s, ⟨400, .message "Employee ID is required"⟩) := by
  obtain ⟨team, ht⟩ := findTeam_of_exists hT
  refine ⟨?_, ?_, ?_⟩
  · simp [unassignEmployee, idTruthy_some hid, ht, findAssignment_none hno]
  · simp [unassignEmployee, idTruthy]
  · simp [unassignEmployee, idTruthy]

/-- Witness of the amended C8 on the sample store: employee 3 is not in team 1. -/
theorem unassign_missing_pair_witness :
    unassignEmployee 50 sampleStore alice 1 (some 3) =
      (sampleStore, ⟨404, .message "Employee not assigned to this team"⟩) :=
  (unassign_missing_pair 50 sampleStore alice 1 3 (by decide) (by decide) (by decide)).1

/-! ## The audit log -/

theorem errorHandler_validationError (items : List ErrorItem) :
    errorHandler (validationError items) =
      ⟨400, .validation "Validation error" (items.map fun e => (e.path, e.message))⟩ := by
  simp [errorHandler, validationError]

/-- The log row that a handler of a guarded route writes for the caller. -/
theorem logCreate_logs (s : Store) (now : Nat) (org user : Option Nat)
    (action : String) (payload : List (String × MetaVal)) :
    (logCreate s now org user action payload).logs =
      s.logs ++ [{ id := s.nextLogId, organisation_id := org, user_id := user,
                   action := action, meta := payload, timestamp := now }] := rfl

theorem createEmployee_audit (cfg : Config) (now : Nat) (s : Store) (u : Identity)
    (b : EmployeeBody) (hok : (createEmployee cfg now s u b).2.status < 400) :
    ∃ l, (createEmployee cfg now s u b).1.logs = s.logs ++ [l] ∧
      l.action = "employee_created" ∧ l.organisation_id = some u.orgId ∧
      l.user_id = some u.userId := by
  unfold createEmployee at hok ⊢
  split
  · rename_i hc; rw [if_pos hc] at hok; simp at hok
  · rename_i hc; rw [if_neg hc] at hok
    dsimp only at hok ⊢
    split
    · rename_i hv; rw [hv] at hok; simp [errorHandler_validationError] at hok
    · exact ⟨_, rfl, rfl, rfl, rfl⟩

theorem updateEmployee_audit (cfg : Config) (now : Nat) (s : Store) (u : Identity)
    (id : Nat) (b : EmployeeBody) (hok : (updateEmployee cfg now s u id b).2.status < 400) :
    ∃ l, (updateEmployee cfg now s u id b).1.logs = s.logs ++ [l] ∧
      l.action = "employee_updated" ∧ l.organisation_id = some u.orgId ∧
      l.user_id = some u.userId := by
  unfold updateEmployee at hok ⊢
  split
  · rename_i hf; rw [hf] at hok; simp at hok
  · rename_i e hf; rw [hf] at hok
    dsimp only at hok ⊢
    split
    · rename_i hv; rw [hv] at hok; simp [errorHandler_validationError] at hok
    · exact ⟨_, rfl, rfl, rfl, rfl⟩

theorem deleteEmployee_audit (cfg : Config) (now : Nat) (s : Store) (u : Identity)
    (id : Nat) (hok : (deleteEmployee cfg now s u id).2.status < 400) :
    ∃ l, (deleteEmployee cfg now s u id).1.logs = s.logs ++ [l] ∧
      l.action = "employee_deleted" ∧ l.organisation_id = some u.orgId ∧
      l.user_id = some u.userId := by
  unfold deleteEmployee at hok ⊢
  split
  · rename_i hf; rw [hf] at hok; simp at hok
  · exact ⟨_, rfl, rfl, rfl, rfl⟩

theorem createTeam_audit (cfg : Config) (now : Nat) (s : Store) (u : Identity)
    (b : TeamBody) (hok : (createTeam cfg now s u b).2.status < 400) :
    ∃ l, (createTeam cfg now s u b).1.logs = s.logs ++ [l] ∧
      l.action = "team_created" ∧ l.organisation_id = some u.orgId ∧
      l.user_id = some u.userId := by
  unfold createTeam at hok ⊢
  split
  · rename_i hc; rw [if_pos hc] at hok; simp at hok
  · rename_i hc; rw [if_neg hc] at hok
    dsimp only at hok ⊢
    split
    · rename_i hv; rw [hv] at hok; simp [errorHandler_validationError] at hok
    · exact ⟨_, rfl, rfl, rfl, rfl⟩

theorem updateTeam_audit (cfg : Config) (now : Nat) (s : Store) (u : Identity)
    (id : Nat) (b : TeamBody) (hok : (updateTeam cfg now s u id b).2.status < 400) :
    ∃ l, (updateTeam cfg now s u id b).1.logs = s.logs ++ [l] ∧
      l.action = "team_updated" ∧ l.organisation_id = some u.orgId ∧
      l.user_id = some u.userId := by
  unfold updateTeam at hok ⊢
  split
  · rename_i hf; rw [hf] at hok; simp at hok
  · rename_i e hf; rw [hf] at hok
    dsimp only at hok ⊢
    split
    · rename_i hv; rw [hv] at hok; simp [errorHandler_validationError] at hok
    · exact ⟨_, rfl, rfl, rfl, rfl⟩

theorem deleteTeam_audit (cfg : Config) (now : Nat) (s : Store) (u : Identity)
    (id : Nat) (hok : (deleteTeam cfg now s u id).2.status < 400) :
    ∃ l, (deleteTeam cfg now s u id).1.logs = s.logs ++ [l] ∧
      l.action = "team_deleted" ∧ l.organisation_id = some u.orgId ∧
      l.user_id = some u.userId := by
  unfold deleteTeam at hok ⊢
  split
  · rename_i hf; rw [hf] at hok; simp at hok
  · exact ⟨_, rfl, rfl, rfl, rfl⟩

theorem assignEmployee_audit (now : Nat) (s : Store) (u : Identity) (teamId : Nat)
    (employeeId : Option Nat)
    (hok : (assignEmployee now s u teamId employeeId).2.status < 400) :
    ∃ l, (assignEmployee now s u teamId employeeId).1.logs = s.logs ++ [l] ∧
      l.action = "employee_assigned_to_team" ∧ l.organisation_id = some u.orgId ∧
      l.user_id = some u.userId := by
  unfold assignEmployee at hok ⊢
  split
  · rename_i hc; rw [if_pos hc] at hok; simp at hok
  · rename_i hc; rw [if_neg hc] at hok
    dsimp only at hok ⊢
    split
    · rename_i hf; rw [hf] at hok; simp at hok
    · rename_i t hf; rw [hf] at hok
      dsimp only at hok ⊢
      split
      · rename_i hg; rw [hg] at hok; simp at hok
      · rename_i e hg; rw [hg] at hok
        dsimp only at hok ⊢
        split
        · rename_i r hr; rw [hr] at hok; simp at hok
        · exact ⟨_, rfl, rfl, rfl, rfl⟩

theorem unassignEmployee_audit (now : Nat) (s : Store) (u : Identity) (teamId : Nat)
    (employeeId : Option Nat)
    (hok : (unassignEmployee now s u teamId employeeId).2.status < 400) :
    ∃ l, (unassignEmployee now s u teamId employeeId).1.logs = s.logs ++ [l] ∧
      l.action = "employee_unassigned_from_team" ∧ l.organisation_id = some u.orgId ∧
      l.user_id = some u.userId := by
  unfold unassignEmployee at hok ⊢
  split
  · rename_i hc; rw [if_pos hc] at hok; simp at hok
  · rename_i hc; rw [if_neg hc] at hok
    dsimp only at hok ⊢
    split
    · rename_i hf; rw [hf] at hok; simp at hok
    · rename_i t hf; rw [hf] at hok
      dsimp only at hok ⊢
      split
      · rename_i hg; rw [hg] at hok; simp at hok
      · exact ⟨_, rfl, rfl, rfl, rfl⟩

/-- C9: a successful call (status below 400) of `createEmployee`,
`updateEmployee`, `deleteEmployee`, `createTeam`, `updateTeam`, `deleteTeam`,
`assignEmployee` or `unassignEmployee` appends exactly one log row, whose action
is the tag of the handler, whose `organisation_id` is the caller's `orgId` and
whose `user_id` is the caller's `userId`. -/
theorem mutation_success_appends_one_log (cfg : Config) (now : Nat) (s : Store)
    (c : Call) (u : Identity) (action : String)
    (hc : (∃ b, c = .createEmployee u b ∧ action = "employee_created") ∨
          (∃ id b, c = .updateEmployee u id b ∧ action = "employee_updated") ∨
          (∃ id, c = .deleteEmployee u id ∧ action = "employee_deleted") ∨
          (∃ b, c = .createTeam u b ∧ action = "team_created") ∨
          (∃ id b, c = .updateTeam u id b ∧ action = "team_updated") ∨
          (∃ id, c = .deleteTeam u id ∧ action = "team_deleted") ∨
          (∃ teamId employeeId, c = .assignEmployee u teamId employeeId ∧
            action = "employee_assigned_to_team") ∨
          (∃ teamId employeeId, c = .unassignEmployee u teamId employeeId ∧
            action = "employee_unassigned_from_team"))
    (hok : (step cfg now s c).2.status < 400) :
    ∃ l, (step cfg now s c).1.logs = s.logs ++ [l] ∧ l.action = action ∧
      l.organisation_id = some u.orgId ∧ l.user_id = some u.userId := by
  rcases hc with ⟨b, rfl, rfl⟩ | ⟨id, b, rfl, rfl⟩ | ⟨id, rfl, rfl⟩ | ⟨b, rfl, rfl⟩ |
    ⟨id, b, rfl, rfl⟩ | ⟨id, rfl, rfl⟩ | ⟨teamId, employeeId, rfl, rfl⟩ |
    ⟨teamId, employeeId, rfl, rfl⟩
  · exact createEmployee_audit cfg now s u b hok
  · exact updateEmployee_audit cfg now s u id b hok
  · exact deleteEmployee_audit cfg now s u id hok
  · exact createTeam_audit cfg now s u b hok
  · exact updateTeam_audit cfg now s u id b hok
  · exact deleteTeam_audit cfg now s u id hok
  · exact assignEmployee_audit now s u teamId employeeId hok
  · exact unassignEmployee_audit now s u teamId employeeId hok

/-- Witness of C9 on the sample store: the caller of organisation 1 deletes its
employee 3. -/
theorem mutation_success_appends_one_log_witness :
    (step sampleConfig 50 sampleStore (.deleteEmployee alice 3)).2 =
      ⟨200, .message "Employee deleted successfully"⟩ ∧
    ∃ l, (step sampleConfig 50 sampleStore (.deleteEmployee alice 3)).1.logs =
        sampleStore.logs ++ [l] ∧ l.action = "employee_deleted" ∧
      l.organisation_id = some alice.orgId ∧ l.user_id = some alice.userId :=
  ⟨by decide,
   mutation_success_appends_one_log sampleConfig 50 sampleStore (.deleteEmployee alice 3)
     alice "employee_deleted" (Or.inr (Or.inr (Or.inl ⟨3, rfl, rfl⟩))) (by decide)⟩

/-- Every call keeps the log rows it found, in place, and adds at most one. -/
theorem step_logs (cfg : Config) (now : Nat) (s : Store) (c : Call) :
    ∃ added, (step cfg now s c).1.logs = s.logs ++ added ∧ added.length ≤ 1 := by
  have keep : ∀ l : List Log, ∃ added, l = l ++ added ∧ added.length ≤ 1 :=
    fun l => ⟨[], by simp, by simp⟩
  have add : ∀ (l : List Log) (x : Log), ∃ added, l ++ [x] = l ++ added ∧ added.length ≤ 1 :=
    fun l x => ⟨[x], rfl, by simp⟩
  cases c with
  | register b =>
    simp only [step]
    unfold register
    split
    · exact keep _
    · split
      · exact keep _
      · split
        · exact keep _
        · split
          · rename_i s1 err hc
            rw [show s1.logs = s.logs from (createOrganisation_frame.1 err hc).2.2.2.2.1]
            exact keep _
          · rename_i s1 o hc
            have hl : s1.logs = s.logs := (createOrganisation_frame.2 o hc).2.2.2.2.1
            dsimp only
            split
            · rw [hl]; exact keep _
            · rw [logCreate_logs]
              dsimp only
              rw [hl]
              exact add _ _
  | login b =>
    simp only [step]
    unfold login
    split
    · exact keep _
    · split
      · exact keep _
      · split
        · exact keep _
        · dsimp only
          split <;> exact add _ _
  | logout u => exact add _ _
  | listEmployees u => exact keep _
  | getEmployee u id => exact keep _
  | createEmployee u b =>
    simp only [step]
    unfold createEmployee
    split
    · exact keep _
    · dsimp only
      split
      · exact keep _
      · exact add _ _
  | updateEmployee u id b =>
    simp only [step]
    unfold updateEmployee
    split
    · exact keep _
    · dsimp only
      split
      · exact keep _
      · exact add _ _
  | deleteEmployee u id =>
    simp only [step]
    unfold deleteEmployee
    split
    · exact keep _
    · exact add _ _
  | listTeams u => exact keep _
  | getTeam u id => exact keep _
  | createTeam u b =>
    simp only [step]
    unfold createTeam
    split
    · exact keep _
    · dsimp only
      split
      · exact keep _
      · exact add _ _
  | updateTeam u id b =>
    simp only [step]
    unfold updateTeam
    split
    · exact keep _
    · dsimp only
      split
      · exact keep _
      · exact add _ _
  | deleteTeam u id =>
    simp only [step]
    unfold deleteTeam
    split
    · exact keep _
    · exact add _ _
  | assignEmployee u teamId employeeId =>
    simp only [step]
    unfold assignEmployee
    split
    · exact keep _
    · dsimp only
      split
      · exact keep _
      · split
        · exact keep _
        · split
          · exact keep _
          · exact add _ _
  | unassignEmployee u teamId employeeId =>
    simp only [step]
    unfold unassignEmployee
    split
    · exact keep _
    · dsimp only
      split
      · exact keep _
      · split
        · exact keep _
        · exact add _ _
  | getLogs u => exact keep _

/-- C10: the log is append-only. Whatever the handler and its input, the log
after the call is the log before it followed by at most one new row, so every
row that was there is still there with every field unchanged; and the same holds
along any sequence of calls. -/
theorem log_is_append_only (cfg : Config) :
    (∀ (now : Nat) (s : Store) (c : Call),
      ∃ added, (step cfg now s c).1.logs = s.logs ++ added ∧ added.length ≤ 1) ∧
    (∀ (calls : List (Nat × Call)) (s : Store),
      ∃ added, (run cfg s calls).logs = s.logs ++ added) := by
  refine ⟨step_logs cfg, ?_⟩
  intro calls
  induction calls with
  | nil => intro s; exact ⟨[], by simp [run]⟩
  | cons c rest ih =>
    intro s
    obtain ⟨now, c⟩ := c
    obtain ⟨a1, h1, -⟩ := step_logs cfg now s c
    obtain ⟨a2, h2⟩ := ih (step cfg now s c).1
    exact ⟨a1 ++ a2, by simp only [run]; rw [h2, h1, List.append_assoc]⟩

/-! ## Registration -/

/-- The store after a successful `register`. -/
theorem register_eq_of_ok {cfg : Config} {now : Nat} {s : Store} {b : RegisterBody}
    (h1 : b.orgName.truthy = true ∧ b.adminName.truthy = true ∧ b.email.truthy = true ∧
      b.password.truthy = true)
    (h2 : 6 ≤ jsLength b.password.getStr)
    (h3 : (s.users.find? fun x => x.email == b.email.getStr) = none)
    (h4 : notEmpty b.orgName.getStr = true)
    (h5 : b.orgName.getStr.length ≤ 255)
    (h6 : cfg.validateUser
      { id := s.nextUserId, organisation_id := s.nextOrganisationId,
        email := b.email.getStr, password_hash := b.password.getStr,
        name := b.adminName.getStr } = []) :
    register cfg now s b =
      (logCreate
        { s with
          organisations := s.organisations ++
            [{ id := s.nextOrganisationId, name := b.orgName.getStr, created_at := now }]
          nextOrganisationId := s.nextOrganisationId + 1
          users := s.users ++
            [{ id := s.nextUserId, organisation_id := s.nextOrganisationId,
               email := b.email.getStr,
               password_hash := cfg.hashPassword b.password.getStr,
               name := b.adminName.getStr }]
          nextUserId := s.nextUserId + 1 }
        now (some s.nextOrganisationId) (some s.nextUserId) "organisation_created"
        [("orgName", .atom b.orgName.toMeta),
         ("adminName", .atom b.adminName.toMeta),
         ("email", .atom b.email.toMeta)],
       ⟨201, .auth "Organisation created successfully"
          (cfg.jwtSign { userId := s.nextUserId, orgId := s.nextOrganisationId,
                         email := b.email.getStr } now)
          { id := s.nextUserId, name := b.adminName.getStr, email := b.email.getStr,
            organisationId := s.nextOrganisationId,
            organisationName := b.orgName.getStr }⟩) := by
  obtain ⟨a1, a2, a3, a4⟩ := h1
  have h2' : ¬ jsLength b.password.getStr < 6 := Nat.not_lt.2 h2
  have h5' : ¬ 255 < b.orgName.getStr.length := Nat.not_lt.2 h5
  simp [register, createOrganisation, a1, a2, a3, a4, h2', h3, h4, h5', h6]

/-- A `register` call with a status below 400 passed every check. -/
theorem register_ok_of_status {cfg : Config} {now : Nat} {s : Store} {b : RegisterBody}
    (h : (register cfg now s b).2.status < 400) :
    (b.orgName.truthy = true ∧ b.adminName.truthy = true ∧ b.email.truthy = true ∧
      b.password.truthy = true) ∧
    6 ≤ jsLength b.password.getStr ∧
    (s.users.find? fun x => x.email == b.email.getStr) = none ∧
    notEmpty b.orgName.getStr = true ∧
    b.orgName.getStr.length ≤ 255 ∧
    cfg.validateUser
      { id := s.nextUserId, organisation_id := s.nextOrganisationId,
        email := b.email.getStr, password_hash := b.password.getStr,
        name := b.adminName.getStr } = [] := by
  unfold register at h
  split at h
  · simp at h
  · rename_i hf
    split at h
    · simp at h
    · rename_i hp
      split at h
      · simp at h
      · rename_i hu
        unfold createOrganisation at h
        split at h
        · rename_i s1 err hc
          split at hc
          · simp only [Except.error.injEq, Prod.mk.injEq] at hc
            obtain ⟨-, rfl⟩ := hc
            simp [errorHandler, validationError] at h
          · split at hc
            · simp only [Except.error.injEq, Prod.mk.injEq] at hc
              obtain ⟨-, rfl⟩ := hc
              simp [errorHandler] at h
            · simp at hc
        · rename_i s1 o hc
          split at hc
          · simp at hc
          · rename_i hne
            split at hc
            · simp at hc
            · rename_i hlen
              simp only [Except.ok.injEq, Prod.mk.injEq] at hc
              obtain ⟨rfl, rfl⟩ := hc
              dsimp only at h
              split at h
              · simp [errorHandler, validationError] at h
              · rename_i hv
                simp only [Bool.or_eq_true, Bool.not_eq_true', not_or,
                  Bool.not_eq_false] at hf
                refine ⟨⟨hf.1.1.1, hf.1.1.2, hf.1.2, hf.2⟩, Nat.not_lt.1 hp, hu, ?_,
                  Nat.not_lt.1 hlen, hv⟩
                simpa using hne

/-- Only `register` writes on `users`: every other call leaves the table and its
sequence as they were. -/
theorem step_users_frame (cfg : Config) (now : Nat) (s : Store) (c : Call)
    (hc : ∀ b, c ≠ .register b) :
    (step cfg now s c).1.users = s.users ∧
    (step cfg now s c).1.nextUserId = s.nextUserId := by
  cases c with
  | register b => exact absurd rfl (hc b)
  | login b =>
    simp only [step]
    unfold login
    split
    · exact ⟨rfl, rfl⟩
    · split
      · exact ⟨rfl, rfl⟩
      · split
        · exact ⟨rfl, rfl⟩
        · dsimp only
          split <;> exact ⟨rfl, rfl⟩
  | logout u => exact ⟨rfl, rfl⟩
  | listEmployees u => exact ⟨rfl, rfl⟩
  | getEmployee u id => exact ⟨rfl, rfl⟩
  | createEmployee u b =>
    simp only [step]
    unfold createEmployee
    split
    · exact ⟨rfl, rfl⟩
    · dsimp only
      split <;> exact ⟨rfl, rfl⟩
  | updateEmployee u id b =>
    simp only [step]
    unfold updateEmployee
    split
    · exact ⟨rfl, rfl⟩
    · dsimp only
      split <;> exact ⟨rfl, rfl⟩
  | deleteEmployee u id =>
    simp only [step]
    unfold deleteEmployee
    split <;> exact ⟨rfl, rfl⟩
  | listTeams u => exact ⟨rfl, rfl⟩
  | getTeam u id => exact ⟨rfl, rfl⟩
  | createTeam u b =>
    simp only [step]
    unfold createTeam
    split
    · exact ⟨rfl, rfl⟩
    · dsimp only
      split <;> exact ⟨rfl, rfl⟩
  | updateTeam u id b =>
    simp only [step]
    unfold updateTeam
    split
    · exact ⟨rfl, rfl⟩
    · dsimp only
      split <;> exact ⟨rfl, rfl⟩
  | deleteTeam u id =>
    simp only [step]
    unfold deleteTeam
    split <;> exact ⟨rfl, rfl⟩
  | assignEmployee u teamId employeeId =>
    simp only [step]
    unfold assignEmployee
    split
    · exact ⟨rfl, rfl⟩
    · dsimp only
      split
      · exact ⟨rfl, rfl⟩
      · split
        · exact ⟨rfl, rfl⟩
        · split <;> exact ⟨rfl, rfl⟩
  | unassignEmployee u teamId employeeId =>
    simp only [step]
    unfold unassignEmployee
    split
    · exact ⟨rfl, rfl⟩
    · dsimp only
      split
      · exact ⟨rfl, rfl⟩
      · split <;> exact ⟨rfl, rfl⟩
  | getLogs u => exact ⟨rfl, rfl⟩

/-- What `register` does to `users`: nothing, or it appends one row with the
next id and an email that no row had. -/
theorem register_users (cfg : Config) (now : Nat) (s : Store) (b : RegisterBody) :
    ((register cfg now s b).1.users = s.users ∧
      (register cfg now s b).1.nextUserId = s.nextUserId) ∨
    (∃ x : User, (register cfg now s b).1.users = s.users ++ [x] ∧
      (register cfg now s b).1.nextUserId = s.nextUserId + 1 ∧
      x.id = s.nextUserId ∧ x.email = b.email.getStr ∧
      ∀ y ∈ s.users, y.email ≠ b.email.getStr) := by
  unfold register
  split
  · exact Or.inl ⟨rfl, rfl⟩
  · split
    · exact Or.inl ⟨rfl, rfl⟩
    · split
      · exact Or.inl ⟨rfl, rfl⟩
      · rename_i hu
        split
        · rename_i s1 err hc
          have hf := createOrganisation_frame.1 err hc
          left
          exact ⟨hf.2.2.2.1, by
            unfold createOrganisation at hc
            split at hc
            · simp only [Except.error.injEq, Prod.mk.injEq] at hc
              obtain ⟨rfl, -⟩ := hc; rfl
            · split at hc
              · simp only [Except.error.injEq, Prod.mk.injEq] at hc
                obtain ⟨rfl, -⟩ := hc; rfl
              · simp at hc⟩
        · rename_i s1 o hc
          have hf := createOrganisation_frame.2 o hc
          have hn : s1.nextUserId = s.nextUserId := by
            unfold createOrganisation at hc
            split at hc
            · simp at hc
            · split at hc
              · simp at hc
              · simp only [Except.ok.injEq, Prod.mk.injEq] at hc
                obtain ⟨rfl, -⟩ := hc; rfl
          dsimp only
          split
          · left; exact ⟨hf.2.2.2.1, hn⟩
          · right
            refine ⟨{ id := s1.nextUserId, organisation_id := o.id, email := b.email.getStr,
                      password_hash := cfg.hashPassword b.password.getStr,
                      name := b.adminName.getStr }, ?_, ?_, ?_, rfl, ?_⟩
            · show s1.users ++ [_] = s.users ++ [_]
              rw [hf.2.2.2.1]
            · show s1.nextUserId + 1 = s.nextUserId + 1
              rw [hn]
            · exact hn
            · intro y hy he
              rw [List.find?_eq_none] at hu
              exact hu y hy (by simp [he])

theorem step_users_cases (cfg : Config) (now : Nat) (s : Store) (c : Call) :
    ((step cfg now s c).1.users = s.users ∧
      (step cfg now s c).1.nextUserId = s.nextUserId) ∨
    (∃ x : User, (step cfg now s c).1.users = s.users ++ [x] ∧
      (step cfg now s c).1.nextUserId = s.nextUserId + 1 ∧
      x.id = s.nextUserId ∧ ∀ y ∈ s.users, y.email ≠ x.email) := by
  by_cases hc : ∃ b, c = .register b
  · obtain ⟨b, rfl⟩ := hc
    rcases register_users cfg now s b with h | ⟨x, h1, h2, h3, h4, h5⟩
    · exact Or.inl h
    · exact Or.inr ⟨x, h1, h2, h3, fun y hy => h4 ▸ h5 y hy⟩
  · exact Or.inl (step_users_frame cfg now s c fun b hb => hc ⟨b, hb⟩)

/-- No call removes or changes a user row. -/
theorem users_subset_step (cfg : Config) (now : Nat) (s : Store) (c : Call) :
    ∀ x ∈ s.users, x ∈ (step cfg now s c).1.users := by
  intro x hx
  rcases step_users_cases cfg now s c with h | ⟨y, h, -⟩
  · rw [h.1]; exact hx
  · rw [h]; exact List.mem_append_left _ hx

theorem users_subset_run (cfg : Config) (calls : List (Nat × Call)) :
    ∀ s : Store, ∀ x ∈ s.users, x ∈ (run cfg s calls).users := by
  induction calls with
  | nil => intro s x hx; exact hx
  | cons c rest ih =>
    intro s x hx
    obtain ⟨now, c⟩ := c
    exact ih _ x (users_subset_step cfg now s c x hx)

theorem userInv_empty : UserInv Store.empty := by
  constructor <;> simp [Store.empty]

theorem userInv_step (cfg : Config) (now : Nat) {s : Store} (h : UserInv s) (c : Call) :
    UserInv (step cfg now s c).1 := by
  rcases step_users_cases cfg now s c with ⟨h1, h2⟩ | ⟨x, h1, h2, h3, h4⟩
  · exact ⟨by rw [h1, h2]; exact h.user_ids, by rw [h1]; exact h.user_key,
      by rw [h1]; exact h.email_key⟩
  · refine ⟨?_, ?_, ?_⟩
    · rw [h1, h2]
      intro y hy
      simp only [List.mem_append, List.mem_singleton] at hy
      rcases hy with hy | rfl
      · exact Nat.lt_succ_of_lt (h.user_ids y hy)
      · rw [h3]; exact Nat.lt_succ_self _
    · rw [h1]
      simp only [List.map_append, List.map_cons, List.map_nil]
      rw [List.nodup_append]
      refine ⟨h.user_key, List.nodup_singleton _, ?_⟩
      intro a ha hb
      simp only [List.mem_singleton] at hb
      obtain ⟨y, hy, rfl⟩ := List.mem_map.1 ha
      have := h.user_ids y hy
      omega
    · rw [h1]
      simp only [List.map_append, List.map_cons, List.map_nil]
      rw [List.nodup_append]
      refine ⟨h.email_key, List.nodup_singleton _, ?_⟩
      intro a ha hb
      simp only [List.mem_singleton] at hb
      obtain ⟨y, hy, rfl⟩ := List.mem_map.1 ha
      exact h4 y hy hb

theorem userInv_run (cfg : Config) (calls : List (Nat × Call)) :
    ∀ s, UserInv s → UserInv (run cfg s calls) := by
  induction calls with
  | nil => intro s h; exact h
  | cons c rest ih =>
    intro s h
    obtain ⟨now, c⟩ := c
    exact ih _ (userInv_step cfg now h c)

theorem userInv_of_reachable {cfg : Config} {s : Store} (h : Reachable cfg s) :
    UserInv s := by
  obtain ⟨calls, rfl⟩ := h
  exact userInv_run cfg calls _ userInv_empty

/-- A `register` whose email a user row already has. -/
theorem register_taken (cfg : Config) (now : Nat) (s : Store) (b : RegisterBody)
    (h1 : b.orgName.truthy = true ∧ b.adminName.truthy = true ∧ b.email.truthy = true ∧
      b.password.truthy = true)
    (h2 : 6 ≤ jsLength b.password.getStr)
    (h3 : ∃ x ∈ s.users, x.email = b.email.getStr) :
    register cfg now s b = (s, ⟨400, .message "Email already registered"⟩) := by
  obtain ⟨x, hx, hxe⟩ := h3
  have hsome : (s.users.find? fun y => y.email == b.email.getStr).isSome := by
    rw [List.find?_isSome]
    exact ⟨x, hx, by simp [hxe]⟩
  obtain ⟨y, hy⟩ := Option.isSome_iff_exists.1 hsome
  have hp : ¬ jsLength b.password.getStr < 6 := Nat.not_lt.2 h2
  simp [register, h1.1, h1.2.1, h1.2.2.1, h1.2.2.2, hp, hy]

/-- C11: once `register` has succeeded with an email, then after any further
calls a `register` carrying the same email, with the other fields present and a
password of at least 6, responds 400 'Email already registered' and returns the
store as it was, so it creates no organisation, no user and no log row; and in
every reachable store no two user rows have the same email. -/
theorem register_same_email_conflicts (cfg : Config) (now0 now : Nat) (s0 : Store)
    (b0 b : RegisterBody) (calls : List (Nat × Call))
    (hok : (register cfg now0 s0 b0).2.status < 400)
    (hemail : b.email = b0.email)
    (hfields : b.orgName.truthy = true ∧ b.adminName.truthy = true ∧
      b.password.truthy = true)
    (hpw : 6 ≤ jsLength b.password.getStr) :
    register cfg now (run cfg (register cfg now0 s0 b0).1 calls) b =
      (run cfg (register cfg now0 s0 b0).1 calls,
       ⟨400, .message "Email already registered"⟩) ∧
    ∀ s, Reachable cfg s → (s.users.map User.email).Nodup := by
  refine ⟨?_, fun s hs => (userInv_of_reachable hs).email_key⟩
  have hc := register_ok_of_status hok
  have hmem : ∃ x ∈ (register cfg now0 s0 b0).1.users, x.email = b0.email.getStr := by
    rw [register_eq_of_ok hc.1 hc.2.1 hc.2.2.1 hc.2.2.2.1 hc.2.2.2.2.1 hc.2.2.2.2.2]
    exact ⟨_, List.mem_append_right _ (List.mem_singleton_self _), rfl⟩
  obtain ⟨x, hx, hxe⟩ := hmem
  have hx' := users_subset_run cfg calls _ x hx
  have he : b.email.truthy = true := hemail ▸ hc.1.2.2.1
  exact register_taken cfg now _ b ⟨hfields.1, hfields.2.1, he, hfields.2.2⟩ hpw
    ⟨x, hx', by rw [hxe, hemail]⟩

/-- Witness of C11: `Ann` registers on the empty store; after the rest of the
sample history a second registration with her email is refused. -/
theorem register_same_email_conflicts_witness :
    (register sampleConfig 60
      (run sampleConfig
        (register sampleConfig 10 Store.empty
          ⟨.str "Acme", .str "Ann", .str "ann@acme.com", .str "secret1"⟩).1
        sampleCalls.tail)
      ⟨.str "Other", .str "Eve", .str "ann@acme.com", .str "secret9"⟩).2 =
      ⟨400, .message "Email already registered"⟩ :=
  congrArg Prod.snd
    (register_same_email_conflicts sampleConfig 10 60 Store.empty
      ⟨.str "Acme", .str "Ann", .str "ann@acme.com", .str "secret1"⟩
      ⟨.str "Other", .str "Eve", .str "ann@acme.com", .str "secret9"⟩
      sampleCalls.tail (by decide) rfl (by decide) (by decide)).1

/-- C12: `register` responds 400 and returns the store as it was whenever
`orgName`, `adminName`, `email` or `password` is missing or empty, or the
password has a length below 6 (the `length` of the JavaScript string); and with
all four fields present a password of length exactly 6 never gets the response
of the length check. -/
theorem register_rejects_missing_or_short (cfg : Config) (now : Nat) (s : Store)
    (b : RegisterBody)
    (h : b.orgName.truthy = false ∨ b.adminName.truthy = false ∨ b.email.truthy = false ∨
      b.password.truthy = false ∨ jsLength b.password.getStr < 6) :
    (register cfg now s b).2.status = 400 ∧ (register cfg now s b).1 = s ∧
    ∀ b6 : RegisterBody, b6.orgName.truthy = true → b6.adminName.truthy = true →
      b6.email.truthy = true → b6.password.truthy = true →
      jsLength b6.password.getStr = 6 →
      (register cfg now s b6).2 ≠ ⟨400, .message "Password must be at least 6 characters"⟩ := by
  refine ⟨?_, ?_, ?_⟩
  · unfold register
    split
    · rfl
    · rename_i hf
      split
      · rfl
      · rename_i hp
        simp only [Bool.or_eq_true, Bool.not_eq_true', not_or, Bool.not_eq_false] at hf
        rcases h with h | h | h | h | h
        · rw [hf.1.1.1] at h; cases h
        · rw [hf.1.1.2] at h; cases h
        · rw [hf.1.2] at h; cases h
        · rw [hf.2] at h; cases h
        · exact absurd h hp
  · unfold register
    split
    · rfl
    · rename_i hf
      split
      · rfl
      · rename_i hp
        simp only [Bool.or_eq_true, Bool.not_eq_true', not_or, Bool.not_eq_false] at hf
        rcases h with h | h | h | h | h
        · rw [hf.1.1.1] at h; cases h
        · rw [hf.1.1.2] at h; cases h
        · rw [hf.1.2] at h; cases h
        · rw [hf.2] at h; cases h
        · exact absurd h hp
  · intro b6 h1 h2 h3 h4 h6
    unfold register
    rw [if_neg (by simp [h1, h2, h3, h4]), if_neg (by omega)]
    split
    · simp
    · split
      · rename_i s1 err hc
        unfold createOrganisation at hc
        split at hc
        · simp only [Except.error.injEq, Prod.mk.injEq] at hc
          obtain ⟨-, rfl⟩ := hc
          simp [errorHandler, validationError]
        · split at hc
          · simp only [Except.error.injEq, Prod.mk.injEq] at hc
            obtain ⟨-, rfl⟩ := hc
            simp [errorHandler]
          · simp at hc
      · dsimp only
        split
        · simp [errorHandler, validationError]
        · simp

/-- Witness of C12 on the sample store: a request without `adminName`, and the
password `secre` of length 5. -/
theorem register_rejects_missing_or_short_witness :
    register sampleConfig 50 sampleStore
        ⟨.str "Gamma", .undefined, .str "gil@gamma.com", .str "secret1"⟩ =
      (sampleStore, ⟨400, .message "All fields are required"⟩) ∧
    (register sampleConfig 50 sampleStore
        ⟨.str "Gamma", .str "Gil", .str "gil@gamma.com", .str "secre"⟩).2.status = 400 ∧
    (register sampleConfig 50 sampleStore
        ⟨.str "Gamma", .str "Gil", .str "gil@gamma.com", .str "secre"⟩).1 = sampleStore ∧
    (register sampleConfig 50 sampleStore
        ⟨.str "Gamma", .str "Gil", .str "gil@gamma.com", .str "secret"⟩).2 ≠
      ⟨400, .message "Password must be at least 6 characters"⟩ :=
  have w := register_rejects_missing_or_short sampleConfig 50 sampleStore
    ⟨.str "Gamma", .str "Gil", .str "gil@gamma.com", .str "secre"⟩
    (Or.inr (Or.inr (Or.inr (Or.inr (by decide)))))
  ⟨by decide, w.1, w.2.1,
   w.2.2 ⟨.str "Gamma", .str "Gil", .str "gil@gamma.com", .str "secret"⟩
     (by decide) (by decide) (by decide) (by decide) (by decide)⟩

/-- A `register` whose `orgName` passes `notEmpty` and has over 255 characters:
the insert of the organisation is refused, after it has used an id. -/
theorem register_long_orgName (cfg : Config) (now : Nat) (s : Store) (b : RegisterBody)
    (h1 : b.orgName.truthy = true ∧ b.adminName.truthy = true ∧ b.email.truthy = true ∧
      b.password.truthy = true)
    (h2 : 6 ≤ jsLength b.password.getStr)
    (h3 : ∀ x ∈ s.users, x.email ≠ b.email.getStr)
    (h4 : notEmpty b.orgName.getStr = true)
    (h5 : 255 < b.orgName.getStr.length) :
    register cfg now s b =
      ({ s with nextOrganisationId := s.nextOrganisationId + 1 },
       ⟨500, .message "value too long for type character varying(255)"⟩) := by
  have hp : ¬ jsLength b.password.getStr < 6 := Nat.not_lt.2 h2
  have hu : (s.users.find? fun x => x.email == b.email.getStr) = none := by
    rw [List.find?_eq_none]
    intro x hx
    simpa using h3 x hx
  simp [register, createOrganisation, h1.1, h1.2.1, h1.2.2.1, h1.2.2.2, hp, hu, h4, h5,
    errorHandler]

/-- C13 as stated fails: on the empty store, with all four fields present, a
password of length 7 and an email that no user has, a request whose `orgName` is
a single space is refused by the `notEmpty` validator of `Organisation` (400
'Validation error', nothing created), and a request whose `orgName` has 256
characters is refused by the insert (500, no organisation and no user). -/
theorem register_blank_or_long_orgName_is_refused :
    (∀ x ∈ Store.empty.users, x.email ≠ "ann@acme.com") ∧
    6 ≤ jsLength "secret1" ∧
    register sampleConfig 10 Store.empty
        ⟨.str " ", .str "Ann", .str "ann@acme.com", .str "secret1"⟩ =
      (Store.empty,
       ⟨400, .validation "Validation error"
          [(some "name", "Validation notEmpty on name failed")]⟩) ∧
    register sampleConfig 10 Store.empty
        ⟨.str (String.mk (List.replicate 256 'a')), .str "Ann", .str "ann@acme.com",
         .str "secret1"⟩ =
      ({ Store.empty with nextOrganisationId := 2 },
       ⟨500, .message "value too long for type character varying(255)"⟩) := by
  refine ⟨by decide, by decide, by decide, ?_⟩
  have hlen : (String.mk (List.replicate 256 'a')).length = 256 :=
    List.length_replicate 256 'a'
  have hne : notEmpty (String.mk (List.replicate 256 'a')) = true := by
    have hall : (List.replicate 256 'a').all jsSpace = false := by
      rw [Bool.eq_false_iff]
      intro h
      rw [List.all_eq_true] at h
      exact absurd (h 'a' (List.mem_replicate.2 ⟨by decide, rfl⟩)) (by decide)
    show (!(List.replicate 256 'a').all jsSpace) = true
    rw [hall]
    rfl
  have hlong : 255 < (JsVal.str (String.mk (List.replicate 256 'a'))).getStr.length := by
    show 255 < (String.mk (List.replicate 256 'a')).length
    rw [hlen]
    decide
  exact register_long_orgName sampleConfig 10 Store.empty
    ⟨.str (String.mk (List.replicate 256 'a')), .str "Ann", .str "ann@acme.com",
     .str "secret1"⟩
    ⟨by simp [JsVal.truthy, String.ext_iff], by decide, by decide, by decide⟩
    (by decide) (by intro x hx; cases hx) hne hlong

/-- C13, amended: for a request with all four fields present, an `orgName` that
is not white space only and has at most 255 characters, a password of length at
least 6, an email that no user has, and a user row that the validators of `User`
accept, `register` creates exactly one organisation named `orgName` and one user
of that organisation with the email and `adminName`, appends one
`organisation_created` log row, changes no other table, and responds 201 with
the token and a user object carrying `orgName` and the id of the new
organisation. -/
theorem register_creates_organisation_and_user (cfg : Config) (now : Nat) (s : Store)
    (orgName adminName email password : String)
    (hfields : orgName ≠ "" ∧ adminName ≠ "" ∧ email ≠ "" ∧ password ≠ "")
    (hpw : 6 ≤ jsLength password)
    (hfresh : ∀ x ∈ s.users, x.email ≠ email)
    (hname : notEmpty orgName = true ∧ orgName.length ≤ 255)
    (hvalid : cfg.validateUser
      { id := s.nextUserId, organisation_id := s.nextOrganisationId, email := email,
        password_hash := password, name := adminName } = []) :
    (register cfg now s ⟨.str orgName, .str adminName, .str email, .str password⟩).2 =
      ⟨201, .auth "Organisation created successfully"
        (cfg.jwtSign { userId := s.nextUserId, orgId := s.nextOrganisationId,
                       email := email } now)
        { id := s.nextUserId, name := adminName, email := email,
          organisationId := s.nextOrganisationId, organisationName := orgName }⟩ ∧
    (register cfg now s ⟨.str orgName, .str adminName, .str email, .str password⟩).1.organisations =
      s.organisations ++ [{ id := s.nextOrganisationId, name := orgName, created_at := now }] ∧
    (register cfg now s ⟨.str orgName, .str adminName, .str email, .str password⟩).1.users =
      s.users ++ [{ id := s.nextUserId, organisation_id := s.nextOrganisationId,
                    email := email, password_hash := cfg.hashPassword password,
                    name := adminName }] ∧
    (∃ l, (register cfg now s
          ⟨.str orgName, .str adminName, .str email, .str password⟩).1.logs = s.logs ++ [l] ∧
      l.action = "organisation_created" ∧ l.organisation_id = some s.nextOrganisationId ∧
      l.user_id = some s.nextUserId) ∧
    (register cfg now s ⟨.str orgName, .str adminName, .str email, .str password⟩).1.employees =
      s.employees ∧
    (register cfg now s ⟨.str orgName, .str adminName, .str email, .str password⟩).1.teams =
      s.teams ∧
    (register cfg now s
      ⟨.str orgName, .str adminName, .str email, .str password⟩).1.employeeTeams =
      s.employeeTeams := by
  have h3 : (s.users.find? fun x => x.email ==
      (JsVal.str email).getStr) = none := by
    rw [List.find?_eq_none]
    intro x hx
    simpa [JsVal.getStr] using hfresh x hx
  have e := @register_eq_of_ok cfg now s
    ⟨.str orgName, .str adminName, .str email, .str password⟩
    (by simp [JsVal.truthy, hfields.1, hfields.2.1, hfields.2.2.1, hfields.2.2.2])
    hpw h3 hname.1 hname.2 hvalid
  rw [e]
  exact ⟨rfl, rfl, rfl, ⟨_, rfl, rfl, rfl, rfl⟩, rfl, rfl, rfl⟩

/-- Witness of the amended C13: on the sample store, `Gil` registers `Gamma`. -/
theorem register_creates_organisation_and_user_witness :
    (register sampleConfig 50 sampleStore
      ⟨.str "Gamma", .str "Gil", .str "gil@gamma.com", .str "secret3"⟩).2 =
      ⟨201, .auth "Organisation created successfully" "jwt:3:3:gil@gamma.com:50"
        { id := 3, name := "Gil", email := "gil@gamma.com", organisationId := 3,
          organisationName := "Gamma" }⟩ ∧
    (register sampleConfig 50 sampleStore
      ⟨.str "Gamma", .str "Gil", .str "gil@gamma.com", .str "secret3"⟩).1.organisations =
      sampleStore.organisations ++ [⟨3, "Gamma", 50⟩] :=
  have w := register_creates_organisation_and_user sampleConfig 50 sampleStore
    "Gamma" "Gil" "gil@gamma.com" "secret3" (by decide) (by decide) (by decide)
    (by decide) (by decide)
  ⟨w.1.trans (by decide), w.2.1⟩

/-- C14 as stated fails: with a `User` model that validates the email, a
request with the email `ann` passes the checks of the handler, the organisation
is inserted, the user is refused, and the organisation row remains: afterwards
there is one organisation and no user. -/
theorem register_leaves_organisation_without_user :
    (register strictConfig 10 Store.empty
      ⟨.str "Acme", .str "Ann", .str "ann", .str "secret1"⟩).1.organisations =
      [⟨1, "Acme", 10⟩] ∧
    (register strictConfig 10 Store.empty
      ⟨.str "Acme", .str "Ann", .str "ann", .str "secret1"⟩).1.users = [] ∧
    (register strictConfig 10 Store.empty
      ⟨.str "Acme", .str "Ann", .str "ann", .str "secret1"⟩).2 =
      ⟨400, .validation "Validation error"
        [(some "email", "Validation isEmail on email failed")]⟩ := by
  decide

/-- C14, amended: after a `register` call exactly one of three holds: neither
an organisation nor a user was created; one organisation and one user of that
organisation were created and the response is 201; or the validators of `User`
refused the row after the organisation was inserted, and then the organisation
row remains with no user and the response is 400 (there is no rollback). A user
is never created without its organisation. -/
theorem register_organisation_user_outcomes (cfg : Config) (now : Nat) (s : Store)
    (b : RegisterBody) :
    ((register cfg now s b).1.organisations = s.organisations ∧
      (register cfg now s b).1.users = s.users ∧
      (register cfg now s b).2.status ≠ 201) ∨
    (∃ o u, (register cfg now s b).1.organisations = s.organisations ++ [o] ∧
      (register cfg now s b).1.users = s.users ++ [u] ∧
      u.organisation_id = o.id ∧ (register cfg now s b).2.status = 201) ∨
    (∃ o, (register cfg now s b).1.organisations = s.organisations ++ [o] ∧
      (register cfg now s b).1.users = s.users ∧
      cfg.validateUser
        { id := s.nextUserId, organisation_id := o.id, email := b.email.getStr,
          password_hash := b.password.getStr, name := b.adminName.getStr } ≠ [] ∧
      (register cfg now s b).2.status = 400) := by
  unfold register
  split
  · exact Or.inl ⟨rfl, rfl, by simp⟩
  · split
    · exact Or.inl ⟨rfl, rfl, by simp⟩
    · split
      · exact Or.inl ⟨rfl, rfl, by simp⟩
      · split
        · rename_i s1 err hc
          left
          unfold createOrganisation at hc
          split at hc
          · simp only [Except.error.injEq, Prod.mk.injEq] at hc
            obtain ⟨rfl, rfl⟩ := hc
            exact ⟨rfl, rfl, by simp [errorHandler, validationError]⟩
          · split at hc
            · simp only [Except.error.injEq, Prod.mk.injEq] at hc
              obtain ⟨rfl, rfl⟩ := hc
              exact ⟨rfl, rfl, by simp [errorHandler]⟩
            · simp at hc
        · rename_i s1 o hc
          right
          unfold createOrganisation at hc
          split at hc
          · simp at hc
          · split at hc
            · simp at hc
            · simp only [Except.ok.injEq, Prod.mk.injEq] at hc
              obtain ⟨rfl, rfl⟩ := hc
              dsimp only
              split
              · rename_i item items hv
                right
                refine ⟨_, rfl, rfl, ?_, by simp [errorHandler, validationError]⟩
                rw [hv]
                exact List.cons_ne_nil _ _
              · left
                exact ⟨_, _, rfl, rfl, rfl, rfl⟩

/-! ## Login -/

/-- C15: for a non-empty email and password, `login` gives the same response,
401 'Invalid credentials', when no user has the email and when a user has it but
the password does not match; in both cases the store, log included, is returned
as it was. -/
theorem login_failures_are_identical (cfg : Config) (now1 now2 : Nat) (s1 s2 : Store)
    (b1 b2 : LoginBody)
    (h1 : b1.email.truthy = true ∧ b1.password.truthy = true)
    (h2 : b2.email.truthy = true ∧ b2.password.truthy = true)
    (habsent : ∀ x ∈ s1.users, x.email ≠ b1.email.getStr)
    (hpresent : ∃ x ∈ s2.users, x.email = b2.email.getStr)
    (hmismatch : ∀ x ∈ s2.users, x.email = b2.email.getStr →
      cfg.comparePassword b2.password.getStr x.password_hash = false) :
    login cfg now1 s1 b1 = (s1, ⟨401, .message "Invalid credentials"⟩) ∧
    login cfg now2 s2 b2 = (s2, ⟨401, .message "Invalid credentials"⟩) ∧
    (login cfg now1 s1 b1).2 = (login cfg now2 s2 b2).2 := by
  have e1 : login cfg now1 s1 b1 = (s1, ⟨401, .message "Invalid credentials"⟩) := by
    have hu : (s1.users.find? fun x => x.email == b1.email.getStr) = none := by
      rw [List.find?_eq_none]
      intro x hx
      simpa using habsent x hx
    simp [login, h1.1, h1.2, hu]
  have e2 : login cfg now2 s2 b2 = (s2, ⟨401, .message "Invalid credentials"⟩) := by
    obtain ⟨x, hx, hxe⟩ := hpresent
    have hsome : (s2.users.find? fun y => y.email == b2.email.getStr).isSome := by
      rw [List.find?_isSome]
      exact ⟨x, hx, by simp [hxe]⟩
    obtain ⟨y, hy⟩ := Option.isSome_iff_exists.1 hsome
    have hye : y.email = b2.email.getStr := by
      simpa using List.find?_some hy
    have hcmp := hmismatch y (List.mem_of_find?_eq_some hy) hye
    simp [login, h2.1, h2.2, hy, hcmp]
  exact ⟨e1, e2, by rw [e1, e2]⟩

/-- Witness of C15 on the sample store: an email that no user has, and the
email of `Ann` with a wrong password. -/
theorem login_failures_are_identical_witness :
    login sampleConfig 50 sampleStore ⟨.str "eve@evil.com", .str "secret1"⟩ =
      (sampleStore, ⟨401, .message "Invalid credentials"⟩) ∧
    login sampleConfig 51 sampleStore ⟨.str "ann@acme.com", .str "wrong-pw"⟩ =
      (sampleStore, ⟨401, .message "Invalid credentials"⟩) ∧
    (login sampleConfig 50 sampleStore ⟨.str "eve@evil.com", .str "secret1"⟩).2 =
      (login sampleConfig 51 sampleStore ⟨.str "ann@acme.com", .str "wrong-pw"⟩).2 :=
  login_failures_are_identical sampleConfig 50 51 sampleStore sampleStore
    ⟨.str "eve@evil.com", .str "secret1"⟩ ⟨.str "ann@acme.com", .str "wrong-pw"⟩
    (by decide) (by decide) (by decide) (by decide) (by decide)

/-! ## Issued tokens -/

/-- A `login` that responds with a token found the user by its email, matched
the password and signed the id, organisation and email of that user. -/
theorem login_auth {cfg : Config} {now : Nat} {s : Store} {b : LoginBody}
    {m token : String} {au : AuthUser}
    (h : (login cfg now s b).2.body = .auth m token au) :
    ∃ x ∈ s.users, x.email = b.email.getStr ∧
      cfg.comparePassword b.password.getStr x.password_hash = true ∧
      token = cfg.jwtSign { userId := x.id, orgId := x.organisation_id, email := x.email } now ∧
      au.id = x.id ∧ au.organisationId = x.organisation_id ∧
      (login cfg now s b).1.users = s.users := by
  unfold login at h ⊢
  split at h
  · simp at h
  · rename_i hf
    rw [if_neg hf]
    split at h
    · simp at h
    · rename_i x hx
      split at h
      · simp at h
      · rename_i hcmp
        rw [if_neg hcmp]
        have hxe : x.email = b.email.getStr := by simpa using List.find?_some hx
        refine ⟨x, List.mem_of_find?_eq_some hx, hxe, by simpa using hcmp, ?_⟩
        dsimp only at h ⊢
        split at h
        · simp [errorHandler] at h
        · rename_i o ho
          simp only [Body.auth.injEq] at h
          obtain ⟨-, rfl, rfl⟩ := h
          exact ⟨rfl, rfl, rfl, rfl⟩

/-- A `register` that responds with a token has status 201. -/
theorem register_status_of_auth {cfg : Config} {now : Nat} {s : Store} {b : RegisterBody}
    {m token : String} {au : AuthUser}
    (h : (register cfg now s b).2.body = .auth m token au) :
    (register cfg now s b).2.status < 400 := by
  unfold register at h ⊢
  split
  · rename_i hc; rw [if_pos hc] at h; simp at h
  · rename_i hc; rw [if_neg hc] at h
    split
    · rename_i hp; rw [if_pos hp] at h; simp at h
    · rename_i hp; rw [if_neg hp] at h
      split
      · rename_i hu; rw [hu] at h; simp at h
      · rename_i hu; rw [hu] at h
        dsimp only at h ⊢
        split
        · rename_i s1 err hc
          rw [hc] at h
          unfold createOrganisation at hc
          split at hc
          · simp only [Except.error.injEq, Prod.mk.injEq] at hc
            obtain ⟨-, rfl⟩ := hc
            simp [errorHandler, validationError] at h
          · split at hc
            · simp only [Except.error.injEq, Prod.mk.injEq] at hc
              obtain ⟨-, rfl⟩ := hc
              simp [errorHandler] at h
            · simp at hc
        · rename_i s1 o hc
          rw [hc] at h
          dsimp only at h ⊢
          split
          · rename_i hv; rw [hv] at h; simp [errorHandler, validationError] at h
          · simp

/-- Only `login` and `register` respond with a token. -/
theorem step_auth_is_login_or_register {cfg : Config} {now : Nat} {s : Store} {c : Call}
    {m token : String} {au : AuthUser}
    (h : (step cfg now s c).2.body = .auth m token au) :
    (∃ b, c = .login b) ∨ (∃ b, c = .register b) := by
  cases c with
  | register b => exact Or.inr ⟨b, rfl⟩
  | login b => exact Or.inl ⟨b, rfl⟩
  | logout u => simp [step, logout] at h
  | listEmployees u => simp [step, listEmployees] at h
  | getEmployee u id =>
    simp only [step, getEmployee] at h
    split at h <;> simp at h
  | createEmployee u b =>
    simp only [step, createEmployee] at h
    split at h
    · simp at h
    · split at h
      · simp [errorHandler_validationError] at h
      · simp at h
  | updateEmployee u id b =>
    simp only [step, updateEmployee] at h
    split at h
    · simp at h
    · split at h
      · simp [errorHandler_validationError] at h
      · simp at h
  | deleteEmployee u id =>
    simp only [step, deleteEmployee] at h
    split at h <;> simp at h
  | listTeams u => simp [step, listTeams] at h
  | getTeam u id =>
    simp only [step, getTeam] at h
    split at h <;> simp at h
  | createTeam u b =>
    simp only [step, createTeam] at h
    split at h
    · simp at h
    · split at h
      · simp [errorHandler_validationError] at h
      · simp at h
  | updateTeam u id b =>
    simp only [step, updateTeam] at h
    split at h
    · simp at h
    · split at h
      · simp [errorHandler_validationError] at h
      · simp at h
  | deleteTeam u id =>
    simp only [step, deleteTeam] at h
    split at h <;> simp at h
  | assignEmployee u teamId employeeId =>
    simp only [step, assignEmployee] at h
    split at h
    · simp at h
    · split at h
      · simp at h
      · split at h
        · simp at h
        · split at h <;> simp at h
  | unassignEmployee u teamId employeeId =>
    simp only [step, unassignEmployee] at h
    split at h
    · simp at h
    · split at h
      · simp at h
      · split at h <;> simp at h
  | getLogs u => simp [step, getLogs] at h

/-- C16: whenever a call in a reachable store responds with a token, the token
is the signature of a payload `{userId, orgId, email}` that are the id, the
`organisation_id` and the email of a user row of the store after the call, and
every user row with that id has that `organisation_id`. On `login` the row is
the user whose email and password matched; on `register` it is the user just
created, and `orgId` is the id of the organisation just created. -/
theorem token_payload_is_user_and_owner (cfg : Config) (now : Nat) (s : Store)
    (hr : Reachable cfg s) (c : Call) (m token : String) (au : AuthUser)
    (h : (step cfg now s c).2.body = .auth m token au) :
    ∃ x ∈ (step cfg now s c).1.users,
      token = cfg.jwtSign { userId := x.id, orgId := x.organisation_id, email := x.email } now ∧
      (∀ y ∈ (step cfg now s c).1.users, y.id = x.id →
        y.organisation_id = x.organisation_id) ∧
      ((∃ b, c = .login b ∧ x ∈ s.users ∧ x.email = b.email.getStr ∧
          cfg.comparePassword b.password.getStr x.password_hash = true) ∨
       (∃ b o, c = .register b ∧ (step cfg now s c).1.users = s.users ++ [x] ∧
          (step cfg now s c).1.organisations = s.organisations ++ [o] ∧
          x.organisation_id = o.id ∧ x.email = b.email.getStr)) := by
  have inv' : UserInv (step cfg now s c).1 := userInv_step cfg now (userInv_of_reachable hr) c
  have key : ∀ x ∈ (step cfg now s c).1.users, ∀ y ∈ (step cfg now s c).1.users,
      y.id = x.id → y.organisation_id = x.organisation_id := by
    intro x hx y hy hid
    rw [List.inj_on_of_nodup_map inv'.user_key hy hx hid]
  rcases step_auth_is_login_or_register h with ⟨b, rfl⟩ | ⟨b, rfl⟩
  · simp only [step] at h key ⊢
    obtain ⟨x, hx, hxe, hcmp, htok, -, -, husers⟩ := login_auth h
    have hx' : x ∈ (login cfg now s b).1.users := by rw [husers]; exact hx
    exact ⟨x, hx', htok, key x hx', Or.inl ⟨b, rfl, hx, hxe, hcmp⟩⟩
  · simp only [step] at h key ⊢
    have hc := register_ok_of_status (register_status_of_auth h)
    have e := @register_eq_of_ok cfg now s b hc.1 hc.2.1 hc.2.2.1 hc.2.2.2.1 hc.2.2.2.2.1 hc.2.2.2.2.2
    rw [e] at h key ⊢
    simp only [Body.auth.injEq] at h
    obtain ⟨-, rfl, -⟩ := h
    refine ⟨{ id := s.nextUserId, organisation_id := s.nextOrganisationId,
              email := b.email.getStr,
              password_hash := cfg.hashPassword b.password.getStr,
              name := b.adminName.getStr }, ?_, rfl, ?_, ?_⟩
    · exact List.mem_append_right _ (List.mem_singleton_self _)
    · exact key _ (List.mem_append_right _ (List.mem_singleton_self _))
    · exact Or.inr ⟨b, _, rfl, rfl, rfl, rfl, rfl⟩

/-- Witness of C16: after the sample history `Ann` logs in; the token is the
signature of her id 1, her organisation 1 and her email. -/
theorem token_payload_is_user_and_owner_witness :
    (step sampleConfig 60 (run sampleConfig Store.empty sampleCalls)
      (.login ⟨.str "ann@acme.com", .str "secret1"⟩)).2.body =
      .auth "Login successful" "jwt:1:1:ann@acme.com:60"
        { id := 1, name := "Ann", email := "ann@acme.com", organisationId := 1,
          organisationName := "Acme" } ∧
    ∃ x ∈ (step sampleConfig 60 (run sampleConfig Store.empty sampleCalls)
        (.login ⟨.str "ann@acme.com", .str "secret1"⟩)).1.users,
      "jwt:1:1:ann@acme.com:60" =
        sampleConfig.jwtSign
          { userId := x.id, orgId := x.organisation_id, email := x.email } 60 :=
  ⟨by decide,
   (token_payload_is_user_and_owner sampleConfig 60 _ ⟨sampleCalls, rfl⟩
      (.login ⟨.str "ann@acme.com", .str "secret1"⟩) "Login successful"
      "jwt:1:1:ann@acme.com:60"
      { id := 1, name := "Ann", email := "ann@acme.com", organisationId := 1,
        organisationName := "Acme" } (by decide)).imp fun _ hx => ⟨hx.1, hx.2.1⟩⟩

/-! ## Creation of employees and teams -/

/-- C17: `createEmployee` responds 400 whenever `first_name`, `last_name` or
`email` is missing or empty, and `createTeam` responds 400 whenever `name` is
missing or empty; in each case the store is returned as it was, so no employee,
team or log row is created. -/
theorem create_rejects_missing_fields (cfg : Config) (now : Nat) (s : Store) (u : Identity)
    (eb : EmployeeBody) (tb : TeamBody)
    (he : eb.first_name.truthy = false ∨ eb.last_name.truthy = false ∨
      eb.email.truthy = false)
    (ht : tb.name.truthy = false) :
    createEmployee cfg now s u eb =
      (s, ⟨400, .message "First name, last name, and email are required"⟩) ∧
    createTeam cfg now s u tb = (s, ⟨400, .message "Team name is required"⟩) := by
  constructor
  · unfold createEmployee
    rw [if_pos]
    rcases he with h | h | h <;> simp [h]
  · unfold createTeam
    rw [if_pos]
    simp [ht]

/-- Witness of C17 on the sample store: an employee whose `email` is the empty
string and a team without `name`. -/
theorem create_rejects_missing_fields_witness :
    createEmployee sampleConfig 50 sampleStore alice
        ⟨.str "Eli", .str "Fox", .str "", .undefined⟩ =
      (sampleStore, ⟨400, .message "First name, last name, and email are required"⟩) ∧
    createTeam sampleConfig 50 sampleStore alice ⟨.undefined, .str "no name"⟩ =
      (sampleStore, ⟨400, .message "Team name is required"⟩) :=
  create_rejects_missing_fields sampleConfig 50 sampleStore alice
    ⟨.str "Eli", .str "Fox", .str "", .undefined⟩ ⟨.undefined, .str "no name"⟩
    (Or.inr (Or.inr (by decide))) (by decide)

/-- What `createEmployee` does to `employees`: nothing, or it appends one row of
the caller's organisation, which is the row of the 201 response. -/
theorem createEmployee_rows (cfg : Config) (now : Nat) (s : Store) (u : Identity)
    (b : EmployeeBody) :
    ((createEmployee cfg now s u b).1.employees = s.employees ∧
      400 ≤ (createEmployee cfg now s u b).2.status) ∨
    (∃ row : Employee, row.organisation_id = u.orgId ∧ row.id = s.nextEmployeeId ∧
      (createEmployee cfg now s u b).1.employees = s.employees ++ [row] ∧
      (createEmployee cfg now s u b).2 = ⟨201, .employee row⟩) := by
  unfold createEmployee
  split
  · exact Or.inl ⟨rfl, by simp⟩
  · dsimp only
    split
    · exact Or.inl ⟨rfl, by simp [errorHandler_validationError]⟩
    · exact Or.inr ⟨_, rfl, rfl, rfl, rfl⟩

/-- What `createTeam` does to `teams`: nothing, or it appends one row of the
caller's organisation, which is the row of the 201 response. -/
theorem createTeam_rows (cfg : Config) (now : Nat) (s : Store) (u : Identity)
    (b : TeamBody) :
    ((createTeam cfg now s u b).1.teams = s.teams ∧
      400 ≤ (createTeam cfg now s u b).2.status) ∨
    (∃ row : Team, row.organisation_id = u.orgId ∧ row.id = s.nextTeamId ∧
      (createTeam cfg now s u b).1.teams = s.teams ++ [row] ∧
      (createTeam cfg now s u b).2 = ⟨201, .team row⟩) := by
  unfold createTeam
  split
  · exact Or.inl ⟨rfl, by simp⟩
  · dsimp only
    split
    · exact Or.inl ⟨rfl, by simp [errorHandler_validationError]⟩
    · exact Or.inr ⟨_, rfl, rfl, rfl, rfl⟩

/-- C18: whatever the request body, also one that carries `organisation_id` or
`id`, the row that `createEmployee` or `createTeam` creates has the caller's
`orgId` as its `organisation_id` and the next id of the sequence as its `id`;
and two request bodies that agree on every property but `organisation_id` and
`id` get the same result: the same store and the same response. -/
theorem create_stamps_caller_organisation (cfg : Config) (now : Nat) (s : Store)
    (u : Identity) (raw raw2 : List (String × JsVal))
    (hsame : ∀ key, key ≠ "organisation_id" → key ≠ "id" → prop raw key = prop raw2 key) :
    (∀ row, (createEmployee cfg now s u (EmployeeBody.ofRequest raw)).2 =
        ⟨201, .employee row⟩ →
      row.organisation_id = u.orgId ∧ row.id = s.nextEmployeeId ∧
      (createEmployee cfg now s u (EmployeeBody.ofRequest raw)).1.employees =
        s.employees ++ [row]) ∧
    (∀ row, (createTeam cfg now s u (TeamBody.ofRequest raw)).2 = ⟨201, .team row⟩ →
      row.organisation_id = u.orgId ∧ row.id = s.nextTeamId ∧
      (createTeam cfg now s u (TeamBody.ofRequest raw)).1.teams = s.teams ++ [row]) ∧
    (∀ x ∈ (createEmployee cfg now s u (EmployeeBody.ofRequest raw)).1.employees,
      x ∈ s.employees ∨ x.organisation_id = u.orgId) ∧
    (∀ x ∈ (createTeam cfg now s u (TeamBody.ofRequest raw)).1.teams,
      x ∈ s.teams ∨ x.organisation_id = u.orgId) ∧
    createEmployee cfg now s u (EmployeeBody.ofRequest raw) =
      createEmployee cfg now s u (EmployeeBody.ofRequest raw2) ∧
    createTeam cfg now s u (TeamBody.ofRequest raw) =
      createTeam cfg now s u (TeamBody.ofRequest raw2) := by
  refine ⟨?_, ?_, ?_, ?_, ?_, ?_⟩
  · intro row h
    rcases createEmployee_rows cfg now s u (EmployeeBody.ofRequest raw) with
      ⟨-, h4⟩ | ⟨r, h1, h2, h3, h4⟩
    · rw [h] at h4; simp at h4
    · rw [h4] at h
      simp only [Response.mk.injEq, Body.employee.injEq, true_and] at h
      subst h
      exact ⟨h1, h2, h3⟩
  · intro row h
    rcases createTeam_rows cfg now s u (TeamBody.ofRequest raw) with
      ⟨-, h4⟩ | ⟨r, h1, h2, h3, h4⟩
    · rw [h] at h4; simp at h4
    · rw [h4] at h
      simp only [Response.mk.injEq, Body.team.injEq, true_and] at h
      subst h
      exact ⟨h1, h2, h3⟩
  · intro x hx
    rcases createEmployee_rows cfg now s u (EmployeeBody.ofRequest raw) with
      ⟨h3, -⟩ | ⟨r, h1, -, h3, -⟩
    · rw [h3] at hx; exact Or.inl hx
    · rw [h3] at hx
      simp only [List.mem_append, List.mem_singleton] at hx
      rcases hx with hx | rfl
      · exact Or.inl hx
      · exact Or.inr h1
  · intro x hx
    rcases createTeam_rows cfg now s u (TeamBody.ofRequest raw) with
      ⟨h3, -⟩ | ⟨r, h1, -, h3, -⟩
    · rw [h3] at hx; exact Or.inl hx
    · rw [h3] at hx
      simp only [List.mem_append, List.mem_singleton] at hx
      rcases hx with hx | rfl
      · exact Or.inl hx
      · exact Or.inr h1
  · have : EmployeeBody.ofRequest raw = EmployeeBody.ofRequest raw2 := by
      unfold EmployeeBody.ofRequest
      rw [hsame "first_name" (by decide) (by decide), hsame "last_name" (by decide) (by decide),
        hsame "email" (by decide) (by decide), hsame "phone" (by decide) (by decide)]
    rw [this]
  · have : TeamBody.ofRequest raw = TeamBody.ofRequest raw2 := by
      unfold TeamBody.ofRequest
      rw [hsame "name" (by decide) (by decide), hsame "description" (by decide) (by decide)]
    rw [this]

/-- Witness of C18 on the sample store: the caller of organisation 1 sends a
body that names organisation 2 and the id 99; the row created is of
organisation 1 with id 4, as for the body without these properties. -/
theorem create_stamps_caller_organisation_witness :
    (createEmployee sampleConfig 50 sampleStore alice
      (EmployeeBody.ofRequest
        [("first_name", .str "Eli"), ("last_name", .str "Fox"), ("email", .str "eli@x.com"),
         ("organisation_id", .str "2"), ("id", .str "99")])).2 =
      ⟨201, .employee ⟨4, 1, "Eli", "Fox", "eli@x.com", none, 50⟩⟩ ∧
    createEmployee sampleConfig 50 sampleStore alice
      (EmployeeBody.ofRequest
        [("first_name", .str "Eli"), ("last_name", .str "Fox"), ("email", .str "eli@x.com"),
         ("organisation_id", .str "2"), ("id", .str "99")]) =
    createEmployee sampleConfig 50 sampleStore alice
      (EmployeeBody.ofRequest
        [("first_name", .str "Eli"), ("last_name", .str "Fox"), ("email", .str "eli@x.com")]) :=
  ⟨by decide,
   (create_stamps_caller_organisation sampleConfig 50 sampleStore alice
      [("first_name", .str "Eli"), ("last_name", .str "Fox"), ("email", .str "eli@x.com"),
       ("organisation_id", .str "2"), ("id", .str "99")]
      [("first_name", .str "Eli"), ("last_name", .str "Fox"), ("email", .str "eli@x.com")]
      (by
        intro key h1 h2
        have e1 : (key == "organisation_id") = false := by simpa using h1
        have e2 : (key == "id") = false := by simpa using h2
        simp [prop, List.lookup, e1, e2])).2.2.2.2.1⟩

/-! ## Updates -/

theorem findEmployee_eq_of_mem {s : Store} (h : Inv s) {e : Employee} {org : Nat}
    (he : e ∈ s.employees) (horg : e.organisation_id = org) :
    findEmployee s e.id org = some e := by
  obtain ⟨e0, h0⟩ := findEmployee_of_exists ⟨e, he, rfl, horg⟩
  obtain ⟨m0, i0, -⟩ := findEmployee_some h0
  rw [h0, employee_eq_of_id_eq h m0 he i0]

theorem findTeam_eq_of_mem {s : Store} (h : Inv s) {t : Team} {org : Nat}
    (ht : t ∈ s.teams) (horg : t.organisation_id = org) :
    findTeam s t.id org = some t := by
  obtain ⟨t0, h0⟩ := findTeam_of_exists ⟨t, ht, rfl, horg⟩
  obtain ⟨m0, i0, -⟩ := findTeam_some h0
  rw [h0, team_eq_of_id_eq h m0 ht i0]

/-- The result of `updateEmployee` on a row that is found, when the status is
below 400. -/
theorem updateEmployee_found {cfg : Config} {now : Nat} {s : Store} {u : Identity}
    {id : Nat} {b : EmployeeBody} {e : Employee}
    (hf : findEmployee s id u.orgId = some e)
    (hok : (updateEmployee cfg now s u id b).2.status < 400) :
    (updateEmployee cfg now s u id b).2 =
      ⟨200, .employee
        { e with first_name := b.first_name.orElse e.first_name,
                 last_name := b.last_name.orElse e.last_name,
                 email := b.email.orElse e.email,
                 phone := b.phone.definedOr e.phone }⟩ ∧
    (updateEmployee cfg now s u id b).1.employees =
      s.employees.map fun x =>
        if x.id == e.id then
          { x with first_name := b.first_name.orElse e.first_name,
                   last_name := b.last_name.orElse e.last_name,
                   email := b.email.orElse e.email,
                   phone := b.phone.definedOr e.phone }
        else x := by
  unfold updateEmployee at hok ⊢
  rw [hf] at hok ⊢
  dsimp only at hok ⊢
  split
  · rename_i hv; rw [hv] at hok; simp [errorHandler_validationError] at hok
  · exact ⟨rfl, rfl⟩

/-- The result of `updateTeam` on a row that is found, when the status is below
400. -/
theorem updateTeam_found {cfg : Config} {now : Nat} {s : Store} {u : Identity}
    {id : Nat} {b : TeamBody} {t : Team}
    (hf : findTeam s id u.orgId = some t)
    (hok : (updateTeam cfg now s u id b).2.status < 400) :
    (updateTeam cfg now s u id b).2 =
      ⟨200, .team
        { t with name := b.name.orElse t.name,
                 description := b.description.definedOr t.description }⟩ ∧
    (updateTeam cfg now s u id b).1.teams =
      s.teams.map fun x =>
        if x.id == t.id then
          { x with name := b.name.orElse t.name,
                   description := b.description.definedOr t.description }
        else x := by
  unfold updateTeam at hok ⊢
  rw [hf] at hok ⊢
  dsimp only at hok ⊢
  split
  · rename_i hv; rw [hv] at hok; simp [errorHandler_validationError] at hok
  · exact ⟨rfl, rfl⟩

theorem orElse_eq (v : JsVal) (old : String) :
    v.orElse old = (match v with
      | .str x => if x = "" then old else x
      | _ => old) := by
  cases v with
  | undefined => rfl
  | null => rfl
  | str x => by_cases h : x = "" <;> simp [JsVal.orElse, h]

theorem definedOr_eq (v : JsVal) (old : Option String) :
    v.definedOr old = (match v with
      | .undefined => old
      | .null => none
      | .str x => some x) := by
  cases v <;> rfl

/-- C19: in a reachable store, after a successful `updateEmployee` of a row of
the caller's organisation, the row with that id has for `first_name`,
`last_name` and `email` the supplied value when it is a non-empty string and
the prior value otherwise (missing, `null` or the empty string); `phone` is the
supplied value whenever the property is there, the empty string included, and
the prior value only when it is missing; id, organisation and creation time are
kept, the other rows are untouched, and the response carries the new row.
`updateTeam` treats `name` like the required fields and `description` like
`phone`. -/
theorem update_applies_supplied_fields (cfg : Config) (now : Nat) (s : Store)
    (hr : Reachable cfg s) (u : Identity) :
    (∀ (eb : EmployeeBody) (e : Employee),
      e ∈ s.employees ∧ e.organisation_id = u.orgId →
      (updateEmployee cfg now s u e.id eb).2.status < 400 →
      ∃ e', (updateEmployee cfg now s u e.id eb).2 = ⟨200, .employee e'⟩ ∧
      e' ∈ (updateEmployee cfg now s u e.id eb).1.employees ∧
      (∀ x ∈ (updateEmployee cfg now s u e.id eb).1.employees, x.id = e.id → x = e') ∧
      (∀ x ∈ s.employees, x.id ≠ e.id →
        x ∈ (updateEmployee cfg now s u e.id eb).1.employees) ∧
      e'.id = e.id ∧ e'.organisation_id = e.organisation_id ∧ e'.created_at = e.created_at ∧
      e'.first_name = (match eb.first_name with
        | .str v => if v = "" then e.first_name else v
        | _ => e.first_name) ∧
      e'.last_name = (match eb.last_name with
        | .str v => if v = "" then e.last_name else v
        | _ => e.last_name) ∧
      e'.email = (match eb.email with
        | .str v => if v = "" then e.email else v
        | _ => e.email) ∧
      e'.phone = (match eb.phone with
        | .undefined => e.phone
        | .null => none
        | .str v => some v)) ∧
    (∀ (tb : TeamBody) (t : Team),
      t ∈ s.teams ∧ t.organisation_id = u.orgId →
      (updateTeam cfg now s u t.id tb).2.status < 400 →
      ∃ t', (updateTeam cfg now s u t.id tb).2 = ⟨200, .team t'⟩ ∧
      t' ∈ (updateTeam cfg now s u t.id tb).1.teams ∧
      (∀ x ∈ (updateTeam cfg now s u t.id tb).1.teams, x.id = t.id → x = t') ∧
      (∀ x ∈ s.teams, x.id ≠ t.id → x ∈ (updateTeam cfg now s u t.id tb).1.teams) ∧
      t'.id = t.id ∧ t'.organisation_id = t.organisation_id ∧ t'.created_at = t.created_at ∧
      t'.name = (match tb.name with
        | .str v => if v = "" then t.name else v
        | _ => t.name) ∧
      t'.description = (match tb.description with
        | .undefined => t.description
        | .null => none
        | .str v => some v)) := by
  have inv := inv_of_reachable hr
  constructor
  · intro eb e he hoke
    obtain ⟨h1, h2⟩ := updateEmployee_found (findEmployee_eq_of_mem inv he.1 he.2) hoke
    refine ⟨_, h1, ?_, ?_, ?_, rfl, rfl, rfl, orElse_eq _ _, orElse_eq _ _, orElse_eq _ _,
      definedOr_eq _ _⟩
    · rw [h2]
      exact List.mem_map.2 ⟨e, he.1, by simp⟩
    · intro x hx hid
      rw [h2] at hx
      obtain ⟨y, hy, rfl⟩ := List.mem_map.1 hx
      by_cases hye : y.id = e.id
      · have := employee_eq_of_id_eq inv hy he.1 hye
        subst this
        simp
      · simp only [beq_iff_eq, hye, if_false] at hid
    · intro x hx hid
      rw [h2]
      exact List.mem_map.2 ⟨x, hx, by simp [hid]⟩
  · intro tb t ht hokt
    obtain ⟨h1, h2⟩ := updateTeam_found (findTeam_eq_of_mem inv ht.1 ht.2) hokt
    refine ⟨_, h1, ?_, ?_, ?_, rfl, rfl, rfl, orElse_eq _ _, definedOr_eq _ _⟩
    · rw [h2]
      exact List.mem_map.2 ⟨t, ht.1, by simp⟩
    · intro x hx hid
      rw [h2] at hx
      obtain ⟨y, hy, rfl⟩ := List.mem_map.1 hx
      by_cases hyt : y.id = t.id
      · have := team_eq_of_id_eq inv hy ht.1 hyt
        subst this
        simp
      · simp only [beq_iff_eq, hyt, if_false] at hid
    · intro x hx hid
      rw [h2]
      exact List.mem_map.2 ⟨x, hx, by simp [hid]⟩

/-- Witness of C19: in the store after the sample history, the caller of
organisation 1 updates employee 1 with a new first name, an empty last name, no
email and an empty phone, and team 1 with an empty name and a `null`
description. -/
theorem update_applies_supplied_fields_witness :
    ((updateEmployee sampleConfig 60 (run sampleConfig Store.empty sampleCalls) alice 1
        ⟨.str "Bob", .str "", .undefined, .str ""⟩).2 =
        ⟨200, .employee ⟨1, 1, "Bob", "Lee", "bo@acme.com", some "", 21⟩⟩ ∧
      ∃ e', (updateEmployee sampleConfig 60 (run sampleConfig Store.empty sampleCalls) alice 1
        ⟨.str "Bob", .str "", .undefined, .str ""⟩).2 = ⟨200, .employee e'⟩ ∧
        e'.last_name = "Lee" ∧ e'.phone = some "") ∧
    ((updateTeam sampleConfig 60 (run sampleConfig Store.empty sampleCalls) alice 1
        ⟨.str "", .null⟩).2 = ⟨200, .team ⟨1, 1, "Core", none, 20⟩⟩ ∧
      ∃ t', (updateTeam sampleConfig 60 (run sampleConfig Store.empty sampleCalls) alice 1
        ⟨.str "", .null⟩).2 = ⟨200, .team t'⟩ ∧
        t'.name = "Core" ∧ t'.description = none) :=
  have w := update_applies_supplied_fields sampleConfig 60
    (run sampleConfig Store.empty sampleCalls) ⟨sampleCalls, rfl⟩ alice
  ⟨⟨by decide,
    (w.1 ⟨.str "Bob", .str "", .undefined, .str ""⟩
      ⟨1, 1, "Bo", "Lee", "bo@acme.com", none, 21⟩ (by decide) (by decide)).imp fun _ h =>
      ⟨h.1, h.2.2.2.2.2.2.2.2.1, h.2.2.2.2.2.2.2.2.2.2⟩⟩,
   ⟨by decide,
    (w.2 ⟨.str "", .null⟩ ⟨1, 1, "Core", none, 20⟩ (by decide) (by decide)).imp fun _ h =>
      ⟨h.1, h.2.2.2.2.2.2.2.1, h.2.2.2.2.2.2.2.2⟩⟩⟩

/-! ## Deletions -/

/-- C20: in a reachable store, for an employee and a team of the caller's
organisation, `deleteEmployee` and `deleteTeam` succeed and append one log row
whose `meta` carries every column of the deleted row with the value it had
before the call; afterwards no row has that id, so `getEmployee` and `getTeam`
with the same id respond 404, for every caller. -/
theorem delete_logs_snapshot_and_removes_row (cfg : Config) (now : Nat) (s : Store)
    (hr : Reachable cfg s) (u : Identity) :
    (∀ e : Employee, e ∈ s.employees ∧ e.organisation_id = u.orgId →
      (deleteEmployee cfg now s u e.id).2 = ⟨200, .message "Employee deleted successfully"⟩ ∧
      (∃ l, (deleteEmployee cfg now s u e.id).1.logs = s.logs ++ [l] ∧
        l.action = "employee_deleted" ∧
        ("id", .atom (.num e.id)) ∈ l.meta ∧
        ("organisation_id", .atom (.num e.organisation_id)) ∈ l.meta ∧
        ("first_name", .atom (.str e.first_name)) ∈ l.meta ∧
        ("last_name", .atom (.str e.last_name)) ∈ l.meta ∧
        ("email", .atom (.str e.email)) ∈ l.meta ∧
        ("phone", .atom (columnMeta e.phone)) ∈ l.meta ∧
        ("created_at", .atom (.num e.created_at)) ∈ l.meta) ∧
      (∀ x ∈ (deleteEmployee cfg now s u e.id).1.employees, x.id ≠ e.id) ∧
      ∀ v : Identity, getEmployee (deleteEmployee cfg now s u e.id).1 v e.id =
        ⟨404, .message "Employee not found"⟩) ∧
    (∀ t : Team, t ∈ s.teams ∧ t.organisation_id = u.orgId →
      (deleteTeam cfg now s u t.id).2 = ⟨200, .message "Team deleted successfully"⟩ ∧
      (∃ l, (deleteTeam cfg now s u t.id).1.logs = s.logs ++ [l] ∧
        l.action = "team_deleted" ∧
        ("id", .atom (.num t.id)) ∈ l.meta ∧
        ("organisation_id", .atom (.num t.organisation_id)) ∈ l.meta ∧
        ("name", .atom (.str t.name)) ∈ l.meta ∧
        ("description", .atom (columnMeta t.description)) ∈ l.meta ∧
        ("created_at", .atom (.num t.created_at)) ∈ l.meta) ∧
      (∀ x ∈ (deleteTeam cfg now s u t.id).1.teams, x.id ≠ t.id) ∧
      ∀ v : Identity, getTeam (deleteTeam cfg now s u t.id).1 v t.id =
        ⟨404, .message "Team not found"⟩) := by
  have inv := inv_of_reachable hr
  constructor
  · intro e he
    have hf := findEmployee_eq_of_mem inv he.1 he.2
    have e1 : deleteEmployee cfg now s u e.id =
        (logCreate (destroyEmployee cfg s e) now (some u.orgId) (some u.userId)
          "employee_deleted" (("employeeId", .atom (.num e.id)) :: e.toJSON),
         ⟨200, .message "Employee deleted successfully"⟩) := by
      unfold deleteEmployee
      rw [hf]
    have hgone : ∀ x ∈ (deleteEmployee cfg now s u e.id).1.employees, x.id ≠ e.id := by
      rw [e1]
      intro x hx
      have hx' : x ∈ s.employees.filter fun y => y.id != e.id := hx
      simpa using (List.mem_filter.1 hx').2
    refine ⟨by rw [e1], ?_, hgone, ?_⟩
    · rw [e1]
      refine ⟨_, rfl, rfl, ?_⟩
      simp [Employee.toJSON]
    · intro v
      have := @findEmployee_none (deleteEmployee cfg now s u e.id).1 e.id v.orgId
        fun x hx hid => absurd hid (hgone x hx)
      simp [getEmployee, this]
  · intro t ht
    have hf := findTeam_eq_of_mem inv ht.1 ht.2
    have e1 : deleteTeam cfg now s u t.id =
        (logCreate (destroyTeam cfg s t) now (some u.orgId) (some u.userId)
          "team_deleted" (("teamId", .atom (.num t.id)) :: t.toJSON),
         ⟨200, .message "Team deleted successfully"⟩) := by
      unfold deleteTeam
      rw [hf]
    have hgone : ∀ x ∈ (deleteTeam cfg now s u t.id).1.teams, x.id ≠ t.id := by
      rw [e1]
      intro x hx
      have hx' : x ∈ s.teams.filter fun y => y.id != t.id := hx
      simpa using (List.mem_filter.1 hx').2
    refine ⟨by rw [e1], ?_, hgone, ?_⟩
    · rw [e1]
      refine ⟨_, rfl, rfl, ?_⟩
      simp [Team.toJSON]
    · intro v
      have := @findTeam_none (deleteTeam cfg now s u t.id).1 t.id v.orgId
        fun x hx hid => absurd hid (hgone x hx)
      simp [getTeam, this]

/-- Witness of C20: in the store after the sample history the caller of
organisation 1 deletes employee 1 and team 1; both are then not found. -/
theorem delete_logs_snapshot_and_removes_row_witness :
    getEmployee
        (deleteEmployee sampleConfig 60 (run sampleConfig Store.empty sampleCalls) alice 1).1
        alice 1 = ⟨404, .message "Employee not found"⟩ ∧
    getTeam
        (deleteTeam sampleConfig 60 (run sampleConfig Store.empty sampleCalls) alice 1).1
        alice 1 = ⟨404, .message "Team not found"⟩ :=
  have w := delete_logs_snapshot_and_removes_row sampleConfig 60
    (run sampleConfig Store.empty sampleCalls) ⟨sampleCalls, rfl⟩ alice
  ⟨(w.1 ⟨1, 1, "Bo", "Lee", "bo@acme.com", none, 21⟩ (by decide)).2.2.2 alice,
   (w.2 ⟨1, 1, "Core", none, 20⟩ (by decide)).2.2.2 alice⟩

/-! ## Deletion and junction rows -/

theorem noDangling_empty : NoDangling Store.empty := by
  intro r hr
  cases hr

/-- Rows may be added or rewritten with their ids kept, junction rows may be
removed: no junction row becomes dangling. -/
theorem noDangling_of_ids_kept {s s' : Store} (h : NoDangling s)
    (he : ∀ e ∈ s.employees, ∃ e' ∈ s'.employees, e'.id = e.id)
    (ht : ∀ t ∈ s.teams, ∃ t' ∈ s'.teams, t'.id = t.id)
    (hj : ∀ r ∈ s'.employeeTeams, r ∈ s.employeeTeams) : NoDangling s' := by
  intro r hr
  obtain ⟨⟨e, me, ie⟩, ⟨t, mt, it⟩⟩ := h r (hj r hr)
  obtain ⟨e', me', ie'⟩ := he e me
  obtain ⟨t', mt', it'⟩ := ht t mt
  exact ⟨⟨e', me', ie'.trans ie⟩, ⟨t', mt', it'.trans it⟩⟩

theorem noDangling_logCreate {s : Store} (h : NoDangling s) (now : Nat)
    (org user : Option Nat) (action : String) (payload : List (String × MetaVal)) :
    NoDangling (logCreate s now org user action payload) := h

theorem noDangling_createEmployee (cfg : Config) (now : Nat) {s : Store}
    (h : NoDangling s) (u : Identity) (b : EmployeeBody) :
    NoDangling (createEmployee cfg now s u b).1 := by
  unfold createEmployee
  split
  · exact h
  · dsimp only
    split
    · exact h
    · apply noDangling_logCreate
      exact noDangling_of_ids_kept h
        (fun e me => ⟨e, List.mem_append_left _ me, rfl⟩) (fun t mt => ⟨t, mt, rfl⟩)
        (fun r hr => hr)

theorem noDangling_createTeam (cfg : Config) (now : Nat) {s : Store}
    (h : NoDangling s) (u : Identity) (b : TeamBody) :
    NoDangling (createTeam cfg now s u b).1 := by
  unfold createTeam
  split
  · exact h
  · dsimp only
    split
    · exact h
    · apply noDangling_logCreate
      exact noDangling_of_ids_kept h
        (fun e me => ⟨e, me, rfl⟩) (fun t mt => ⟨t, List.mem_append_left _ mt, rfl⟩)
        (fun r hr => hr)

theorem noDangling_updateEmployee (cfg : Config) (now : Nat) {s : Store}
    (h : NoDangling s) (u : Identity) (id : Nat) (b : EmployeeBody) :
    NoDangling (updateEmployee cfg now s u id b).1 := by
  unfold updateEmployee
  split
  · exact h
  · dsimp only
    split
    · exact h
    · apply noDangling_logCreate
      refine noDangling_of_ids_kept h ?_ (fun t mt => ⟨t, mt, rfl⟩) (fun r hr => hr)
      intro e me
      exact ⟨_, List.mem_map.2 ⟨e, me, rfl⟩, by split <;> rfl⟩

theorem noDangling_updateTeam (cfg : Config) (now : Nat) {s : Store}
    (h : NoDangling s) (u : Identity) (id : Nat) (b : TeamBody) :
    NoDangling (updateTeam cfg now s u id b).1 := by
  unfold updateTeam
  split
  · exact h
  · dsimp only
    split
    · exact h
    · apply noDangling_logCreate
      refine noDangling_of_ids_kept h (fun e me => ⟨e, me, rfl⟩) ?_ (fun r hr => hr)
      intro t mt
      exact ⟨_, List.mem_map.2 ⟨t, mt, rfl⟩, by split <;> rfl⟩

/-- With cascading deletes, `destroyEmployee` leaves no junction row of the
employee and makes no other junction row dangling. -/
theorem noDangling_destroyEmployee {cfg : Config} (hc : cfg.cascade = true) {s : Store}
    (h : NoDangling s) (employee : Employee) :
    NoDangling (destroyEmployee cfg s employee) ∧
    ∀ r ∈ (destroyEmployee cfg s employee).employeeTeams, r.employee_id ≠ employee.id := by
  have hj : (destroyEmployee cfg s employee).employeeTeams =
      s.employeeTeams.filter fun r => r.employee_id != employee.id := by
    simp [destroyEmployee, hc]
  constructor
  · intro r hr
    rw [hj] at hr
    obtain ⟨mr, hne⟩ := List.mem_filter.1 hr
    obtain ⟨⟨e, me, ie⟩, ht⟩ := h r mr
    refine ⟨⟨e, ?_, ie⟩, ht⟩
    show e ∈ s.employees.filter fun x => x.id != employee.id
    rw [List.mem_filter]
    exact ⟨me, by rw [ie]; exact hne⟩
  · intro r hr
    rw [hj] at hr
    simpa using (List.mem_filter.1 hr).2

/-- With cascading deletes, `destroyTeam` leaves no junction row of the team
and makes no other junction row dangling. -/
theorem noDangling_destroyTeam {cfg : Config} (hc : cfg.cascade = true) {s : Store}
    (h : NoDangling s) (team : Team) :
    NoDangling (destroyTeam cfg s team) ∧
    ∀ r ∈ (destroyTeam cfg s team).employeeTeams, r.team_id ≠ team.id := by
  have hj : (destroyTeam cfg s team).employeeTeams =
      s.employeeTeams.filter fun r => r.team_id != team.id := by
    simp [destroyTeam, hc]
  constructor
  · intro r hr
    rw [hj] at hr
    obtain ⟨mr, hne⟩ := List.mem_filter.1 hr
    obtain ⟨he, ⟨t, mt, it⟩⟩ := h r mr
    refine ⟨he, ⟨t, ?_, it⟩⟩
    show t ∈ s.teams.filter fun x => x.id != team.id
    rw [List.mem_filter]
    exact ⟨mt, by rw [it]; exact hne⟩
  · intro r hr
    rw [hj] at hr
    simpa using (List.mem_filter.1 hr).2

theorem noDangling_deleteEmployee {cfg : Config} (hc : cfg.cascade = true) (now : Nat)
    {s : Store} (h : NoDangling s) (u : Identity) (id : Nat) :
    NoDangling (deleteEmployee cfg now s u id).1 := by
  unfold deleteEmployee
  split
  · exact h
  · exact noDangling_logCreate (noDangling_destroyEmployee hc h _).1 _ _ _ _ _

theorem noDangling_deleteTeam {cfg : Config} (hc : cfg.cascade = true) (now : Nat)
    {s : Store} (h : NoDangling s) (u : Identity) (id : Nat) :
    NoDangling (deleteTeam cfg now s u id).1 := by
  unfold deleteTeam
  split
  · exact h
  · exact noDangling_logCreate (noDangling_destroyTeam hc h _).1 _ _ _ _ _

theorem noDangling_assignEmployee (now : Nat) {s : Store} (h : NoDangling s)
    (u : Identity) (teamId : Nat) (employeeId : Option Nat) :
    NoDangling (assignEmployee now s u teamId employeeId).1 := by
  unfold assignEmployee
  split
  · exact h
  · dsimp only
    split
    · exact h
    · rename_i team hteam
      split
      · exact h
      · rename_i employee hemployee
        split
        · exact h
        · obtain ⟨mt, it, -⟩ := findTeam_some hteam
          obtain ⟨me, ie, -⟩ := findEmployee_some hemployee
          apply noDangling_logCreate
          intro r hr
          have hr' : r ∈ s.employeeTeams ++
              [{ employee_id := employeeId.getD 0, team_id := teamId, assigned_at := now }] := hr
          simp only [List.mem_append, List.mem_singleton] at hr'
          rcases hr' with hr' | rfl
          · exact h r hr'
          · exact ⟨⟨employee, me, ie⟩, ⟨team, mt, it⟩⟩

theorem noDangling_unassignEmployee (now : Nat) {s : Store} (h : NoDangling s)
    (u : Identity) (teamId : Nat) (employeeId : Option Nat) :
    NoDangling (unassignEmployee now s u teamId employeeId).1 := by
  unfold unassignEmployee
  split
  · exact h
  · dsimp only
    split
    · exact h
    · split
      · exact h
      · apply noDangling_logCreate
        exact noDangling_of_ids_kept h (fun e me => ⟨e, me, rfl⟩) (fun t mt => ⟨t, mt, rfl⟩)
          (fun r hr => (List.mem_filter.1 hr).1)

theorem noDangling_of_frame {s s1 : Store} (h : NoDangling s)
    (hf : s1.employees = s.employees ∧ s1.teams = s.teams ∧
      s1.employeeTeams = s.employeeTeams ∧ s1.users = s.users ∧ s1.logs = s.logs ∧
      s1.nextEmployeeId = s.nextEmployeeId ∧ s1.nextTeamId = s.nextTeamId) :
    NoDangling s1 := by
  intro r hr
  rw [hf.2.2.1] at hr
  rw [hf.1, hf.2.1]
  exact h r hr

theorem noDangling_register (cfg : Config) (now : Nat) {s : Store} (h : NoDangling s)
    (b : RegisterBody) : NoDangling (register cfg now s b).1 := by
  unfold register
  split
  · exact h
  · split
    · exact h
    · split
      · exact h
      · split
        · rename_i s1 err hc
          exact noDangling_of_frame h (createOrganisation_frame.1 err hc)
        · rename_i s1 o hc
          have h1 : NoDangling s1 := noDangling_of_frame h (createOrganisation_frame.2 o hc)
          dsimp only
          split
          · exact h1
          · exact h1

theorem noDangling_login (cfg : Config) (now : Nat) {s : Store} (h : NoDangling s)
    (b : LoginBody) : NoDangling (login cfg now s b).1 := by
  unfold login
  split
  · exact h
  · split
    · exact h
    · split
      · exact h
      · dsimp only
        split <;> exact h

theorem noDangling_step {cfg : Config} (hc : cfg.cascade = true) (now : Nat) {s : Store}
    (h : NoDangling s) (c : Call) : NoDangling (step cfg now s c).1 := by
  cases c with
  | register b => exact noDangling_register cfg now h b
  | login b => exact noDangling_login cfg now h b
  | logout u => exact h
  | listEmployees u => exact h
  | getEmployee u id => exact h
  | createEmployee u b => exact noDangling_createEmployee cfg now h u b
  | updateEmployee u id b => exact noDangling_updateEmployee cfg now h u id b
  | deleteEmployee u id => exact noDangling_deleteEmployee hc now h u id
  | listTeams u => exact h
  | getTeam u id => exact h
  | createTeam u b => exact noDangling_createTeam cfg now h u b
  | updateTeam u id b => exact noDangling_updateTeam cfg now h u id b
  | deleteTeam u id => exact noDangling_deleteTeam hc now h u id
  | assignEmployee u teamId employeeId =>
    exact noDangling_assignEmployee now h u teamId employeeId
  | unassignEmployee u teamId employeeId =>
    exact noDangling_unassignEmployee now h u teamId employeeId
  | getLogs u => exact h

theorem noDangling_run {cfg : Config} (hc : cfg.cascade = true)
    (calls : List (Nat × Call)) : ∀ s, NoDangling s → NoDangling (run cfg s calls) := by
  induction calls with
  | nil => intro s h; exact h
  | cons c rest ih =>
    intro s h
    obtain ⟨now, c⟩ := c
    exact ih _ (noDangling_step hc now h c)

theorem noDangling_of_reachable {cfg : Config} (hc : cfg.cascade = true) {s : Store}
    (h : Reachable cfg s) : NoDangling s := by
  obtain ⟨calls, rfl⟩ := h
  exact noDangling_run hc calls _ noDangling_empty

/-- C21: when the junction foreign keys cascade on delete (as the associations
of `models/index.js` declare by default), in a reachable store: after the
`deleteEmployee` of an employee of the caller's organisation no junction row
names the employee, and no team that `listTeams` or `getTeam` returns, for any
caller, lists it; after the `deleteTeam` of a team of the caller's organisation
no junction row names the team; and no junction row of the store names a
missing employee or team. -/
theorem delete_leaves_no_dangling_junction (cfg : Config) (hc : cfg.cascade = true)
    (now : Nat) (s : Store) (hr : Reachable cfg s) (u : Identity) :
    (∀ e : Employee, e ∈ s.employees ∧ e.organisation_id = u.orgId →
      (deleteEmployee cfg now s u e.id).2.status = 200 ∧
      (∀ r ∈ (deleteEmployee cfg now s u e.id).1.employeeTeams, r.employee_id ≠ e.id) ∧
      (∀ v : Identity, ∃ rows,
        listTeams (deleteEmployee cfg now s u e.id).1 v = ⟨200, .teams rows⟩ ∧
        ∀ x ∈ rows, ∀ b ∈ x.employees, b.id ≠ e.id) ∧
      (∀ (v : Identity) (teamId : Nat) (x : TeamWith EmployeeDetail),
        getTeam (deleteEmployee cfg now s u e.id).1 v teamId = ⟨200, .teamDetail x⟩ →
        ∀ b ∈ x.employees, b.id ≠ e.id)) ∧
    (∀ t : Team, t ∈ s.teams ∧ t.organisation_id = u.orgId →
      (deleteTeam cfg now s u t.id).2.status = 200 ∧
      ∀ r ∈ (deleteTeam cfg now s u t.id).1.employeeTeams, r.team_id ≠ t.id) ∧
    (∀ r ∈ s.employeeTeams,
      (∃ e ∈ s.employees, e.id = r.employee_id) ∧ (∃ t ∈ s.teams, t.id = r.team_id)) := by
  have inv := inv_of_reachable hr
  refine ⟨?_, ?_, noDangling_of_reachable hc hr⟩
  · intro e he
    have hf := findEmployee_eq_of_mem inv he.1 he.2
    have e1 : deleteEmployee cfg now s u e.id =
        (logCreate (destroyEmployee cfg s e) now (some u.orgId) (some u.userId)
          "employee_deleted" (("employeeId", .atom (.num e.id)) :: e.toJSON),
         ⟨200, .message "Employee deleted successfully"⟩) := by
      unfold deleteEmployee
      rw [hf]
    have hgone : ∀ x ∈ (deleteEmployee cfg now s u e.id).1.employees, x.id ≠ e.id := by
      rw [e1]
      intro x hx
      have hx' : x ∈ s.employees.filter fun y => y.id != e.id := hx
      simpa using (List.mem_filter.1 hx').2
    refine ⟨by rw [e1], ?_, ?_, ?_⟩
    · rw [e1]
      exact (noDangling_destroyEmployee hc (noDangling_of_reachable hc hr) e).2
    · intro v
      refine ⟨_, rfl, ?_⟩
      intro x hx b hb
      obtain ⟨t, -, rfl⟩ := List.mem_map.1 hx
      obtain ⟨p, hp, rfl⟩ := List.mem_map.1 hb
      exact hgone p.1 (mem_employeesOf.1 hp).2.2.1
    · intro v teamId x hx b hb
      unfold getTeam at hx
      split at hx
      · simp at hx
      · simp only [Response.mk.injEq, Body.teamDetail.injEq, true_and] at hx
        subst hx
        obtain ⟨p, hp, rfl⟩ := List.mem_map.1 hb
        exact hgone p.1 (mem_employeesOf.1 hp).2.2.1
  · intro t ht
    have hf := findTeam_eq_of_mem inv ht.1 ht.2
    have e1 : deleteTeam cfg now s u t.id =
        (logCreate (destroyTeam cfg s t) now (some u.orgId) (some u.userId)
          "team_deleted" (("teamId", .atom (.num t.id)) :: t.toJSON),
         ⟨200, .message "Team deleted successfully"⟩) := by
      unfold deleteTeam
      rw [hf]
    refine ⟨by rw [e1], ?_⟩
    rw [e1]
    exact (noDangling_destroyTeam hc (noDangling_of_reachable hc hr) t).2

/-- Witness of C21: in the store after the sample history, employee 1 is in
team 1; after its deletion no junction row is left. -/
theorem delete_leaves_no_dangling_junction_witness :
    (run sampleConfig Store.empty sampleCalls).employeeTeams = [⟨1, 1, 23⟩] ∧
    (∀ r ∈ (deleteEmployee sampleConfig 60 (run sampleConfig Store.empty sampleCalls)
        alice 1).1.employeeTeams, r.employee_id ≠ 1) ∧
    ∀ r ∈ (run sampleConfig Store.empty sampleCalls).employeeTeams,
      (∃ e ∈ (run sampleConfig Store.empty sampleCalls).employees, e.id = r.employee_id) ∧
      (∃ t ∈ (run sampleConfig Store.empty sampleCalls).teams, t.id = r.team_id) :=
  have w := delete_leaves_no_dangling_junction sampleConfig rfl 60
    (run sampleConfig Store.empty sampleCalls) ⟨sampleCalls, rfl⟩ alice
  ⟨by decide, (w.1 ⟨1, 1, "Bo", "Lee", "bo@acme.com", none, 21⟩ (by decide)).2.1, w.2.2⟩

/-! ## errorHandler -/

/-- C22 as stated fails: for the error that a malformed JSON body raises in
`express.json()` (a `SyntaxError` with `status` 400) the response has status 400
and the text of the error; and for the database error of an over-long
organisation name the response has status 500 and the text of the error, not a
generic message. -/
theorem errorHandler_sends_status_and_message_of_error :
    errorHandler { name := "SyntaxError",
                   message := "Unexpected end of JSON input",
                   status := some 400, errors := [] } =
      ⟨400, .message "Unexpected end of JSON input"⟩ ∧
    errorHandler { name := "SequelizeDatabaseError",
                   message := "value too long for type character varying(255)",
                   status := none, errors := [] } =
      ⟨500, .message "value too long for type character varying(255)"⟩ := by
  decide

/-- C22, amended: for every error that is neither a Sequelize validation error
nor a Sequelize unique-constraint error, `errorHandler` responds with the
`status` of the error when it has one that is not 0 and with 500 otherwise, and
with the message of the error when it is not empty and with 'Internal server
error' otherwise. -/
theorem errorHandler_default_branch (err : JsError)
    (h1 : err.name ≠ "SequelizeValidationError")
    (h2 : err.name ≠ "SequelizeUniqueConstraintError") :
    (errorHandler err).status =
      (match err.status with
        | some n => if n = 0 then 500 else n
        | none => 500) ∧
    (errorHandler err).body =
      .message (if err.message = "" then "Internal server error" else err.message) ∧
    (err.status = none → err.message = "" →
      errorHandler err = ⟨500, .message "Internal server error"⟩) := by
  have e : errorHandler err =
      ⟨match err.status with
        | some n => if n != 0 then n else 500
        | none => 500,
       .message (if err.message != "" then err.message else "Internal server error")⟩ := by
    simp [errorHandler, h1, h2]
  rw [e]
  refine ⟨?_, ?_, ?_⟩
  · cases hs : err.status with
    | none => rfl
    | some n => by_cases hn : n = 0 <;> simp [hn]
  · by_cases hm : err.message = "" <;> simp [hm]
  · intro hs hm
    simp [hs, hm]

/-- Witness of the amended C22: an error without `status` and with an empty
message gets 500 and the generic message. -/
theorem errorHandler_default_branch_witness :
    errorHandler { name := "Error", message := "", status := none, errors := [] } =
      ⟨500, .message "Internal server error"⟩ :=
  (errorHandler_default_branch
    { name := "Error", message := "", status := none, errors := [] }
    (by decide) (by decide)).2.2 rfl rfl

/-- C23: for a Sequelize validation error, `errorHandler` responds 400 with the
message 'Validation error' and a list `errors` with one entry per item of the
error, in the same order, the entry at each position holding the field path and
the message of the item at that position; and every response of `errorHandler`
carries a message. -/
theorem errorHandler_validation_items (err : JsError)
    (h : err.name = "SequelizeValidationError") :
    (∃ errors : List (Option String × String),
      errorHandler err = ⟨400, .validation "Validation error" errors⟩ ∧
      errors.length = err.errors.length ∧
      ∀ (i : Nat) (hi : i < err.errors.length) (hj : i < errors.length),
        errors.get ⟨i, hj⟩ =
          ((err.errors.get ⟨i, hi⟩).path, (err.errors.get ⟨i, hi⟩).message)) ∧
    ∀ any : JsError, ∃ m : String,
      (errorHandler any).body = .message m ∨
      (∃ errors, (errorHandler any).body = .validation m errors) ∨
      (∃ field, (errorHandler any).body = .duplicate m field) := by
  constructor
  · refine ⟨err.errors.map fun e => (e.path, e.message), ?_, by simp, ?_⟩
    · simp [errorHandler, h]
    · intro i hi hj
      simp
  · intro any
    unfold errorHandler
    split
    · exact ⟨_, Or.inr (Or.inl ⟨_, rfl⟩)⟩
    · split
      · exact ⟨_, Or.inr (Or.inr ⟨_, rfl⟩)⟩
      · exact ⟨_, Or.inl rfl⟩

/-- Witness of C23: a validation error with two items. -/
theorem errorHandler_validation_items_witness :
    errorHandler
        { name := "SequelizeValidationError", message := "Validation error", status := none,
          errors := [⟨some "email", "Validation isEmail on email failed"⟩,
                     ⟨some "name", "Validation notEmpty on name failed"⟩] } =
      ⟨400, .validation "Validation error"
        [(some "email", "Validation isEmail on email failed"),
         (some "name", "Validation notEmpty on name failed")]⟩ ∧
    ∃ errors : List (Option String × String),
      errorHandler
        { name := "SequelizeValidationError", message := "Validation error", status := none,
          errors := [⟨some "email", "Validation isEmail on email failed"⟩,
                     ⟨some "name", "Validation notEmpty on name failed"⟩] } =
        ⟨400, .validation "Validation error" errors⟩ ∧ errors.length = 2 :=
  ⟨by decide,
   (errorHandler_validation_items
      { name := "SequelizeValidationError", message := "Validation error", status := none,
        errors := [⟨some "email", "Validation isEmail on email failed"⟩,
                   ⟨some "name", "Validation notEmpty on name failed"⟩] } rfl).1.imp
      fun _ h => ⟨h.1, h.2.1⟩⟩

/-! ## Failure of the audit insert -/

theorem createEmployeeWith_fault (err : JsError) (cfg : Config) (now : Nat) (s : Store)
    (u : Identity) (b : EmployeeBody) :
    createEmployeeWith none cfg now s u b = createEmployee cfg now s u b ∧
    ((createEmployee cfg now s u b).2.status < 400 →
      (createEmployeeWith (some err) cfg now s u b).2 = errorHandler err ∧
      (createEmployeeWith (some err) cfg now s u b).1.employees =
        (createEmployee cfg now s u b).1.employees ∧
      (createEmployeeWith (some err) cfg now s u b).1.teams =
        (createEmployee cfg now s u b).1.teams ∧
      (createEmployeeWith (some err) cfg now s u b).1.employeeTeams =
        (createEmployee cfg now s u b).1.employeeTeams ∧
      (createEmployeeWith (some err) cfg now s u b).1.logs = s.logs) := by
  unfold createEmployeeWith createEmployee
  split
  · exact ⟨rfl, fun h => by simp at h⟩
  · dsimp only
    split
    · exact ⟨rfl, fun h => by simp [errorHandler_validationError] at h⟩
    · exact ⟨rfl, fun _ => ⟨rfl, rfl, rfl, rfl, rfl⟩⟩

theorem updateEmployeeWith_fault (err : JsError) (cfg : Config) (now : Nat) (s : Store)
    (u : Identity) (id : Nat) (b : EmployeeBody) :
    updateEmployeeWith none cfg now s u id b = updateEmployee cfg now s u id b ∧
    ((updateEmployee cfg now s u id b).2.status < 400 →
      (updateEmployeeWith (some err) cfg now s u id b).2 = errorHandler err ∧
      (updateEmployeeWith (some err) cfg now s u id b).1.employees =
        (updateEmployee cfg now s u id b).1.employees ∧
      (updateEmployeeWith (some err) cfg now s u id b).1.teams =
        (updateEmployee cfg now s u id b).1.teams ∧
      (updateEmployeeWith (some err) cfg now s u id b).1.employeeTeams =
        (updateEmployee cfg now s u id b).1.employeeTeams ∧
      (updateEmployeeWith (some err) cfg now s u id b).1.logs = s.logs) := by
  unfold updateEmployeeWith updateEmployee
  split
  · exact ⟨rfl, fun h => by simp at h⟩
  · dsimp only
    split
    · exact ⟨rfl, fun h => by simp [errorHandler_validationError] at h⟩
    · exact ⟨rfl, fun _ => ⟨rfl, rfl, rfl, rfl, rfl⟩⟩

theorem deleteEmployeeWith_fault (err : JsError) (cfg : Config) (now : Nat) (s : Store)
    (u : Identity) (id : Nat) :
    deleteEmployeeWith none cfg now s u id = deleteEmployee cfg now s u id ∧
    ((deleteEmployee cfg now s u id).2.status < 400 →
      (deleteEmployeeWith (some err) cfg now s u id).2 = errorHandler err ∧
      (deleteEmployeeWith (some err) cfg now s u id).1.employees =
        (deleteEmployee cfg now s u id).1.employees ∧
      (deleteEmployeeWith (some err) cfg now s u id).1.teams =
        (deleteEmployee cfg now s u id).1.teams ∧
      (deleteEmployeeWith (some err) cfg now s u id).1.employeeTeams =
        (deleteEmployee cfg now s u id).1.employeeTeams ∧
      (deleteEmployeeWith (some err) cfg now s u id).1.logs = s.logs) := by
  unfold deleteEmployeeWith deleteEmployee
  split
  · exact ⟨rfl, fun h => by simp at h⟩
  · exact ⟨rfl, fun _ => ⟨rfl, rfl, rfl, rfl, rfl⟩⟩

theorem createTeamWith_fault (err : JsError) (cfg : Config) (now : Nat) (s : Store)
    (u : Identity) (b : TeamBody) :
    createTeamWith none cfg now s u b = createTeam cfg now s u b ∧
    ((createTeam cfg now s u b).2.status < 400 →
      (createTeamWith (some err) cfg now s u b).2 = errorHandler err ∧
      (createTeamWith (some err) cfg now s u b).1.employees =
        (createTeam cfg now s u b).1.employees ∧
      (createTeamWith (some err) cfg now s u b).1.teams =
        (createTeam cfg now s u b).1.teams ∧
      (createTeamWith (some err) cfg now s u b).1.employeeTeams =
        (createTeam cfg now s u b).1.employeeTeams ∧
      (createTeamWith (some err) cfg now s u b).1.logs = s.logs) := by
  unfold createTeamWith createTeam
  split
  · exact ⟨rfl, fun h => by simp at h⟩
  · dsimp only
    split
    · exact ⟨rfl, fun h => by simp [errorHandler_validationError] at h⟩
    · exact ⟨rfl, fun _ => ⟨rfl, rfl, rfl, rfl, rfl⟩⟩

theorem updateTeamWith_fault (err : JsError) (cfg : Config) (now : Nat) (s : Store)
    (u : Identity) (id : Nat) (b : TeamBody) :
    updateTeamWith none cfg now s u id b = updateTeam cfg now s u id b ∧
    ((updateTeam cfg now s u id b).2.status < 400 →
      (updateTeamWith (some err) cfg now s u id b).2 = errorHandler err ∧
      (updateTeamWith (some err) cfg now s u id b).1.employees =
        (updateTeam cfg now s u id b).1.employees ∧
      (updateTeamWith (some err) cfg now s u id b).1.teams =
        (updateTeam cfg now s u id b).1.teams ∧
      (updateTeamWith (some err) cfg now s u id b).1.employeeTeams =
        (updateTeam cfg now s u id b).1.employeeTeams ∧
      (updateTeamWith (some err) cfg now s u id b).1.logs = s.logs) := by
  unfold updateTeamWith updateTeam
  split
  · exact ⟨rfl, fun h => by simp at h⟩
  · dsimp only
    split
    · exact ⟨rfl, fun h => by simp [errorHandler_validationError] at h⟩
    · exact ⟨rfl, fun _ => ⟨rfl, rfl, rfl, rfl, rfl⟩⟩

theorem deleteTeamWith_fault (err : JsError) (cfg : Config) (now : Nat) (s : Store)
    (u : Identity) (id : Nat) :
    deleteTeamWith none cfg now s u id = deleteTeam cfg now s u id ∧
    ((deleteTeam cfg now s u id).2.status < 400 →
      (deleteTeamWith (some err) cfg now s u id).2 = errorHandler err ∧
      (deleteTeamWith (some err) cfg now s u id).1.employees =
        (deleteTeam cfg now s u id).1.employees ∧
      (deleteTeamWith (some err) cfg now s u id).1.teams =
        (deleteTeam cfg now s u id).1.teams ∧
      (deleteTeamWith (some err) cfg now s u id).1.employeeTeams =
        (deleteTeam cfg now s u id).1.employeeTeams ∧
      (deleteTeamWith (some err) cfg now s u id).1.logs = s.logs) := by
  unfold deleteTeamWith deleteTeam
  split
  · exact ⟨rfl, fun h => by simp at h⟩
  · exact ⟨rfl, fun _ => ⟨rfl, rfl, rfl, rfl, rfl⟩⟩

theorem assignEmployeeWith_fault (err : JsError) (now : Nat) (s : Store)
    (u : Identity) (teamId : Nat) (employeeId : Option Nat) :
    assignEmployeeWith none now s u teamId employeeId =
      assignEmployee now s u teamId employeeId ∧
    ((assignEmployee now s u teamId employeeId).2.status < 400 →
      (assignEmployeeWith (some err) now s u teamId employeeId).2 = errorHandler err ∧
      (assignEmployeeWith (some err) now s u teamId employeeId).1.employees =
        (assignEmployee now s u teamId employeeId).1.employees ∧
      (assignEmployeeWith (some err) now s u teamId employeeId).1.teams =
        (assignEmployee now s u teamId employeeId).1.teams ∧
      (assignEmployeeWith (some err) now s u teamId employeeId).1.employeeTeams =
        (assignEmployee now s u teamId employeeId).1.employeeTeams ∧
      (assignEmployeeWith (some err) now s u teamId employeeId).1.logs = s.logs) := by
  unfold assignEmployeeWith assignEmployee
  split
  · exact ⟨rfl, fun h => by simp at h⟩
  · dsimp only
    split
    · exact ⟨rfl, fun h => by simp at h⟩
    · split
      · exact ⟨rfl, fun h => by simp at h⟩
      · split
        · exact ⟨rfl, fun h => by simp at h⟩
        · exact ⟨rfl, fun _ => ⟨rfl, rfl, rfl, rfl, rfl⟩⟩

theorem unassignEmployeeWith_fault (err : JsError) (now : Nat) (s : Store)
    (u : Identity) (teamId : Nat) (employeeId : Option Nat) :
    unassignEmployeeWith none now s u teamId employeeId =
      unassignEmployee now s u teamId employeeId ∧
    ((unassignEmployee now s u teamId employeeId).2.status < 400 →
      (unassignEmployeeWith (some err) now s u teamId employeeId).2 = errorHandler err ∧
      (unassignEmployeeWith (some err) now s u teamId employeeId).1.employees =
        (unassignEmployee now s u teamId employeeId).1.employees ∧
      (unassignEmployeeWith (some err) now s u teamId employeeId).1.teams =
        (unassignEmployee now s u teamId employeeId).1.teams ∧
      (unassignEmployeeWith (some err) now s u teamId employeeId).1.employeeTeams =
        (unassignEmployee now s u teamId employeeId).1.employeeTeams ∧
      (unassignEmployeeWith (some err) now s u teamId employeeId).1.logs = s.logs) := by
  unfold unassignEmployeeWith unassignEmployee
  split
  · exact ⟨rfl, fun h => by simp at h⟩
  · dsimp only
    split
    · exact ⟨rfl, fun h => by simp at h⟩
    · split
      · exact ⟨rfl, fun h => by simp at h⟩
      · exact ⟨rfl, fun _ => ⟨rfl, rfl, rfl, rfl, rfl⟩⟩

/-- C24: in each of the eight mutating handlers of employees, teams and
assignments, when the call would succeed and its `Log.create` throws instead,
the caller gets the response of `errorHandler` for that error, no log row is
written, and the tables hold what the successful call would have left in them:
the created, updated or deleted rows persist, nothing is rolled back. Without a
failure the handler is the one of `step`. -/
theorem audit_failure_keeps_primary_write (cfg : Config) (now : Nat) (s : Store)
    (c : Call) (err : JsError)
    (hc : (∃ u b, c = .createEmployee u b) ∨ (∃ u id b, c = .updateEmployee u id b) ∨
          (∃ u id, c = .deleteEmployee u id) ∨ (∃ u b, c = .createTeam u b) ∨
          (∃ u id b, c = .updateTeam u id b) ∨ (∃ u id, c = .deleteTeam u id) ∨
          (∃ u teamId employeeId, c = .assignEmployee u teamId employeeId) ∨
          (∃ u teamId employeeId, c = .unassignEmployee u teamId employeeId))
    (hok : (step cfg now s c).2.status < 400) :
    (stepWith (some err) cfg now s c).2 = errorHandler err ∧
    (stepWith (some err) cfg now s c).1.employees = (step cfg now s c).1.employees ∧
    (stepWith (some err) cfg now s c).1.teams = (step cfg now s c).1.teams ∧
    (stepWith (some err) cfg now s c).1.employeeTeams = (step cfg now s c).1.employeeTeams ∧
    (stepWith (some err) cfg now s c).1.logs = s.logs ∧
    stepWith none cfg now s c = step cfg now s c := by
  rcases hc with ⟨u, b, rfl⟩ | ⟨u, id, b, rfl⟩ | ⟨u, id, rfl⟩ | ⟨u, b, rfl⟩ |
    ⟨u, id, b, rfl⟩ | ⟨u, id, rfl⟩ | ⟨u, teamId, employeeId, rfl⟩ |
    ⟨u, teamId, employeeId, rfl⟩
  · have w := createEmployeeWith_fault err cfg now s u b
    exact ⟨(w.2 hok).1, (w.2 hok).2.1, (w.2 hok).2.2.1, (w.2 hok).2.2.2.1, (w.2 hok).2.2.2.2, w.1⟩
  · have w := updateEmployeeWith_fault err cfg now s u id b
    exact ⟨(w.2 hok).1, (w.2 hok).2.1, (w.2 hok).2.2.1, (w.2 hok).2.2.2.1, (w.2 hok).2.2.2.2, w.1⟩
  · have w := deleteEmployeeWith_fault err cfg now s u id
    exact ⟨(w.2 hok).1, (w.2 hok).2.1, (w.2 hok).2.2.1, (w.2 hok).2.2.2.1, (w.2 hok).2.2.2.2, w.1⟩
  · have w := createTeamWith_fault err cfg now s u b
    exact ⟨(w.2 hok).1, (w.2 hok).2.1, (w.2 hok).2.2.1, (w.2 hok).2.2.2.1, (w.2 hok).2.2.2.2, w.1⟩
  · have w := updateTeamWith_fault err cfg now s u id b
    exact ⟨(w.2 hok).1, (w.2 hok).2.1, (w.2 hok).2.2.1, (w.2 hok).2.2.2.1, (w.2 hok).2.2.2.2, w.1⟩
  · have w := deleteTeamWith_fault err cfg now s u id
    exact ⟨(w.2 hok).1, (w.2 hok).2.1, (w.2 hok).2.2.1, (w.2 hok).2.2.2.1, (w.2 hok).2.2.2.2, w.1⟩
  · have w := assignEmployeeWith_fault err now s u teamId employeeId
    exact ⟨(w.2 hok).1, (w.2 hok).2.1, (w.2 hok).2.2.1, (w.2 hok).2.2.2.1, (w.2 hok).2.2.2.2, w.1⟩
  · have w := unassignEmployeeWith_fault err now s u teamId employeeId
    exact ⟨(w.2 hok).1, (w.2 hok).2.1, (w.2 hok).2.2.1, (w.2 hok).2.2.2.1, (w.2 hok).2.2.2.2, w.1⟩

/-- Witness of C24 on the sample store: the caller of organisation 1 creates an
employee and the audit insert fails with a lost connection; the employee row is
there, the log is as before, and the response is 500. -/
theorem audit_failure_keeps_primary_write_witness :
    (stepWith (some ⟨"SequelizeConnectionError", "connection terminated", none, []⟩)
      sampleConfig 50 sampleStore
      (.createEmployee alice ⟨.str "Eli", .str "Fox", .str "eli@x.com", .undefined⟩)).2 =
      ⟨500, .message "connection terminated"⟩ ∧
    (stepWith (some ⟨"SequelizeConnectionError", "connection terminated", none, []⟩)
      sampleConfig 50 sampleStore
      (.createEmployee alice ⟨.str "Eli", .str "Fox", .str "eli@x.com", .undefined⟩)).1.employees =
      sampleStore.employees ++ [⟨4, 1, "Eli", "Fox", "eli@x.com", none, 50⟩] ∧
    (stepWith (some ⟨"SequelizeConnectionError", "connection terminated", none, []⟩)
      sampleConfig 50 sampleStore
      (.createEmployee alice ⟨.str "Eli", .str "Fox", .str "eli@x.com", .undefined⟩)).1.logs =
      sampleStore.logs :=
  have w := audit_failure_keeps_primary_write sampleConfig 50 sampleStore
    (.createEmployee alice ⟨.str "Eli", .str "Fox", .str "eli@x.com", .undefined⟩)
    ⟨"SequelizeConnectionError", "connection terminated", none, []⟩
    (Or.inl ⟨_, _, rfl⟩) (by decide)
  ⟨w.1.trans (by decide), w.2.1.trans (by decide), w.2.2.2.2.1⟩

/-! ## Ordering of the lists -/

theorem orderDesc_sorted {α : Type} (key : α → Nat) (rows : List α) :
    (orderDesc key rows).Pairwise fun a b => key b ≤ key a := by
  have htotal : IsTotal α (fun a b => key b ≤ key a) := ⟨fun a b => Nat.le_total _ _⟩
  have htrans : IsTrans α (fun a b => key b ≤ key a) :=
    ⟨fun a b c hab hbc => Nat.le_trans hbc hab⟩
  exact List.sorted_insertionSort (fun a b => key b ≤ key a) rows

/-- C25: the rows that `listEmployees` and `listTeams` return are ordered by
`created_at` descending: each row is at least as recent as every row after it,
and so as the row right after it. -/
theorem lists_are_newest_first (s : Store) (u : Identity) :
    (∃ rows, listEmployees s u = ⟨200, .employees rows⟩ ∧
      rows.Pairwise (fun a b => b.row.created_at ≤ a.row.created_at) ∧
      rows.Chain' (fun a b => b.row.created_at ≤ a.row.created_at)) ∧
    (∃ rows, listTeams s u = ⟨200, .teams rows⟩ ∧
      rows.Pairwise (fun a b => b.row.created_at ≤ a.row.created_at) ∧
      rows.Chain' (fun a b => b.row.created_at ≤ a.row.created_at)) := by
  constructor
  · have hp : ((orderDesc Employee.created_at
        (s.employees.filter fun e => e.organisation_id == u.orgId)).map fun e =>
          ({ row := e, teams := (teamsOf s e).map fun p =>
              ({ id := p.1.id, name := p.1.name } : TeamBrief) } :
            EmployeeWith TeamBrief)).Pairwise
        (fun a b => b.row.created_at ≤ a.row.created_at) := by
      rw [List.pairwise_map]
      exact orderDesc_sorted _ _
    exact ⟨_, rfl, hp, hp.chain'⟩
  · have hp : ((orderDesc Team.created_at
        (s.teams.filter fun t => t.organisation_id == u.orgId)).map fun t =>
          ({ row := t, employees := (employeesOf s t).map fun p =>
              ({ id := p.1.id, first_name := p.1.first_name, last_name := p.1.last_name,
                 email := p.1.email } : EmployeeBrief) } :
            TeamWith EmployeeBrief)).Pairwise
        (fun a b => b.row.created_at ≤ a.row.created_at) := by
      rw [List.pairwise_map]
      exact orderDesc_sorted _ _
    exact ⟨_, rfl, hp, hp.chain'⟩

/-- C30: `getLogs` returns at most 100 log rows, all of the caller's
organisation, ordered by `timestamp` descending; and every log row of the
caller's organisation that is not returned is at most as recent as every row
returned. The rows returned are the first 100 (all of them when there are fewer)
of the log rows of the caller's organisation put in that order: their number is
the smaller of 100 and the number of those rows, and together with the rows
left out they are a rearrangement of those rows that is ordered as a whole. -/
theorem getLogs_returns_latest_hundred (s : Store) (u : Identity) :
    ∃ rows, getLogs s u = ⟨200, .logs rows⟩ ∧
      rows.length ≤ 100 ∧
      (∀ l ∈ rows, l ∈ s.logs ∧ l.organisation_id = some u.orgId) ∧
      rows.Pairwise (fun a b => b.timestamp ≤ a.timestamp) ∧
      (∀ l ∈ s.logs, l.organisation_id = some u.orgId → l ∉ rows →
        ∀ r ∈ rows, l.timestamp ≤ r.timestamp) ∧
      rows.length =
        min 100 (s.logs.filter fun l => l.organisation_id == some u.orgId).length ∧
      ∃ rest, (rows ++ rest).Perm
          (s.logs.filter fun l => l.organisation_id == some u.orgId) ∧
        (rows ++ rest).Pairwise (fun a b => b.timestamp ≤ a.timestamp) := by
  refine ⟨_, rfl, ?_, ?_, ?_, ?_, ?_, ?_⟩
  · exact List.length_take_le _ _
  · intro l hl
    have hl' := (mem_orderDesc _ _ l).1 (List.mem_of_mem_take hl)
    rw [List.mem_filter] at hl'
    exact ⟨hl'.1, by simpa using hl'.2⟩
  · exact (orderDesc_sorted _ _).sublist (List.take_sublist _ _)
  · intro l hl horg hnot r hr
    have hsorted := orderDesc_sorted Log.timestamp
      (s.logs.filter fun l => l.organisation_id == some u.orgId)
    rw [← List.take_append_drop 100 (orderDesc Log.timestamp
      (s.logs.filter fun l => l.organisation_id == some u.orgId))] at hsorted
    rw [List.pairwise_append] at hsorted
    have hmem : l ∈ orderDesc Log.timestamp
        (s.logs.filter fun l => l.organisation_id == some u.orgId) := by
      rw [mem_orderDesc, List.mem_filter]
      exact ⟨hl, by simp [horg]⟩
    rw [← List.take_append_drop 100 (orderDesc Log.timestamp
      (s.logs.filter fun l => l.organisation_id == some u.orgId)), List.mem_append] at hmem
    rcases hmem with hmem | hmem
    · exact absurd hmem hnot
    · exact hsorted.2.2 r hr l hmem
  · show ((orderDesc Log.timestamp
      (s.logs.filter fun l => l.organisation_id == some u.orgId)).take 100).length = _
    rw [List.length_take, (orderDesc_perm Log.timestamp _).length_eq]
  · refine ⟨(orderDesc Log.timestamp
      (s.logs.filter fun l => l.organisation_id == some u.orgId)).drop 100, ?_, ?_⟩
    · show (List.take 100 _ ++ List.drop 100 _).Perm _
      rw [List.take_append_drop]
      exact orderDesc_perm _ _
    · show (List.take 100 _ ++ List.drop 100 _).Pairwise _
      rw [List.take_append_drop]
      exact orderDesc_sorted _ _

/-! ## Logout and the access guard -/

/-- C26: `logout` appends exactly one log row, with the action `user_logout`,
the `orgId` and `userId` of the identity and the email as `meta`, responds
'Logout successful', and changes nothing else: every table but `logs` and every
sequence but the one of `logs` is as before. The store holds no token state, and
for every later request through the router the guard decides as it would have
without the logout: a token refused before is refused with the same response,
and a token accepted before is accepted with the same identity. -/
theorem logout_writes_one_log_and_nothing_else (now : Nat) (s : Store) (u : Identity) :
    (logout now s u).2 = ⟨200, .message "Logout successful"⟩ ∧
    (logout now s u).1 =
      { s with
        logs := s.logs ++
          [{ id := s.nextLogId, organisation_id := some u.orgId, user_id := some u.userId,
             action := "user_logout", meta := [("email", .atom (.str u.email))],
             timestamp := now }]
        nextLogId := s.nextLogId + 1 } ∧
    ((logout now s u).1.organisations = s.organisations ∧
      (logout now s u).1.users = s.users ∧
      (logout now s u).1.employees = s.employees ∧
      (logout now s u).1.teams = s.teams ∧
      (logout now s u).1.employeeTeams = s.employeeTeams) ∧
    ∀ (g : Guard) (cfg : Config) (later : Nat) (token : Option String) (route : TeamsRoute),
      (∀ response, authMiddleware g later token = .error response →
        teamsRouter g cfg later s token route = (s, response) ∧
        teamsRouter g cfg later (logout now s u).1 token route =
          ((logout now s u).1, response)) ∧
      (∀ v, authMiddleware g later token = .ok v →
        teamsRouter g cfg later s token route = step cfg later s (route.call v) ∧
        teamsRouter g cfg later (logout now s u).1 token route =
          step cfg later (logout now s u).1 (route.call v)) := by
  refine ⟨rfl, rfl, ⟨rfl, rfl, rfl, rfl, rfl⟩, ?_⟩
  intro g cfg later token route
  constructor
  · intro response h
    simp [teamsRouter, h]
  · intro v h
    simp [teamsRouter, h]

/-- C27: on every route of the teams router, a request without bearer token or
with a token that fails verification gets a 401 response from the guard, and
the result is the store as it was with that response, whatever the route: no
handler runs. -/
theorem teams_routes_refuse_unverified_token (g : Guard) (cfg : Config) (now : Nat)
    (s : Store) (token : Option String) (route : TeamsRoute)
    (h : token = none ∨ ∃ t, token = some t ∧ g.verify t now = none) :
    (teamsRouter g cfg now s token route).2.status = 401 ∧
    (teamsRouter g cfg now s token route).1 = s ∧
    ∃ response, authMiddleware g now token = .error response ∧
      ∀ other : TeamsRoute, teamsRouter g cfg now s token other = (s, response) := by
  rcases h with rfl | ⟨t, rfl, hv⟩
  · refine ⟨rfl, rfl, _, rfl, fun _ => rfl⟩
  · have e : authMiddleware g now (some t) = .error ⟨401, .message g.invalidMessage⟩ := by
      simp [authMiddleware, hv]
    refine ⟨by simp [teamsRouter, e], by simp [teamsRouter, e], _, e, ?_⟩
    intro other
    simp [teamsRouter, e]

/-- Witness of C27 on the sample store: a delete without token, and an assign
with a token that the sample guard does not know. -/
theorem teams_routes_refuse_unverified_token_witness :
    teamsRouter sampleGuard sampleConfig 50 sampleStore none (.delete 1) =
      (sampleStore, ⟨401, .message "No token provided"⟩) ∧
    (teamsRouter sampleGuard sampleConfig 50 sampleStore (some "eve")
      (.assign 1 (some 3))).2.status = 401 ∧
    (teamsRouter sampleGuard sampleConfig 50 sampleStore (some "eve")
      (.assign 1 (some 3))).1 = sampleStore :=
  have w := teams_routes_refuse_unverified_token sampleGuard sampleConfig 50 sampleStore
    (some "eve") (.assign 1 (some 3)) (Or.inr ⟨"eve", rfl, by decide⟩)
  ⟨by decide, w.1, w.2.1⟩

/-! ## The filters of the pages -/

theorem includesChars_nil (hay : List Char) : includesChars hay [] = true := by
  cases hay with
  | nil => rfl
  | cons h t => simp [includesChars, startsWithChars]

theorem includes_empty (hay : String) : includes hay (toLowerCase "") = true :=
  includesChars_nil _

/-- C28: with the empty term, `getUnassignedEmployees` returns, in their
order, exactly the employees whose id is the id of no member of the team, and
all employees when the team has no `employees` property; for every term the
result is a sublist of that, so no member of the team is in it. -/
theorem unassigned_excludes_team_members (employees : List Employee) (team : TeamItem) :
    getUnassignedEmployees employees team "" =
      employees.filter (fun emp => decide (∀ m ∈ team.employees.getD [], m.id ≠ emp.id)) ∧
    (team.employees = none → getUnassignedEmployees employees team "" = employees) ∧
    ∀ term : String,
      (getUnassignedEmployees employees team term).Sublist
        (getUnassignedEmployees employees team "") ∧
      (getUnassignedEmployees employees team term).Sublist employees ∧
      ∀ e ∈ getUnassignedEmployees employees team term,
        ∀ m ∈ team.employees.getD [], m.id ≠ e.id := by
  have h0 : getUnassignedEmployees employees team "" =
      employees.filter (fun emp => decide (∀ m ∈ team.employees.getD [], m.id ≠ emp.id)) := by
    unfold getUnassignedEmployees
    simp only [beq_self_eq_true, if_true]
    apply List.filter_congr
    intro emp _
    cases hteam : team.employees with
    | none => simp
    | some members =>
      rw [Bool.eq_iff_iff]
      simp only [Option.getD_some, Bool.not_eq_true', decide_eq_true_eq]
      rw [List.contains_eq_any_beq, List.any_eq_false]
      constructor
      · intro h m hm hid
        exact h m.id (List.mem_map.2 ⟨m, hm, rfl⟩) (by simp [hid])
      · intro h x hx
        obtain ⟨m, hm, rfl⟩ := List.mem_map.1 hx
        simpa using fun hid => h m hm hid.symm
  have hsub : ∀ term : String, (getUnassignedEmployees employees team term).Sublist
      (getUnassignedEmployees employees team "") := by
    intro term
    by_cases ht : term = ""
    · rw [ht]
    · unfold getUnassignedEmployees
      simp only [beq_self_eq_true, if_true, beq_iff_eq, ht, if_false]
      exact List.filter_sublist _
  refine ⟨h0, ?_, ?_⟩
  · intro hnone
    rw [h0, hnone]
    simp
  · intro term
    refine ⟨hsub term, ?_, ?_⟩
    · exact (hsub term).trans (h0 ▸ List.filter_sublist _)
    · intro e he
      have he' := (hsub term).subset he
      rw [h0, List.mem_filter] at he'
      simpa using he'.2

/-- C29 as stated fails: the term `ı` (dotless i) selects the employee `Kıl`,
while its upper-cased form `I`, which lower-cases to `i`, selects the employee
`Di` instead; so a term and its upper-cased form do not always select the same
employees, on the Employees page and in `getUnassignedEmployees` alike. -/
theorem upper_cased_term_selects_other_employees :
    toUpperCase "ı" = "I" ∧
    filteredEmployees sampleEmployees "ı" =
      [⟨5, 1, "Ayla", "Kıl", "ayla@acme.com", none, 24⟩] ∧
    filteredEmployees sampleEmployees (toUpperCase "ı") =
      [⟨3, 1, "Di", "Poe", "di@acme.com", none, 22⟩] ∧
    getUnassignedEmployees sampleEmployees sampleTeamItem "ı" ≠
      getUnassignedEmployees sampleEmployees sampleTeamItem (toUpperCase "ı") := by
  decide

theorem lower_upper_basic_latin :
    ∀ n : Fin 128, (upperChar (Char.ofNat n)).map lowerChar = [lowerChar (Char.ofNat n)] := by
  decide

/-- The shortcut of `getUnassignedEmployees` for the empty term gives what the
filter of the Employees page gives on the unassigned employees. -/
theorem getUnassignedEmployees_eq_filtered (employees : List Employee) (team : TeamItem)
    (term : String) :
    getUnassignedEmployees employees team term =
      filteredEmployees (getUnassignedEmployees employees team "") term := by
  by_cases ht : term = ""
  · subst ht
    unfold filteredEmployees
    symm
    rw [List.filter_eq_self]
    intro e _
    simp [includes_empty]
  · unfold getUnassignedEmployees filteredEmployees
    simp only [beq_self_eq_true, if_true, beq_iff_eq, ht, if_false]

/-- C29, amended: for every term, the empty one included,
`getUnassignedEmployees` equals the filter of the Employees page applied to the
unassigned employees; with the empty term that filter returns every employee;
and a term and its upper-cased form select the same employees whenever both
have the same lower case, which is so for every term of Basic Latin
characters. -/
theorem filter_shortcut_is_filtering (employees : List Employee) (team : TeamItem)
    (term : String) (h : toLowerCase (toUpperCase term) = toLowerCase term) :
    (∀ t : String, getUnassignedEmployees employees team t =
      filteredEmployees (getUnassignedEmployees employees team "") t) ∧
    filteredEmployees employees "" = employees ∧
    filteredEmployees employees (toUpperCase term) = filteredEmployees employees term ∧
    getUnassignedEmployees employees team (toUpperCase term) =
      getUnassignedEmployees employees team term ∧
    ∀ t : String, (∀ c ∈ t.toList, c.toNat < 128) →
      toLowerCase (toUpperCase t) = toLowerCase t := by
  have hf : ∀ l : List Employee,
      filteredEmployees l (toUpperCase term) = filteredEmployees l term := by
    intro l
    unfold filteredEmployees
    rw [h]
  refine ⟨getUnassignedEmployees_eq_filtered employees team, ?_, hf employees, ?_, ?_⟩
  · unfold filteredEmployees
    rw [List.filter_eq_self]
    intro e _
    simp [includes_empty]
  · rw [getUnassignedEmployees_eq_filtered employees team (toUpperCase term),
      getUnassignedEmployees_eq_filtered employees team term, hf]
  · intro t ht
    unfold toLowerCase toUpperCase
    congr 1
    show (t.toList.flatMap upperChar).map lowerChar = t.toList.map lowerChar
    generalize t.toList = l at ht
    induction l with
    | nil => rfl
    | cons c rest ih =>
      have hc : c.toNat < 128 := ht c (List.mem_cons_self _ _)
      have hrest := ih fun d hd => ht d (List.mem_cons_of_mem _ hd)
      have hone := lower_upper_basic_latin ⟨c.toNat, hc⟩
      simp only [Char.ofNat_toNat] at hone
      simp only [List.flatMap_cons, List.map_append, List.map_cons, hone, hrest]
      rfl

/-- Witness of the amended C29: the term `di` and its upper-cased form `DI`
select the same sample employee. -/
theorem filter_shortcut_is_filtering_witness :
    filteredEmployees sampleEmployees "di" = [⟨3, 1, "Di", "Poe", "di@acme.com", none, 22⟩] ∧
    filteredEmployees sampleEmployees (toUpperCase "di") =
      filteredEmployees sampleEmployees "di" :=
  ⟨by decide,
   (filter_shortcut_is_filtering sampleEmployees sampleTeamItem "di" (by decide)).2.2.1⟩

end HRMS
